import Mathlib

/-! MegaRAID MFI codec: bit fields, multi-word assembly, the request packet
and the queries.

A shallow embedding of the Go package `megaraid` (`bits.go`, `parse_info.go`,
`ioctl.go`, `megaraid.go`, `macro.go`, and the packet of `TestPDINFO` in
`megaraid_test.go`).  Machine integers are natural numbers
reduced modulo `2 ^ w` wherever the Go code can wrap; byte buffers are lists
of natural numbers below 256.  Go's `uint` and `uintptr` are taken to be 64
bits wide (the package talks to the Linux `megaraid_sas` driver through
64-bit pointers).  The system call behind `Ioctl` is a parameter of the
queries; the response structures are given by their declarations, from which
sizes, offsets and the `encoding/binary` decoding are computed.
-/

namespace Megaraid

/-! ## bits.go -/

/-- Width in bits of Go's `uint` on the target platform. -/
def uintBits : Nat := 64

/-- Go's `x >> count` on a `w`-bit unsigned operand: a count of `w` or more
yields 0. -/
def shr (w x count : Nat) : Nat :=
  if w ≤ count then 0 else (x % 2 ^ w) >>> count

/-- Go's `x << count` on a `w`-bit unsigned operand: bits shifted past the
width are dropped. -/
def shl (w x count : Nat) : Nat :=
  if w ≤ count then 0 else ((x % 2 ^ w) <<< count) % 2 ^ w

/-- The recursive `mask` of `bits.go`:
`mask(0) = 0`, `mask(size) = (1 << (size-1)) + mask(size-1)` in `uint`
arithmetic. -/
def mask : Nat → Nat
  | 0 => 0
  | size + 1 => (shl uintBits 1 size + mask size) % 2 ^ uintBits

/-- `BitField[T](data, offset, size) = (data >> offset) & T(mask(size))` for
an unsigned type `T` of `w` bits. -/
def BitField (w data offset size : Nat) : Nat :=
  shr w data offset &&& (mask size % 2 ^ w)

/-! ## parse_info.go: ArrayZip -/

/-- One iteration of the loop body of `ArrayZip`: a zero word is skipped, the
first word met while the accumulator is zero is taken as it is, every other
word is shifted left by `offset` and or-ed into the accumulator. -/
def ArrayZip.step (offset va a : Nat) : Nat :=
  if a = 0 then va
  else if va = 0 then a % 2 ^ 64
  else shl 64 a offset ||| va

/-- `ArrayZip(arr, offset)`: `none` stands for the panic on an empty slice. -/
def ArrayZip (arr : List Nat) (offset : Nat) : Option Nat :=
  if arr.length < 1 then none
  else some (arr.foldl (ArrayZip.step offset) 0)

/-! ## macro.go: the accessors built on ArrayZip -/

/-- The physical drive address record (`MR_PD_ADDRESS`); `SasAddr` holds four
32-bit words. -/
structure MR_PD_ADDRESS where
  DeviceId : Nat
  EnclosureId : Nat
  EnclosureIndex : Nat
  SlotNumber : Nat
  ScsiDevType : Nat
  ConnectPortBitmap : Nat
  SasAddr : List Nat

/-- `GetSasAddr` of `MR_PD_ADDRESS`: `ArrayZip(a.SasAddr[:], 32)`. -/
def MR_PD_ADDRESS.GetSasAddr (a : MR_PD_ADDRESS) : Option Nat :=
  ArrayZip a.SasAddr 32

/-- The anonymous struct type of the field `Properties` of `MR_PD_INFO`. -/
structure MR_PD_INFO.PropertiesT where
  Bits : Nat

/-- The fields of `MR_PD_INFO` that the accessors read: the `[96]uint8`
inquiry block, the 16-bit `FwState`, the two 32-bit words of `RawSize` and
the 32-bit `Properties.Bits`.  The defaults are the zero value of the Go
struct. -/
structure MR_PD_INFO where
  InquiryData : List Nat := List.replicate 96 0
  FwState : Nat := 0
  RawSize : List Nat := [0, 0]
  Properties : MR_PD_INFO.PropertiesT := ⟨0⟩

/-- `GetSize` of `MR_PD_INFO`: `SizeString(ArrayZip(info.RawSize[:], 32))`,
the formatter being passed in. -/
def MR_PD_INFO.GetSize (SizeString : Nat → String) (info : MR_PD_INFO) :
    Option String :=
  (ArrayZip info.RawSize 32).map SizeString

/-- The assembly rule in the words of the specification: the bitwise OR, over
every index `i` whose word is non-zero, of that word shifted left by
`i * shift` bits, taken modulo `2 ^ 64`.  The first argument is the index of
the head of the list. -/
def positionalOr (shift : Nat) : Nat → List Nat → Nat
  | _, [] => 0
  | i, a :: rest =>
    (if a = 0 then 0 else (a <<< (i * shift)) % 2 ^ 64)
      ||| positionalOr shift (i + 1) rest

/-! ## Little-endian byte strings -/

/-- The `n` little-endian bytes of `v` (of `v mod 256 ^ n`), as
`encoding/binary` writes an `n`-byte unsigned integer with
`binary.LittleEndian`, and as a little-endian host stores it in memory. -/
def putLE : Nat → Nat → List Nat
  | 0, _ => []
  | n + 1, v => v % 256 :: putLE n (v / 256)

/-- The unsigned integer a little-endian byte string denotes. -/
def getLE : List Nat → Nat
  | [] => 0
  | b :: bs => b + 256 * getLE bs

/-- Bytes `off .. off + n` of a buffer. -/
def slice (buf : List Nat) (off n : Nat) : List Nat :=
  (buf.drop off).take n

/-- A store of the bytes `bs` into memory `mem` starting at byte `off`. -/
def store : List Nat → Nat → List Nat → List Nat
  | mem, _, [] => mem
  | mem, off, b :: bs => store (mem.set off b) (off + 1) bs

/-! ## macro.go: constants and wire structures -/

/-- The sixth constant of the `MFI_CMD_*` iota block (`MFI_CMD_INIT = 0`). -/
def MFI_CMD_DCMD : Nat := 5

def MFI_STAT_INVALID_STATUS : Nat := 0xff

def MFI_FRAME_DIR_READ : Nat := 0x0010

def MAX_IOCTL_SGE : Nat := 16

def MEGASAS_MAX_DEV_PER_CHANNEL : Nat := 128

/-- The fields of `megasas_dcmd_frame`, in declaration order. -/
inductive DcmdField
  | cmd | reserved_0 | cmd_status | reserved_1 | sge_count | context | pad_0
  | flags | timeout | data_xfer_len | opcode | mbox | sgl
  deriving DecidableEq, Repr

/-- A field of a Go struct: its name, its size in bytes and the alignment of
its type. -/
structure FieldDecl where
  name : DcmdField
  size : Nat
  align : Nat

/-- The declaration of `megasas_dcmd_frame`: `uint8` fields and byte arrays
have alignment 1, `uint16` 2, `uint32` 4; `megasas_sge64` is three `uint32`
(12 bytes, alignment 4). -/
def megasas_dcmd_frame : List FieldDecl :=
  [⟨.cmd, 1, 1⟩, ⟨.reserved_0, 1, 1⟩, ⟨.cmd_status, 1, 1⟩, ⟨.reserved_1, 4, 1⟩,
   ⟨.sge_count, 1, 1⟩, ⟨.context, 4, 4⟩, ⟨.pad_0, 4, 4⟩, ⟨.flags, 2, 2⟩,
   ⟨.timeout, 2, 2⟩, ⟨.data_xfer_len, 4, 4⟩, ⟨.opcode, 4, 4⟩, ⟨.mbox, 12, 1⟩,
   ⟨.sgl, 12, 4⟩]

/-- Round `off` up to a multiple of `a`. -/
def alignUp (off a : Nat) : Nat :=
  (off + a - 1) / a * a

/-- Offset of `target` when the fields are laid out in memory from offset
`off`, each at the next multiple of its alignment. -/
def layoutOffset (target : DcmdField) : List FieldDecl → Nat → Nat
  | [], off => off
  | f :: fs, off =>
    if f.name = target then alignUp off f.align
    else layoutOffset target fs (alignUp off f.align + f.size)

/-- `unsafe.Offsetof(dcmd.<field>)`: the in-memory offset of a field of
`megasas_dcmd_frame`. -/
def Offsetof (target : DcmdField) : Nat :=
  layoutOffset target megasas_dcmd_frame 0

/-- Offset of `target` in the packed layout: the sum of the sizes of the
fields declared before it. -/
def packedOffset (target : DcmdField) : List FieldDecl → Nat
  | [] => 0
  | f :: fs => if f.name = target then 0 else f.size + packedOffset target fs

/-- One scatter-gather slot of the packet: `Iovec{IovBase, IovLen}`. -/
structure Iovec where
  IovBase : Nat
  IovLen : Nat
  deriving DecidableEq, Repr

/-- The ioctl packet `megasas_iocpacket`; `frame` is the `[128]byte` union
and `sgl` the `[MAX_IOCTL_SGE]Iovec` array. -/
structure megasas_iocpacket where
  host_no : Nat
  __pad1 : Nat
  sgl_off : Nat
  sge_count : Nat
  sense_off : Nat
  sense_len : Nat
  frame : List Nat
  sgl : List Iovec
  deriving DecidableEq, Repr

/-- A value of the Go type: every integer within its width, 128 frame bytes,
16 scatter-gather slots of two 64-bit integers. -/
def megasas_iocpacket.WellTyped (ioc : megasas_iocpacket) : Prop :=
  ioc.host_no < 2 ^ 16 ∧ ioc.__pad1 < 2 ^ 16 ∧ ioc.sgl_off < 2 ^ 32
    ∧ ioc.sge_count < 2 ^ 32 ∧ ioc.sense_off < 2 ^ 32 ∧ ioc.sense_len < 2 ^ 32
    ∧ ioc.frame.length = 128 ∧ (∀ b ∈ ioc.frame, b < 256)
    ∧ ioc.sgl.length = MAX_IOCTL_SGE
    ∧ ∀ v ∈ ioc.sgl, v.IovBase < 2 ^ 64 ∧ v.IovLen < 2 ^ 64

/-- The zero value of `megasas_iocpacket`. -/
def megasas_iocpacket.zero : megasas_iocpacket :=
  { host_no := 0, __pad1 := 0, sgl_off := 0, sge_count := 0, sense_off := 0,
    sense_len := 0, frame := List.replicate 128 0,
    sgl := List.replicate MAX_IOCTL_SGE ⟨0, 0⟩ }

/-! ## megaraid.go: PackedBytes and MFI_READ -/

/-- What `binary.Write(b, binary.LittleEndian, ·)` emits for one `Iovec`. -/
def Iovec.PackedBytes (v : Iovec) : List Nat :=
  putLE 8 v.IovBase ++ putLE 8 v.IovLen

/-- `PackedBytes`: `binary.Write(b, binary.LittleEndian, ioc)`, every field
in declaration order, fixed-size integers little-endian, arrays element by
element. -/
def megasas_iocpacket.PackedBytes (ioc : megasas_iocpacket) : List Nat :=
  putLE 2 ioc.host_no ++ putLE 2 ioc.__pad1 ++ putLE 4 ioc.sgl_off
    ++ putLE 4 ioc.sge_count ++ putLE 4 ioc.sense_off ++ putLE 4 ioc.sense_len
    ++ ioc.frame ++ ioc.sgl.flatMap Iovec.PackedBytes

structure ScsiDevice where
  Channel : Nat
  DeviceId : Nat
  deriving DecidableEq, Repr

structure Instance.CmdT where
  OpCode : Nat
  deriving DecidableEq, Repr

structure Instance.DcmdT where
  MboxB : List Nat
  deriving DecidableEq, Repr

/-- The `Instance` a query works on: `Buf` is the response buffer, `MboxB`
the `[12]uint8` mailbox bytes. -/
structure Instance where
  HostNo : Nat
  Buf : List Nat
  Cmd : Instance.CmdT
  Dcmd : Instance.DcmdT
  deriving DecidableEq, Repr

/-- The mailbox stores of `MFI_READ` (lines 109-116), on the frame bytes that
`dcmd` overlays: with a device, `device_id` (in `uint16` arithmetic) goes to
element 0 of the mailbox seen as `[6]uint16`; without one, `MboxB[0]` goes to
byte 0 of the mailbox when it is positive. -/
def MFI_READ.mbox (inst : Instance) (sdev : List ScsiDevice)
    (frame : List Nat) : List Nat :=
  match sdev with
  | s :: _ =>
    let device_id :=
      ((s.Channel * MEGASAS_MAX_DEV_PER_CHANNEL) % 2 ^ 16 + s.DeviceId) % 2 ^ 16
    store frame (Offsetof .mbox + 2 * 0) (putLE 2 device_id)
  | [] =>
    if inst.Dcmd.MboxB.getD 0 0 > 0 then
      store frame (Offsetof .mbox + 0) (putLE 1 (inst.Dcmd.MboxB.getD 0 0))
    else frame

/-- The stores of `MFI_READ` into the fixed fields of the frame (lines
118-125), each at the field's in-memory offset and in the byte order of a
little-endian host. -/
def MFI_READ.dcmd (inst : Instance) (frame : List Nat) : List Nat :=
  let frame := store frame (Offsetof .cmd) (putLE 1 MFI_CMD_DCMD)
  let frame := store frame (Offsetof .cmd_status) (putLE 1 MFI_STAT_INVALID_STATUS)
  let frame := store frame (Offsetof .opcode) (putLE 4 inst.Cmd.OpCode)
  let frame := store frame (Offsetof .data_xfer_len)
    (putLE 4 (inst.Buf.length % 2 ^ 32))
  let frame := store frame (Offsetof .sge_count) (putLE 1 1)
  let frame := store frame (Offsetof .flags) (putLE 2 MFI_FRAME_DIR_READ)
  let frame := store frame (Offsetof .timeout) (putLE 2 0)
  store frame (Offsetof .pad_0) (putLE 4 0)

/-- The packet `MFI_READ` has built when it reaches `PackedBytes` (lines
104-130).  `dcmd` overlays `ioc.frame`, so the stores through it are stores
into the frame bytes.  `bufAddr` is the address of `inst.Buf[0]`; `none` is
the index panic of `&inst.Buf[0]` on an empty buffer. -/
def MFI_READ.ioc (bufAddr : Nat) (inst : Instance) (sdev : List ScsiDevice) :
    Option megasas_iocpacket :=
  let ioc : megasas_iocpacket :=
    { megasas_iocpacket.zero with host_no := inst.HostNo }
  let frame := MFI_READ.dcmd inst (MFI_READ.mbox inst sdev ioc.frame)
  let ioc := { ioc with frame := frame, sge_count := 1,
                        sgl_off := Offsetof .sgl % 2 ^ 32 }
  match inst.Buf with
  | [] => none
  | _ :: _ =>
    some { ioc with
      sgl := ioc.sgl.set 0 ⟨bufAddr % 2 ^ 64, inst.Buf.length % 2 ^ 64⟩ }

/-- The bytes `MFI_READ` passes to the ioctl: `ioc.PackedBytes()`. -/
def MFI_READ.iocBuf (bufAddr : Nat) (inst : Instance) (sdev : List ScsiDevice) :
    Option (List Nat) :=
  (MFI_READ.ioc bufAddr inst sdev).map megasas_iocpacket.PackedBytes

/-- The frame region of a serialized packet: packet bytes 20..148. -/
def frameOf (pkt : List Nat) : List Nat :=
  slice pkt 20 128

/-- The mailbox region of a frame: frame bytes 28..40. -/
def mboxOf (frame : List Nat) : List Nat :=
  slice frame 28 12

/-! ## parse_info.go: ParseVpdPage83Jbod -/

/-- `binary.BigEndian.Uint64`: the unsigned integer a big-endian byte string
denotes. -/
def getBE (bs : List Nat) : Nat :=
  bs.foldl (fun acc b => acc * 256 + b) 0

/-- The lowercase hexadecimal digit of `d < 16`. -/
def hexDigit (d : Nat) : Char :=
  if d < 10 then Char.ofNat (48 + d) else Char.ofNat (87 + d)

/-- The `n` least significant hexadecimal digits of `v`, most significant
first. -/
def hexFixed : Nat → Nat → List Char
  | 0, _ => []
  | n + 1, v => hexFixed n (v / 16) ++ [hexDigit (v % 16)]

/-- `fmt.Sprintf("naa.%016x", wwn)` for a `uint64`: a value below `16 ^ 16`
prints as exactly 16 zero-padded digits. -/
def sprintfNaa (wwn : Nat) : String :=
  "naa." ++ String.mk (hexFixed 16 (wwn % 2 ^ 64))

/-- The loop of `ParseVpdPage83Jbod` from a given `offset`; the first
argument bounds the number of iterations and `none` means it was used up. -/
def ParseVpdPage83Jbod.loop (data : List Nat) : Nat → Nat → Option String
  | 0, _ => none
  | fuel + 1, offset =>
    if offset < data.length then
      if offset + 4 > data.length then some "invalid length"
      else
        let length := data.getD (offset + 3) 0
        if length = 0 ∨ offset + 4 + length > data.length then
          some "invalid length"
        else
          let identifier := slice data (offset + 4) length
          if identifier.length ≥ 8 then
            let naaType := shr 8 (identifier.getD 0 0) 4 &&& 0xF
            if naaType = 0x5 ∨ naaType = 0x6 then
              some (sprintfNaa (getBE (identifier.drop (identifier.length - 8))))
            else ParseVpdPage83Jbod.loop data fuel (offset + 4 + length)
          else ParseVpdPage83Jbod.loop data fuel (offset + 4 + length)
    else some "no valid WWN found"

/-- `ParseVpdPage83Jbod(data)`.  Every iteration advances `offset` by at
least 5, so `len(data) + 1` iterations are never used up. -/
def ParseVpdPage83Jbod (data : List Nat) : Option String :=
  if data.length < 4 then some "invalid data"
  else ParseVpdPage83Jbod.loop data (data.length + 1) 4

/-- An identification descriptor of VPD page 0x83 as the claims describe it:
three header bytes, the length byte, and the payload. -/
structure Descriptor where
  h0 : Nat
  h1 : Nat
  h2 : Nat
  payload : List Nat

/-- The bytes of a descriptor: a 4-byte header whose byte at index 3 is the
payload length, then the payload. -/
def Descriptor.encode (d : Descriptor) : List Nat :=
  [d.h0, d.h1, d.h2, d.payload.length] ++ d.payload

/-- A well-formed descriptor: a payload of 1 to 255 bytes. -/
def Descriptor.wellFormed (d : Descriptor) : Prop :=
  1 ≤ d.payload.length ∧ d.payload.length ≤ 255 ∧ ∀ b ∈ d.payload, b < 256

/-- A qualifying descriptor: a payload of at least 8 bytes whose first byte
has top nibble 0x5 or 0x6. -/
def Descriptor.qualifies (d : Descriptor) : Prop :=
  8 ≤ d.payload.length ∧ (d.payload.getD 0 0 / 16 = 5 ∨ d.payload.getD 0 0 / 16 = 6)

/-- The value of a lowercase hexadecimal digit. -/
def hexDigitVal (c : Char) : Nat :=
  if c.toNat < 58 then c.toNat - 48 else c.toNat - 87

/-- The number a string of hexadecimal digits denotes. -/
def hexVal (cs : List Char) : Nat :=
  cs.foldl (fun acc c => acc * 16 + hexDigitVal c) 0

/-! ## macro.go: the SCSI inquiry block -/

/-- The parsed inquiry data (`InquiryData`).  A Go string is kept as its
sequence of bytes. -/
structure InquiryData where
  PeripheralQualifier : Nat
  PeripheralDeviceType : Nat
  RemovableMedia : Bool
  Version : Nat
  ResponseDataFormat : Nat
  VendorIdentification : List Nat
  ProductIdentification : List Nat
  FirmwareRevision : List Nat
  SerialNumber : List Nat
  deriving DecidableEq, Repr

/-- `bytes.TrimRight(b, "\x00")`: the trailing NUL bytes are removed. -/
def TrimRightNul (b : List Nat) : List Nat :=
  b.rdropWhile (fun c => c == 0)

/-- White space among the ASCII characters, as `strings.TrimSpace` knows
it: `\t`, `\n`, `\v`, `\f`, `\r` and the space. -/
def isSpace (c : Nat) : Bool :=
  c == 9 || c == 10 || c == 11 || c == 12 || c == 13 || c == 32

/-- `strings.TrimSpace(s)` on an ASCII string (every byte below 0x80): the
leading and the trailing white space are removed.  Multi-byte UTF-8 white
space, which Go also trims, is outside this model. -/
def TrimSpace (s : List Nat) : List Nat :=
  (s.dropWhile isSpace).rdropWhile isSpace

/-- `trimString(b) = strings.TrimSpace(string(bytes.TrimRight(b, "\x00")))`. -/
def trimString (b : List Nat) : List Nat :=
  TrimSpace (TrimRightNul b)

/-- `GetInquiryData`: the error is the one for a block shorter than 96
bytes (which the `[96]uint8` field never is); `data[a:b]` is
`slice data a (b - a)`, and the byte operations are those of `uint8`. -/
def MR_PD_INFO.GetInquiryData (info : MR_PD_INFO) :
    Except String Megaraid.InquiryData :=
  let data := info.InquiryData
  if data.length < 96 then
    .error ("inquiry data too short: expected 96 bytes, got " ++ toString data.length)
  else
    .ok
      { PeripheralQualifier := shr 8 (data.getD 0 0 &&& 0xE0) 5
        PeripheralDeviceType := data.getD 0 0 &&& 0x1F
        RemovableMedia := (data.getD 1 0 &&& 0x80) == 0x80
        Version := data.getD 2 0
        ResponseDataFormat := data.getD 3 0 &&& 0x0F
        VendorIdentification := trimString (slice data 8 8)
        ProductIdentification := trimString (slice data 16 16)
        FirmwareRevision := trimString (slice data 32 4)
        SerialNumber := trimString (slice data 36 20) }

/-- The bytes of an ASCII string literal. -/
def asciiBytes (s : String) : List Nat :=
  s.data.map Char.toNat

/-- The reading of `trimString` in the claim: `b` without its longest suffix
made only of space (0x20) and NUL (0x00) bytes. -/
def stripSpaceNul (b : List Nat) : List Nat :=
  b.rdropWhile (fun c => c == 32 || c == 0)

/-! ## parse_info.go: SizeString -/

def SectorSz : Nat := 512

def KB : Nat := 2 ^ 10

def MB : Nat := 2 ^ 20

def GB : Nat := 2 ^ 30

def TB : Nat := 2 ^ 40

/-- A non-negative rational `num / den` (`den > 0`): the exact value of a
`float64`, or of an arithmetic operation before it is rounded. -/
structure Frac where
  num : Nat
  den : Nat
  deriving DecidableEq, Repr

/-- Binary logarithm by repeated halving, at most `fuel` times. -/
def ilog2Fuel : Nat → Nat → Nat
  | 0, _ => 0
  | fuel + 1, n => if 2 ≤ n then ilog2Fuel fuel (n / 2) + 1 else 0

/-- The position of the highest set bit: `2 ^ ilog2 n ≤ n < 2 ^ (ilog2 n + 1)`
for `n > 0`. -/
def ilog2 (n : Nat) : Nat :=
  ilog2Fuel n n

/-- The integer nearest to `n / d`, a tie going to the even one. -/
def roundHalfEven (n d : Nat) : Nat :=
  if 2 * (n % d) > d ∨ (2 * (n % d) = d ∧ n / d % 2 = 1) then n / d + 1 else n / d

/-- The `float64` nearest to `x` (IEEE 754 round to nearest, ties to even,
53-bit significand): `x` is scaled by a power of two into `[2^52, 2^53)`,
rounded to an integer and scaled back.  The exponent is not bounded; every
value `SizeString` computes is 0 or lies between `2^-31` and `2^71`, well
inside the range of normal numbers. -/
def float64 (x : Frac) : Frac :=
  if x.num = 0 then ⟨0, 1⟩
  else if x.den * 2 ^ ilog2 x.num * 2 ^ 52 ≤ x.num * 2 ^ (52 + ilog2 x.den) then
    ⟨roundHalfEven (x.num * 2 ^ (52 + ilog2 x.den)) (x.den * 2 ^ ilog2 x.num)
        * 2 ^ ilog2 x.num,
      2 ^ (52 + ilog2 x.den)⟩
  else
    ⟨roundHalfEven (2 * (x.num * 2 ^ (52 + ilog2 x.den)))
          (x.den * 2 ^ ilog2 x.num)
        * 2 ^ ilog2 x.num,
      2 ^ (53 + ilog2 x.den)⟩

/-- The `float64` quotient `x / c` for an integer constant `c` that is a
`float64` itself. -/
def fdiv (x : Frac) (c : Nat) : Frac :=
  float64 ⟨x.num, x.den * c⟩

/-- The `float64` product `x * c` for an integer constant `c` that is a
`float64` itself. -/
def fmul (x : Frac) (c : Nat) : Frac :=
  float64 ⟨x.num * c, x.den⟩

/-- `math.Round(x)` for `x ≥ 0`: the nearest integer, a tie going away from
zero; the result is an integer `float64`. -/
def mathRound (x : Frac) : Frac :=
  ⟨(2 * x.num + x.den) / (2 * x.den), 1⟩

/-- The decimal text of `n / 100` with two decimals. -/
def fmtHundredths (n : Nat) : String :=
  toString (n / 100) ++ "." ++ String.mk [Nat.digitChar (n % 100 / 10), Nat.digitChar (n % 10)]

/-- `fmt.Sprintf("%.2f", x)` for `x ≥ 0`: the exact value of `x` rounded to
two decimals, a tie going to the even digit. -/
def sprintf2f (x : Frac) : String :=
  fmtHundredths (roundHalfEven (100 * x.num) x.den)

/-- `SizeString(sectors)`.  `sectors*SectorSz` is a `uint64` product; it is
converted to `float64` and divided by each unit in turn. -/
def SizeString (sectors : Nat) : String :=
  let bytes := float64 ⟨sectors * SectorSz % 2 ^ 64, 1⟩
  let t := fdiv bytes TB
  if t.den < t.num then sprintf2f (fdiv (mathRound (fmul t 100)) 100) ++ " TB"
  else
    let g := fdiv bytes GB
    if g.den < g.num then sprintf2f (fdiv (mathRound (fmul g 100)) 100) ++ " GB"
    else
      let m := fdiv bytes MB
      if m.den < m.num then sprintf2f (fdiv (mathRound (fmul m 100)) 100) ++ " MB"
      else
        let k := fdiv bytes KB
        sprintf2f (fdiv (mathRound (fmul k 100)) 100) ++ " kB"

/-- The unit the specification selects for `B` bytes: the largest of TB, GB,
MB whose quotient exceeds 1, and kB if none does. -/
def unitFor (B : Nat) : Nat × String :=
  if TB < B then (TB, " TB")
  else if GB < B then (GB, " GB")
  else if MB < B then (MB, " MB")
  else (KB, " kB")

/-- The exact quotient `B / U` rounded to hundredths, a tie going away from
zero; the result counts hundredths. -/
def hundredthsHalfAway (B U : Nat) : Nat :=
  (200 * B + U) / (2 * U)

/-- A string ends in `u`. -/
def hasSuffix (s u : String) : Prop :=
  ∃ p : String, s = p ++ u

/-! ## ioctl.go -/

def directionNone : Nat := 0

def directionWrite : Nat := 1

def directionRead : Nat := 2

def numberBits : Nat := 8

def typeBits : Nat := 8

def sizeBits : Nat := 14

def directionBits : Nat := 2

def numberShift : Nat := 0

def typeShift : Nat := numberShift + numberBits

def sizeShift : Nat := typeShift + typeBits

def directionShift : Nat := sizeShift + sizeBits

/-- The ioctl command for a direction, type, number and size, in `uintptr`
(64-bit) arithmetic:
`(dir << directionShift) | (t << typeShift) | (nr << numberShift) | (size << sizeShift)`. -/
def _ioc (dir t nr size : Nat) : Nat :=
  shl 64 dir directionShift ||| shl 64 t typeShift ||| shl 64 nr numberShift
    ||| shl 64 size sizeShift

/-- The command of a read/write ioctl:
`_ioc(directionWrite|directionRead, t, nr, size)`. -/
def Iowr (t nr size : Nat) : Nat :=
  _ioc (directionWrite ||| directionRead) t nr size

/-- What `binary.Size(megasas_iocpacket{})` returns: the number of bytes
`binary.Write` generates for the zero packet. -/
def megasas_iocpacket.Size : Nat :=
  megasas_iocpacket.zero.PackedBytes.length

/-- The ioctl command of the firmware pass-through:
`Iowr('M', 1, uintptr(binary.Size(megasas_iocpacket{})))`. -/
def MEGASAS_IOC_FIRMWARE : Nat :=
  Iowr (Char.toNat 'M') 1 (megasas_iocpacket.Size % 2 ^ 64)

/-! ## macro.go: the direct-command opcodes -/

def MR_DCMD_CTRL_GET_INFO : Nat := 0x01010000

def MR_DCMD_LD_GET_LIST : Nat := 0x03010000

def MR_DCMD_LD_LIST_QUERY : Nat := 0x03010100

def MR_DCMD_LD_GET_PROPERTIES : Nat := 0x03030000

def MR_DCMD_PD_LIST_QUERY : Nat := 0x02010100

def MR_DCMD_PD_GET_LIST : Nat := 0x02010000

def MR_DCMD_PD_GET_INFO : Nat := 0x02020000

def MR_DCMD_CTRL_EVENT_GET_INFO : Nat := 0x01040100

def MR_DCMD_CTRL_EVENT_GET : Nat := 0x01040300

def MR_DCMD_CTRL_EVENT_WAIT : Nat := 0x01040500

def MR_DCMD_CTRL_DEVICE_LIST_GET : Nat := 0x01190600

def MEGASAS_CLUSTER_ID_SIZE : Nat := 16

def MEGASAS_MAX_PD_CHANNELS : Nat := 2

def MEGASAS_MAX_PD : Nat := MEGASAS_MAX_PD_CHANNELS * MEGASAS_MAX_DEV_PER_CHANNEL

/-- The second constant of the `MR_LD_QUERY_TYPE_*` iota block
(`MR_LD_QUERY_TYPE_ALL = 0`). -/
def MR_LD_QUERY_TYPE_EXPOSED_TO_HOST : Nat := 1

def MAX_LOGICAL_DRIVES_EXT : Nat := 256

/-! ## Go types of fixed size: layout and `encoding/binary` decoding -/

/-- A fixed-size Go type as the wire structures use them: the unsigned
integers (`byte` is `uint8`), arrays, and structs given by their fields in
declaration order (a blank field is called `"_"`). -/
inductive GoType
  | uint8
  | uint16
  | uint32
  | uint64
  | array (len : Nat) (elem : GoType)
  | struct (fields : List (String × GoType))

/-- A value of a fixed-size Go type. -/
inductive GoValue
  | uint (v : Nat)
  | array (elems : List GoValue)
  | struct (fields : List (String × GoValue))

mutual
/-- The `sizeof` of `encoding/binary` (what `binary.Size` reports): integers
by their width, an array as element size times length, a struct as the sum
of its fields, without padding. -/
def binary.sizeof : GoType → Nat
  | .uint8 => 1
  | .uint16 => 2
  | .uint32 => 4
  | .uint64 => 8
  | .array len elem => binary.sizeof elem * len
  | .struct fields => binary.sizeofFields fields
/-- The sum of `binary.sizeof` over the fields of a struct. -/
def binary.sizeofFields : List (String × GoType) → Nat
  | [] => 0
  | (_, t) :: rest => binary.sizeof t + binary.sizeofFields rest
end

mutual
/-- The alignment of a type in memory on a 64-bit target: an integer is
aligned to its width, an array to its element, a struct to its most aligned
field. -/
def Alignof : GoType → Nat
  | .uint8 => 1
  | .uint16 => 2
  | .uint32 => 4
  | .uint64 => 8
  | .array _ elem => Alignof elem
  | .struct fields => AlignofFields fields
/-- The largest alignment among the fields of a struct. -/
def AlignofFields : List (String × GoType) → Nat
  | [] => 1
  | (_, t) :: rest => max (Alignof t) (AlignofFields rest)
end

mutual
/-- The in-memory size of a type, Go's `Sizeof`: every field of a struct at
the next multiple of its alignment, the whole rounded up to the alignment of
the struct. -/
def Sizeof : GoType → Nat
  | .uint8 => 1
  | .uint16 => 2
  | .uint32 => 4
  | .uint64 => 8
  | .array len elem => Sizeof elem * len
  | .struct fields => alignUp (SizeofFields fields 0) (AlignofFields fields)
/-- The end of the last field when the fields are laid out from `off`. -/
def SizeofFields : List (String × GoType) → Nat → Nat
  | [], off => off
  | (_, t) :: rest, off => SizeofFields rest (alignUp off (Alignof t) + Sizeof t)
end

mutual
/-- The zero value of a type. -/
def GoType.zero : GoType → GoValue
  | .uint8 => .uint 0
  | .uint16 => .uint 0
  | .uint32 => .uint 0
  | .uint64 => .uint 0
  | .array len elem => .array (List.replicate len (GoType.zero elem))
  | .struct fields => .struct (GoType.zeroFields fields)
/-- The zero values of the fields of a struct. -/
def GoType.zeroFields : List (String × GoType) → List (String × GoValue)
  | [] => []
  | (name, t) :: rest => (name, GoType.zero t) :: GoType.zeroFields rest
end

/-- The element loop of the decoder (`for i := 0; i < l; i++` over an array
or slice): `l` values read one after the other from `offset`. -/
def decoder.elems (value : Nat → GoValue × Nat) : Nat → Nat → List GoValue × Nat
  | 0, offset => ([], offset)
  | l + 1, offset =>
    let v := value offset
    let rest := decoder.elems value l v.2
    (v.1 :: rest.1, rest.2)

mutual
/-- The `decoder.value` of `encoding/binary` with `binary.LittleEndian`: the
value of type `t` read from `buf` at `offset`, and the offset after it.  An
integer of `n` bytes is `buf[offset : offset+n]` little-endian; arrays and
structs are read element by element and field by field. -/
def decoder.value (buf : List Nat) : GoType → Nat → GoValue × Nat
  | .uint8, offset => (.uint (getLE (slice buf offset 1)), offset + 1)
  | .uint16, offset => (.uint (getLE (slice buf offset 2)), offset + 2)
  | .uint32, offset => (.uint (getLE (slice buf offset 4)), offset + 4)
  | .uint64, offset => (.uint (getLE (slice buf offset 8)), offset + 8)
  | .array len elem, offset =>
    let r := decoder.elems (fun o => decoder.value buf elem o) len offset
    (.array r.1, r.2)
  | .struct fields, offset =>
    let r := decoder.fields buf fields offset
    (.struct r.1, r.2)
/-- The field loop of `decoder.value` on a struct: a blank field is skipped
(`d.skip`: the offset moves on by its size and the field keeps its zero
value), every other field is read. -/
def decoder.fields (buf : List Nat) :
    List (String × GoType) → Nat → List (String × GoValue) × Nat
  | [], offset => ([], offset)
  | (name, t) :: rest, offset =>
    if name = "_" then
      let r := decoder.fields buf rest (offset + binary.sizeof t)
      ((name, GoType.zero t) :: r.1, r.2)
    else
      let v := decoder.value buf t offset
      let r := decoder.fields buf rest v.2
      ((name, v.1) :: r.1, r.2)
end

/-- The errors the queries can return: a non-zero `errno` of the system
call, an error made by `fmt.Errorf`, and `io.EOF` and `io.ErrUnexpectedEOF`
of a short read. -/
inductive Error
  | Errno (errno : Nat)
  | Errorf (msg : String)
  | EOF
  | ErrUnexpectedEOF
  deriving DecidableEq, Repr

/-- `binary.Read(bytes.NewBuffer(buf), binary.LittleEndian, &data)` for
`data` of type `t`: the `binary.sizeof t` leading bytes of `buf` are read in
full (`io.ReadFull`), which fails on a shorter buffer, and decoded. -/
def binary.Read (buf : List Nat) (t : GoType) : Except Error GoValue :=
  let size := binary.sizeof t
  if buf.length < size then
    .error (if buf.length = 0 then .EOF else .ErrUnexpectedEOF)
  else .ok (decoder.value (buf.take size) t 0).1

/-- Field `name` of a struct value (`v.name`). -/
def GoValue.field (v : GoValue) (name : String) : GoValue :=
  match v with
  | .struct fields => (fields.lookup name).getD (.uint 0)
  | _ => .uint 0

/-- Element `i` of an array value (`v[i]`). -/
def GoValue.index (v : GoValue) (i : Nat) : GoValue :=
  match v with
  | .array elems => elems.getD i (.uint 0)
  | _ => .uint 0

/-- The integer an integer value holds. -/
def GoValue.toNat : GoValue → Nat
  | .uint v => v
  | _ => 0

/-- The integers an array of integers holds. -/
def GoValue.toList : GoValue → List Nat
  | .array elems => elems.map GoValue.toNat
  | _ => []

/-- Offset and type, in the packed layout, of the first field called `name`
among `fields`: the sizes of the fields declared before it, added up. -/
def binary.offsetof (name : String) :
    List (String × GoType) → Option (Nat × GoType)
  | [] => none
  | (n, t) :: rest =>
    if n = name then some (0, t)
    else (binary.offsetof name rest).map fun r => (binary.sizeof t + r.1, r.2)

/-- The fields of a struct type. -/
def GoType.fields : GoType → List (String × GoType)
  | .struct fields => fields
  | _ => []

/-- Offset and type, in the packed layout of `t`, of the field reached by a
path of field names (`["Properties", "Bits"]` is `t.Properties.Bits`). -/
def binary.offsetofPath : List String → GoType → Option (Nat × GoType)
  | [], t => some (0, t)
  | name :: path, t =>
    match binary.offsetof name t.fields with
    | none => none
    | some (o, ft) => (binary.offsetofPath path ft).map fun r => (o + r.1, r.2)

/-- The bytes a field covers in the packed layout of `t`: its offset and the
offset after its last byte. -/
def binary.extent (path : List String) (t : GoType) : Option (Nat × Nat) :=
  (binary.offsetofPath path t).map fun r => (r.1, r.1 + binary.sizeof r.2)

/-! ## macro.go: the response structures -/

/-- `mrProgress`. -/
def mrProgress : GoType :=
  GoType.struct [
    ("Progress", GoType.uint16),
    ("ElapsedSecs", GoType.uint16)]

/-- `MR_PROGRESS`. -/
def MR_PROGRESS : GoType :=
  GoType.struct [
    ("Mrprogress", mrProgress)]

/-- `MR_PD_PROGRESS`. -/
def MR_PD_PROGRESS : GoType :=
  GoType.struct [
    ("Active", GoType.array 4 GoType.uint8),
    ("Rbld", MR_PROGRESS),
    ("Patrol", MR_PROGRESS),
    ("Clear", MR_PROGRESS),
    ("Pause", GoType.array 4 GoType.uint8),
    ("Reserved", GoType.array 3 MR_PROGRESS)]

/-- `MR_PD_DDF_TYPE`. -/
def MR_PD_DDF_TYPE : GoType :=
  GoType.struct [
    ("PdType", GoType.uint16),
    ("_", GoType.uint16)]

/-- The declaration of `MR_PD_INFO` (lines 232-341). -/
def MR_PD_INFO.decl : GoType :=
  GoType.struct [
    ("Ref", GoType.struct [
      ("DeviceId", GoType.uint16),
      ("SeqNum", GoType.uint16)]),
    ("InquiryData", GoType.array 96 GoType.uint8),
    ("VpdPage83", GoType.array 64 GoType.uint8),
    ("NotSupported", GoType.uint8),
    ("ScsiDevType", GoType.uint8),
    ("ConnectedPortBitmap", GoType.uint8),
    ("DeviceSpeed", GoType.uint8),
    ("MediaErrCount", GoType.uint32),
    ("OtherErrCount", GoType.uint32),
    ("PredFailCount", GoType.uint32),
    ("LastPredFailEventSeqNum", GoType.uint32),
    ("FwState", GoType.uint16),
    ("DisabledForRemoval", GoType.uint8),
    ("LinkSpeed", GoType.uint8),
    ("State", MR_PD_DDF_TYPE),
    ("PathInfo", GoType.struct [
      ("Count", GoType.uint8),
      ("Bits", GoType.uint8),
      ("ConnectorIndex", GoType.array 2 GoType.uint8),
      ("_", GoType.array 4 GoType.uint8),
      ("SasAddr", GoType.array 4 GoType.uint32),
      ("_", GoType.array 16 GoType.uint8)]),
    ("RawSize", GoType.array 2 GoType.uint32),
    ("NonCoercedSize", GoType.array 2 GoType.uint32),
    ("CoercedSize", GoType.array 2 GoType.uint32),
    ("EnclDeviceId", GoType.uint16),
    ("EnclIndex", GoType.uint8),
    ("SlotNumber", GoType.uint8),
    ("ProgInfo", MR_PD_PROGRESS),
    ("BadBlockTableFull", GoType.uint8),
    ("NusableInCurrentConfig", GoType.uint8),
    ("VpdPage83Ext", GoType.array 64 GoType.uint8),
    ("PowerState", GoType.uint8),
    ("EnclPosition", GoType.uint8),
    ("AllowedOps", GoType.uint32),
    ("CopyBackPartnerId", GoType.uint16),
    ("EnclPartnerDeviceId", GoType.uint16),
    ("Security", GoType.uint16),
    ("MediaType", GoType.uint8),
    ("NotCertified", GoType.uint8),
    ("DorbridgeVen", GoType.array 8 GoType.uint8),
    ("BridgeProductIdentification", GoType.array 16 GoType.uint8),
    ("BridgeProductRevisionLevel", GoType.array 4 GoType.uint8),
    ("SatBridgeExists", GoType.uint8),
    ("InterfaceType", GoType.uint8),
    ("Temperature", GoType.uint8),
    ("EmulatedBlockSize", GoType.uint8),
    ("UserDataBlockSize", GoType.uint16),
    ("_", GoType.uint16),
    ("Properties", GoType.struct [
      ("Bits", GoType.uint32)]),
    ("ShieldDiagCompletionTime", GoType.array 2 GoType.uint32),
    ("ShieldCounter", GoType.uint8),
    ("LinkSpeedOther", GoType.uint8),
    ("_", GoType.array 2 GoType.uint8),
    ("BbmErr", GoType.struct [
      ("Bits", GoType.uint32)]),
    ("_", GoType.array (512 - 428) GoType.uint8)]

/-- The declaration of `MR_PD_ADDRESS`. -/
def MR_PD_ADDRESS.decl : GoType :=
  GoType.struct [
    ("DeviceId", GoType.uint16),
    ("EnclosureId", GoType.uint16),
    ("EnclosureIndex", GoType.uint8),
    ("SlotNumber", GoType.uint8),
    ("ScsiDevType", GoType.uint8),
    ("ConnectPortBitmap", GoType.uint8),
    ("SasAddr", GoType.array 4 GoType.uint32)]

/-- `MR_PD_LIST`. -/
def MR_PD_LIST : GoType :=
  GoType.struct [
    ("Size", GoType.uint32),
    ("Count", GoType.uint32),
    ("Addr", GoType.array 1 MR_PD_ADDRESS.decl)]

/-- `LD_INFO`. -/
def LD_INFO : GoType :=
  GoType.struct [
    ("Ref", GoType.struct [
      ("TargetId", GoType.uint8),
      ("_", GoType.uint8),
      ("SeqNum", GoType.uint16)]),
    ("State", GoType.uint8),
    ("_", GoType.array 3 GoType.uint8),
    ("Size", GoType.uint64)]

/-- `MR_LD_LIST`. -/
def MR_LD_LIST : GoType :=
  GoType.struct [
    ("LdCount", GoType.uint32),
    ("_", GoType.uint32),
    ("LdList", GoType.array MAX_LOGICAL_DRIVES_EXT LD_INFO)]

/-- `MR_LD_TARGETID_LIST`. -/
def MR_LD_TARGETID_LIST : GoType :=
  GoType.struct [
    ("Size", GoType.uint32),
    ("Count", GoType.uint32),
    ("_", GoType.array 3 GoType.uint8),
    ("TargetId", GoType.array MAX_LOGICAL_DRIVES_EXT GoType.uint8)]

/-- `megasas_ctrl_prop`. -/
def megasas_ctrl_prop : GoType :=
  GoType.struct [
    ("SeqNum", GoType.uint16),
    ("PredFailPollInterval", GoType.uint16),
    ("IntrThrottleCount", GoType.uint16),
    ("IntrThrottleTimeouts", GoType.uint16),
    ("RebuildRate", GoType.uint8),
    ("PatrolReadRate", GoType.uint8),
    ("BgiRate", GoType.uint8),
    ("CcRate", GoType.uint8),
    ("ReconRate", GoType.uint8),
    ("CacheFlushInterval", GoType.uint8),
    ("SpinupDrvCount", GoType.uint8),
    ("SpinupDelay", GoType.uint8),
    ("ClusterEnable", GoType.uint8),
    ("CoercionMode", GoType.uint8),
    ("AlarmEnable", GoType.uint8),
    ("DisableAutoRebuild", GoType.uint8),
    ("DisableBatteryWarn", GoType.uint8),
    ("EccBucketSize", GoType.uint8),
    ("EccBucketLeakRate", GoType.uint16),
    ("RestoreHotspareOnInsertion", GoType.uint8),
    ("ExposeEnclDevices", GoType.uint8),
    ("MaintainPdFailHistory", GoType.uint8),
    ("DisallowHostRequestReordering", GoType.uint8),
    ("AbortCCOnError", GoType.uint8),
    ("LoadBalanceMode", GoType.uint8),
    ("DisableAutoDetectBackplane", GoType.uint8),
    ("SnapVDSpace", GoType.uint8),
    ("OnOffProperties", GoType.struct [
      ("Bits", GoType.uint32)]),
    ("OnOffProperties2", GoType.struct [
      ("Bits", GoType.uint16)]),
    ("SpinDownTime", GoType.uint16),
    ("Reserved", GoType.array 24 GoType.uint8)]

/-- `megasas_ctrl_info` (lines 677-1124). -/
def megasas_ctrl_info : GoType :=
  GoType.struct [
    ("Pci", GoType.struct [
      ("VendorId", GoType.uint16),
      ("DeviceId", GoType.uint16),
      ("SubVendorId", GoType.uint16),
      ("SubDeviceId", GoType.uint16),
      ("_", GoType.array 24 GoType.uint8)]),
    ("HostInterface", GoType.struct [
      ("Bits", GoType.uint8),
      ("_", GoType.array 6 GoType.uint8),
      ("PortCount", GoType.uint8),
      ("PortAddr", GoType.array 16 GoType.uint32)]),
    ("DeviceInterface", GoType.struct [
      ("Bits", GoType.uint8),
      ("_", GoType.array 6 GoType.uint8),
      ("PortCount", GoType.uint8),
      ("PortAddr", GoType.array 16 GoType.uint32)]),
    ("ImageCheckWord", GoType.uint32),
    ("ImageComponentCount", GoType.uint32),
    ("ImageComponent", GoType.array 8 (GoType.struct [
      ("Name", GoType.array 8 GoType.uint8),
      ("Version", GoType.array 32 GoType.uint8),
      ("BuildDate", GoType.array 16 GoType.uint8),
      ("BuiltTime", GoType.array 16 GoType.uint8)])),
    ("PendingImageComponentCount", GoType.uint32),
    ("PendingImageComponent", GoType.array 8 (GoType.struct [
      ("Name", GoType.array 8 GoType.uint8),
      ("Version", GoType.array 32 GoType.uint8),
      ("BuildDate", GoType.array 16 GoType.uint8),
      ("BuiltTime", GoType.array 16 GoType.uint8)])),
    ("MaxArms", GoType.uint8),
    ("MaxSpans", GoType.uint8),
    ("MaxArrays", GoType.uint8),
    ("MaxLds", GoType.uint8),
    ("ProductName", GoType.array 80 GoType.uint8),
    ("SerialNo", GoType.array 32 GoType.uint8),
    ("HwPresent", GoType.struct [
      ("Bits", GoType.uint32)]),
    ("CurrentFwTime", GoType.uint32),
    ("MaxConcurrentCmds", GoType.uint16),
    ("MaxSgeCount", GoType.uint16),
    ("MaxRequestSize", GoType.uint32),
    ("LdPresentCount", GoType.uint16),
    ("LdDegradedCount", GoType.uint16),
    ("LdOfflineCount", GoType.uint16),
    ("PdPresentCount", GoType.uint16),
    ("PdDiskPresentCount", GoType.uint16),
    ("PdDiskPredFailureCount", GoType.uint16),
    ("PdDiskFailedCount", GoType.uint16),
    ("NvramSize", GoType.uint16),
    ("MemorySize", GoType.uint16),
    ("FlashSize", GoType.uint16),
    ("MemCorrectableErrorCount", GoType.uint16),
    ("MemUncorrectableErrorCount", GoType.uint16),
    ("ClusterPermitted", GoType.uint8),
    ("ClusterActive", GoType.uint8),
    ("MaxStripsPerIo", GoType.uint16),
    ("RaidLevels", GoType.struct [
      ("Bits", GoType.uint32)]),
    ("AdapterOperations", GoType.struct [
      ("Bits", GoType.uint32)]),
    ("LdOperations", GoType.struct [
      ("Bits", GoType.uint32)]),
    ("StripeSzOps", GoType.struct [
      ("Min", GoType.uint8),
      ("Max", GoType.uint8),
      ("_", GoType.array 2 GoType.uint8)]),
    ("PdOperations", GoType.struct [
      ("Bits", GoType.uint32)]),
    ("PdMixSupport", GoType.struct [
      ("Bits", GoType.uint32)]),
    ("EccBucketCount", GoType.uint8),
    ("_", GoType.array 11 GoType.uint8),
    ("Properties", megasas_ctrl_prop),
    ("PackageVersion", GoType.array 0x60 GoType.uint8),
    ("DeviceInterfacePortAddr2", GoType.array 16 GoType.uint32),
    ("_", GoType.array 128 GoType.uint8),
    ("PdsForRaidLevels", GoType.struct [
      ("Bits1", GoType.uint16),
      ("Bits2", GoType.uint16),
      ("Bits3", GoType.uint16),
      ("Bits4", GoType.uint16),
      ("Bits5", GoType.uint16),
      ("Bits6", GoType.uint16),
      ("Bits7", GoType.uint16),
      ("Bits8", GoType.uint16),
      ("Bits9", GoType.uint16),
      ("Bits10", GoType.uint16),
      ("_", GoType.array 6 GoType.uint16)]),
    ("MaxPds", GoType.uint16),
    ("MaxDedHSPs", GoType.uint16),
    ("MaxGlobalHSP", GoType.uint16),
    ("DdfSize", GoType.uint16),
    ("MaxLdsPerArray", GoType.uint8),
    ("PartitionsInDDF", GoType.uint8),
    ("LockKeyBinding", GoType.uint8),
    ("MaxPITsPerLd", GoType.uint8),
    ("MaxViewsPerLd", GoType.uint8),
    ("MaxTargetId", GoType.uint8),
    ("MaxBvlVdSize", GoType.uint16),
    ("MaxConfigurableSSCSize", GoType.uint16),
    ("CurrentSSCsize", GoType.uint16),
    ("ExpanderFwVersion", GoType.array 12 GoType.uint8),
    ("PFKTrialTimeRemaining", GoType.uint16),
    ("CacheMemorySize", GoType.uint16),
    ("AdapterOperations2", GoType.struct [
      ("Bits", GoType.uint32)]),
    ("DriverVersion", GoType.array 32 GoType.uint8),
    ("MaxDAPdCountSpinup60", GoType.uint8),
    ("TemperatureROC", GoType.uint8),
    ("TemperatureCtrl", GoType.uint8),
    ("_", GoType.uint8),
    ("MaxConfigurablePds", GoType.uint16),
    ("_", GoType.array 2 GoType.uint8),
    ("Cluster", GoType.struct [
      ("Bits", GoType.uint32)]),
    ("ClusterId", GoType.array MEGASAS_CLUSTER_ID_SIZE GoType.uint8),
    ("Iov", GoType.struct [
      ("MaxVFsSupported", GoType.uint8),
      ("NumVFsEnabled", GoType.uint8),
      ("RequestorId", GoType.uint8),
      ("Reserved", GoType.uint8)]),
    ("AdapterOperations3", GoType.struct [
      ("Bits", GoType.uint32)]),
    ("Cpld", GoType.struct [
      ("Bits", GoType.uint8),
      ("_", GoType.array 3 GoType.uint8),
      ("UserCodeDefinition", GoType.array 12 GoType.uint8)]),
    ("AdapterOperations4", GoType.struct [
      ("Bits", GoType.uint16)]),
    ("_", GoType.array (0x800 - 0x7FE) GoType.uint8),
    ("Size", GoType.uint32),
    ("_", GoType.uint32),
    ("_", GoType.array 64 GoType.uint8),
    ("AdapterOperations5", GoType.struct [
      ("Bits", GoType.uint32)]),
    ("RsvdForAdptOp", GoType.array 63 GoType.uint32),
    ("_", GoType.array 3 GoType.uint8),
    ("TaskAbortTO", GoType.uint8),
    ("MaxResetTO", GoType.uint8),
    ("_", GoType.array 3 GoType.uint8)]

/-- The record view of a decoded `MR_PD_ADDRESS`. -/
def MR_PD_ADDRESS.ofValue (v : GoValue) : MR_PD_ADDRESS :=
  { DeviceId := (v.field "DeviceId").toNat
    EnclosureId := (v.field "EnclosureId").toNat
    EnclosureIndex := (v.field "EnclosureIndex").toNat
    SlotNumber := (v.field "SlotNumber").toNat
    ScsiDevType := (v.field "ScsiDevType").toNat
    ConnectPortBitmap := (v.field "ConnectPortBitmap").toNat
    SasAddr := (v.field "SasAddr").toList }

/-- The record view of a decoded `MR_PD_INFO`, for the accessors. -/
def MR_PD_INFO.ofValue (v : GoValue) : MR_PD_INFO :=
  { InquiryData := (v.field "InquiryData").toList
    FwState := (v.field "FwState").toNat
    RawSize := (v.field "RawSize").toList
    Properties := ⟨((v.field "Properties").field "Bits").toNat⟩ }

/-! ## megaraid.go: the queries -/

/-- The memory behind a slice `buf` after `resp` has been written at its
start: the slice keeps its length. -/
def fill (buf resp : List Nat) : List Nat :=
  (resp ++ buf.drop resp.length).take buf.length

/-- `Ioctl` of ioctl.go over the system call: `Syscall cmd iocBuf buf` is the
`errno` of `unix.Syscall(unix.SYS_IOCTL, fd, cmd, ptr)` for the packet bytes
`iocBuf` at `ptr` and the response buffer `buf` the packet points to, with
the bytes the driver wrote into that buffer.  The result is the error (the
`errno` when it is not 0) and the buffer afterwards. -/
def Ioctl (Syscall : Nat → List Nat → List Nat → Nat × List Nat)
    (cmd : Nat) (iocBuf buf : List Nat) : Option Error × List Nat :=
  let r := Syscall cmd iocBuf buf
  (if r.1 ≠ 0 then some (.Errno r.1) else none, fill buf r.2)

/-- `MFI_READ`: the packet is built and serialized, passed to `Ioctl` with
the command `MEGASAS_IOC_FIRMWARE`, and the error of `Ioctl` is returned.
The result carries the instance, whose buffer the exchange has written;
`none` is the index panic on an empty buffer. -/
def MFI_READ (Syscall : Nat → List Nat → List Nat → Nat × List Nat)
    (bufAddr : Nat) (inst : Instance) (sdev : List ScsiDevice) :
    Option (Instance × Option Error) :=
  match MFI_READ.iocBuf bufAddr inst sdev with
  | none => none
  | some iocBuf =>
    let r := Ioctl Syscall MEGASAS_IOC_FIRMWARE iocBuf inst.Buf
    some ({ inst with Buf := r.2 }, r.1)

/-- The instance `MegasasGetPdList` passes to `MFI_READ` (lines 153-154): a
fresh zeroed buffer of `Sizeof(MR_PD_LIST{}) * MEGASAS_MAX_PD` bytes and the
opcode. -/
def MegasasGetPdList.prepare (inst : Instance) : Instance :=
  { inst with
    Buf := List.replicate (Sizeof MR_PD_LIST * MEGASAS_MAX_PD) 0
    Cmd := ⟨MR_DCMD_PD_LIST_QUERY⟩ }

/-- `MegasasGetPdList`: the error of `MFI_READ` is dropped; a zero count at
`Buf[4:8]` is the error "null scsi"; otherwise `respCount` addresses are
read from `Buf[8:]`, the error of `binary.Read` being dropped too (the
slice then keeps its zero values).  The result carries the instance as the
call leaves it. -/
def MegasasGetPdList (Syscall : Nat → List Nat → List Nat → Nat × List Nat)
    (bufAddr : Nat) (inst : Instance) :
    Option (Instance × Except Error (List GoValue)) :=
  match MFI_READ Syscall bufAddr (MegasasGetPdList.prepare inst) [] with
  | none => none
  | some (inst, _) =>
    let respCount := getLE (slice inst.Buf 4 4)
    if respCount = 0 then some (inst, .error (.Errorf "null scsi"))
    else
      match binary.Read (inst.Buf.drop 8) (.array respCount MR_PD_ADDRESS.decl) with
      | .ok (.array devices) => some (inst, .ok devices)
      | _ => some (inst,
          .ok (List.replicate respCount (GoType.zero MR_PD_ADDRESS.decl)))

/-- The instance `MegasasGetPdInfo` passes to `MFI_READ` (lines 177-178). -/
def MegasasGetPdInfo.prepare (inst : Instance) : Instance :=
  { inst with
    Buf := List.replicate (Sizeof MR_PD_INFO.decl) 0
    Cmd := ⟨MR_DCMD_PD_GET_INFO⟩ }

/-- `MegasasGetPdInfo`: the error of `MFI_READ` is dropped, the buffer is
decoded as `MR_PD_INFO` and the error of `binary.Read` is returned. -/
def MegasasGetPdInfo (Syscall : Nat → List Nat → List Nat → Nat × List Nat)
    (bufAddr : Nat) (inst : Instance) (sdev : ScsiDevice) :
    Option (Instance × Except Error GoValue) :=
  match MFI_READ Syscall bufAddr (MegasasGetPdInfo.prepare inst) [sdev] with
  | none => none
  | some (inst, _) =>
    match binary.Read inst.Buf MR_PD_INFO.decl with
    | .error err => some (inst, .error err)
    | .ok data => some (inst, .ok data)

/-- The instance `MegasasGetLdList` passes to `MFI_READ` (lines 190-191). -/
def MegasasGetLdList.prepare (inst : Instance) : Instance :=
  { inst with
    Buf := List.replicate (Sizeof MR_LD_LIST) 0
    Cmd := ⟨MR_DCMD_LD_GET_LIST⟩ }

/-- `MegasasGetLdList`: the error of `MFI_READ` is returned, then the buffer
is decoded as `MR_LD_LIST` and the error of `binary.Read` is returned. -/
def MegasasGetLdList (Syscall : Nat → List Nat → List Nat → Nat × List Nat)
    (bufAddr : Nat) (inst : Instance) :
    Option (Instance × Except Error GoValue) :=
  match MFI_READ Syscall bufAddr (MegasasGetLdList.prepare inst) [] with
  | none => none
  | some (inst, some err) => some (inst, .error err)
  | some (inst, none) =>
    match binary.Read inst.Buf MR_LD_LIST with
    | .error err => some (inst, .error err)
    | .ok data => some (inst, .ok data)

/-- The instance `MegasasLdListQuery` passes to `MFI_READ` (lines 209-211):
buffer, opcode, and `MboxB[0] = MR_LD_QUERY_TYPE_EXPOSED_TO_HOST`. -/
def MegasasLdListQuery.prepare (inst : Instance) : Instance :=
  { inst with
    Buf := List.replicate (Sizeof MR_LD_TARGETID_LIST) 0
    Cmd := ⟨MR_DCMD_LD_LIST_QUERY⟩
    Dcmd := ⟨inst.Dcmd.MboxB.set 0 MR_LD_QUERY_TYPE_EXPOSED_TO_HOST⟩ }

/-- The print loop of `MegasasLdListQuery` (lines 217-222), from index `i`
with `n` iterations left: the text written, the decimal `TargetId[i]` followed
by a comma unless `i` is `int(Count) - 1`; `none` when `TargetId[i]` indexes
past the end of the array, which is a run-time panic. -/
def MegasasLdListQuery.print (TargetId : List Nat) (Count : Nat) :
    Nat → Nat → Option String
  | 0, _ => some ""
  | n + 1, i =>
    match TargetId[i]? with
    | none => none
    | some id =>
      match MegasasLdListQuery.print TargetId Count n (i + 1) with
      | none => none
      | some rest =>
        some (toString id ++ (if (i : Int) ≠ (Count : Int) - 1 then "," else "") ++ rest)

/-- `MegasasLdListQuery`: the errors of `MFI_READ` and of `binary.Read` are
dropped, the buffer is decoded as `MR_LD_TARGETID_LIST` (the zero value when
`binary.Read` fails), and the loop over `i < int(ldInfo.Count)` prints
`ldInfo.TargetId[i]`; then `nil` is returned.  The loop panics when it
reaches an index outside the 256 entries of `TargetId`, so the call does not
return (`none`) then.  The argument `queryType` is not read, and the text
printed is not part of the result. -/
def MegasasLdListQuery (Syscall : Nat → List Nat → List Nat → Nat × List Nat)
    (bufAddr : Nat) (inst : Instance) (_queryType : Nat) :
    Option (Instance × Option Error) :=
  match MFI_READ Syscall bufAddr (MegasasLdListQuery.prepare inst) [] with
  | none => none
  | some (inst, _) =>
    let ldInfo :=
      match binary.Read inst.Buf MR_LD_TARGETID_LIST with
      | .error _ => GoType.zero MR_LD_TARGETID_LIST
      | .ok data => data
    let Count := (ldInfo.field "Count").toNat
    match MegasasLdListQuery.print (ldInfo.field "TargetId").toList Count Count 0 with
    | none => none
    | some _ => some (inst, none)

/-- The instance `MegasasGetCtrlInfo` passes to `MFI_READ` (lines 228-230):
buffer, opcode, and `MboxB[0] = 1`. -/
def MegasasGetCtrlInfo.prepare (inst : Instance) : Instance :=
  { inst with
    Buf := List.replicate (Sizeof megasas_ctrl_info) 0
    Cmd := ⟨MR_DCMD_CTRL_GET_INFO⟩
    Dcmd := ⟨inst.Dcmd.MboxB.set 0 1⟩ }

/-- `MegasasGetCtrlInfo`: the error of `MFI_READ` is dropped and the buffer
is decoded as `megasas_ctrl_info`; when `binary.Read` fails its error is
dropped and the zero value is returned.  There is no error result. -/
def MegasasGetCtrlInfo (Syscall : Nat → List Nat → List Nat → Nat × List Nat)
    (bufAddr : Nat) (inst : Instance) : Option (Instance × GoValue) :=
  match MFI_READ Syscall bufAddr (MegasasGetCtrlInfo.prepare inst) [] with
  | none => none
  | some (inst, _) =>
    match binary.Read inst.Buf megasas_ctrl_info with
    | .error _ => some (inst, GoType.zero megasas_ctrl_info)
    | .ok data => some (inst, data)

/-! ## The packed layout, field by field -/

/-- Every field of a struct with the bytes it covers in the packed layout
that starts at `off`: name, offset, and offset after the last byte. -/
def binary.layout : List (String × GoType) → Nat → List (String × Nat × Nat)
  | [], _ => []
  | (name, t) :: rest, off =>
    (name, off, off + binary.sizeof t) :: binary.layout rest (off + binary.sizeof t)

/-! ## macro.go: the flag accessors -/

/-- A C bit-field listing as the comments of macro.go give it: the names in
declaration order, each with its width in bits. -/
def bitOffset (name : String) : List (String × Nat) → Option Nat
  | [] => none
  | (n, w) :: rest =>
    if n = name then some 0 else (bitOffset name rest).map fun o => w + o

/-- The bit fields listed under `Bits` of `OnOffProperties` in
`megasas_ctrl_prop` (lines 1164-1178). -/
def OnOffProperties.listing : List (String × Nat) :=
  [("copyBackDisabled", 1), ("SMARTerEnabled", 1),
   ("prCorrectUnconfiguredAreas", 1), ("useFdeOnly", 1), ("disableNCQ", 1),
   ("SSDSMARTerEnabled", 1), ("SSDPatrolReadEnabled", 1),
   ("enableSpinDownUnconfigured", 1), ("autoEnhancedImport", 1),
   ("enableSecretKeyControl", 1), ("disableOnlineCtrlReset", 1),
   ("allowBootWithPinnedCache", 1), ("disableSpinDownHS", 1), ("enableJBOD", 1),
   ("reserved", 18)]

/-- The bit fields listed under `Bits` of `Properties` in `MR_PD_INFO`
(lines 311-326). -/
def MR_PD_INFO.Properties.listing : List (String × Nat) :=
  [("piType", 3), ("piFormatted", 1), ("piEligible", 1), ("NCQ", 1), ("WCE", 1),
   ("commissionedSpare", 1), ("emergencySpare", 1), ("ineligibleForSSCD", 1),
   ("ineligibleForLd", 1), ("useSSEraseType", 1), ("wceUnchanged", 1),
   ("supportScsiUnmap", 1), ("reserved", 18)]

/-- `JbodEnabled` of `megasas_ctrl_info`:
`BitField(ctrl.Properties.OnOffProperties.Bits, 13, 1) == 1`, on a decoded
structure. -/
def megasas_ctrl_info.JbodEnabled (ctrl : GoValue) : Bool :=
  BitField 32 (((ctrl.field "Properties").field "OnOffProperties").field "Bits").toNat
    13 1 == 1

/-- `NCQ` of `MR_PD_INFO`: `BitField(info.Properties.Bits, 5, 1) == 1`. -/
def MR_PD_INFO.NCQ (info : MR_PD_INFO) : Bool :=
  BitField 32 info.Properties.Bits 5 1 == 1

/-! ## macro.go: GetFwState -/

/-- The first constant of the `MR_PD_STATE` iota block. -/
def MR_PD_STATE_UNCONFIGURED_GOOD : Nat := 0

def MR_PD_STATE_UNCONFIGURED_BAD : Nat := 1

def MR_PD_STATE_HOT_SPARE : Nat := 2

def MR_PD_STATE_OFFLINE : Nat := 0x10

def MR_PD_STATE_FAILED : Nat := 0x11

def MR_PD_STATE_REBUILD : Nat := 0x14

def MR_PD_STATE_ONLINE : Nat := 0x18

def MR_PD_STATE_COPYBACK : Nat := 0x20

def MR_PD_STATE_SYSTEM : Nat := 0x40

/-- `GetFwState` of `MR_PD_INFO`: the `switch` over `uint8(info.FwState)`. -/
def MR_PD_INFO.GetFwState (info : MR_PD_INFO) : String :=
  let state := info.FwState % 2 ^ 8
  if state = MR_PD_STATE_UNCONFIGURED_GOOD then "UGood"
  else if state = MR_PD_STATE_UNCONFIGURED_BAD then "UBad"
  else if state = MR_PD_STATE_HOT_SPARE then "HotSpare"
  else if state = MR_PD_STATE_OFFLINE then "Offline"
  else if state = MR_PD_STATE_FAILED then "Failed"
  else if state = MR_PD_STATE_REBUILD then "Rebuild"
  else if state = MR_PD_STATE_ONLINE then "Online"
  else if state = MR_PD_STATE_COPYBACK then "Copyback"
  else if state = MR_PD_STATE_SYSTEM then "Jbod"
  else "Unkown"

/-! ## megaraid_test.go: the packet TestPDINFO builds by hand -/

/-- The packet `TestPDINFO` has serialized when it reaches `Ioctl` (lines
165-191), with the host number, the device (`eid`, `did`) and the buffer the
test fixes (0, (0, 10), 512 zero bytes) as parameters; `bufAddr` is the
address of `buf[0]`.  `device_id` is computed in `int` and converted with
`uint16(device_id)`; the stores through `dcmd` are stores into the frame
bytes, in the order of the test.  `none` is the index panic of `&buf[0]` on
an empty buffer. -/
def TestPDINFO.iocBuf (bufAddr host eid did : Nat) (buf : List Nat) :
    Option (List Nat) :=
  let ioc : megasas_iocpacket := { megasas_iocpacket.zero with host_no := host }
  let device_id := eid * MEGASAS_MAX_DEV_PER_CHANNEL + did
  let frame := store ioc.frame (Offsetof .mbox + 2 * 0) (putLE 2 (device_id % 2 ^ 16))
  let frame := store frame (Offsetof .cmd) (putLE 1 MFI_CMD_DCMD)
  let frame := store frame (Offsetof .cmd_status) (putLE 1 0xFF)
  let frame := store frame (Offsetof .sge_count) (putLE 1 1)
  let frame := store frame (Offsetof .flags) (putLE 2 MFI_FRAME_DIR_READ)
  let frame := store frame (Offsetof .timeout) (putLE 2 0)
  let frame := store frame (Offsetof .pad_0) (putLE 4 0)
  let frame := store frame (Offsetof .data_xfer_len) (putLE 4 (buf.length % 2 ^ 32))
  let frame := store frame (Offsetof .opcode) (putLE 4 (MR_DCMD_PD_GET_INFO % 2 ^ 32))
  let ioc := { ioc with frame := frame, sge_count := 1,
                        sgl_off := Offsetof .sgl % 2 ^ 32 }
  match buf with
  | [] => none
  | _ :: _ =>
    some ({ ioc with
      sgl := ioc.sgl.set 0 ⟨bufAddr % 2 ^ 64, buf.length % 2 ^ 64⟩ }).PackedBytes

/-! ## parse_info.go: ParseVpdPage83Jbod with the run-time checks -/

/-- How a run of Go code ends: it returns, it panics on an index or slice
expression out of range, or the bound on the iterations is used up. -/
inductive Outcome
  | returns (s : String)
  | panics
  | exhausted
  deriving DecidableEq, Repr

/-- The loop of `ParseVpdPage83Jbod` with every index expression and slice
expression checked as the Go run time checks it: `data[offset+3]`,
`data[offset+4 : offset+4+length]`, `identifier[0]`,
`identifier[len(identifier)-8:]` and the eight bytes `Uint64` reads. -/
def ParseVpdPage83Jbod.checked (data : List Nat) : Nat → Nat → Outcome
  | 0, _ => .exhausted
  | fuel + 1, offset =>
    if offset < data.length then
      if offset + 4 > data.length then .returns "invalid length"
      else
        match data[offset + 3]? with
        | none => .panics
        | some length =>
          if length = 0 ∨ offset + 4 + length > data.length then
            .returns "invalid length"
          else if offset + 4 + length > data.length then .panics
          else
            let identifier := slice data (offset + 4) length
            if identifier.length ≥ 8 then
              match identifier[0]? with
              | none => .panics
              | some b =>
                let naaType := shr 8 b 4 &&& 0xF
                if naaType = 0x5 ∨ naaType = 0x6 then
                  if (identifier.drop (identifier.length - 8)).length < 8 then .panics
                  else .returns
                    (sprintfNaa (getBE (identifier.drop (identifier.length - 8))))
                else ParseVpdPage83Jbod.checked data fuel (offset + 4 + length)
            else ParseVpdPage83Jbod.checked data fuel (offset + 4 + length)
    else .returns "no valid WWN found"

/-- `ParseVpdPage83Jbod(data)` with the run-time checks. -/
def ParseVpdPage83Jbod.run (data : List Nat) : Outcome :=
  if data.length < 4 then .returns "invalid data"
  else ParseVpdPage83Jbod.checked data (data.length + 1) 4

/-- The results `ParseVpdPage83Jbod` can have: "naa." followed by 16
lowercase hexadecimal digits, or one of its three messages. -/
def ParseVpdPage83Jbod.Result (s : String) : Prop :=
  (∃ ds : List Char, s = "naa." ++ String.mk ds ∧ ds.length = 16
      ∧ ∀ c ∈ ds, c ∈ "0123456789abcdef".data)
    ∨ s = "invalid data" ∨ s = "invalid length" ∨ s = "no valid WWN found"

/-! ## megaraid.go: PdSasAddr -/

/-- The digit loop of `strconv.FormatUint(v, 16)` (`formatBits` for a base
that is a power of two): while `u >= 16` the digit of `u & 15` is put in
front and `u >>= 4`; the digit of the last `u` comes first.  The first
argument bounds the iterations; a `uint64` has at most 16 digits. -/
def formatBits : Nat → Nat → List Char → List Char
  | 0, u, a => hexDigit (u % 16) :: a
  | fuel + 1, u, a =>
    if u ≥ 16 then formatBits fuel (u >>> 4) (hexDigit (u &&& 15) :: a)
    else hexDigit u :: a

/-- `strconv.FormatUint(v, 16)` for a `uint64`. -/
def FormatUint16 (v : Nat) : String :=
  String.mk (formatBits 16 (v % 2 ^ 64) [])

/-- `PdSasAddr(array, n)`: the error "n must be 2" unless `n` is 2, else
`fmt.Sprintf("0x%s", strconv.FormatUint(uint64(array[1])<<32|uint64(array[0]), 16))`.
`none` is the index panic on an array shorter than 2. -/
def PdSasAddr (array : List Nat) (n : Nat) : Option (Except Error String) :=
  if n ≠ 2 then some (.error (.Errorf "n must be 2"))
  else
    match array[1]?, array[0]? with
    | some a1, some a0 =>
      some (.ok ("0x" ++ FormatUint16 (shl 64 a1 32 ||| a0 % 2 ^ 64)))
    | _, _ => none

/-- `GetSasAddrs` of `MR_PD_ADDRESS`:
`fmt.Sprintf("0x%s", strconv.FormatUint(a.GetSasAddr(), 16))`. -/
def MR_PD_ADDRESS.GetSasAddrs (a : MR_PD_ADDRESS) : Option String :=
  a.GetSasAddr.map fun v => "0x" ++ FormatUint16 v

/-! # Theorems -/

/-! ## bits.go -/

theorem shl_one_lt (s : Nat) (h : s < 64) : shl uintBits 1 s = 2 ^ s := by
  have h1 : (2 : Nat) ^ s < 2 ^ 64 := Nat.pow_lt_pow_right (by decide) h
  have h2 : ¬ (64 ≤ s) := by omega
  simp only [shl, uintBits, if_neg h2, Nat.shiftLeft_eq]
  rw [Nat.mod_eq_of_lt (by decide : 1 < 2 ^ 64), Nat.one_mul, Nat.mod_eq_of_lt h1]

theorem mask_eq (s : Nat) (h : s ≤ 64) : mask s = 2 ^ s - 1 := by
  induction s with
  | zero => rfl
  | succ n ih =>
    have hn : n < 64 := h
    have h1 : (2 : Nat) ^ (n + 1) ≤ 2 ^ 64 := Nat.pow_le_pow_right (by decide) h
    have h2 : 0 < (2 : Nat) ^ n := Nat.two_pow_pos _
    have h3 : (2 : Nat) ^ (n + 1) = 2 * 2 ^ n := by rw [Nat.pow_succ, Nat.mul_comm]
    rw [mask, shl_one_lt n hn, ih (Nat.le_of_lt hn)]
    have h4 : 2 ^ n + (2 ^ n - 1) < 2 ^ uintBits := by
      simp only [uintBits]; omega
    rw [Nat.mod_eq_of_lt h4]; omega

theorem mask_mod (w s : Nat) (hw : w ≤ 64) (hs : s ≤ w) :
    mask s % 2 ^ w = 2 ^ s - 1 := by
  rw [mask_eq s (Nat.le_trans hs hw)]
  have h1 : (2 : Nat) ^ s ≤ 2 ^ w := Nat.pow_le_pow_right (by decide) hs
  have h2 : 0 < (2 : Nat) ^ s := Nat.two_pow_pos _
  exact Nat.mod_eq_of_lt (by omega)

/-- C1: for a width `w` in {8, 16, 32, 64}, a `w`-bit value `v`, any offset
`o` and a field size `s ≤ w`, `BitField(v, o, s)` is `(v >> o) & (2^s - 1)`,
where `v >> o` is 0 once `o ≥ w`; and a field of size 0 is 0. -/
theorem BitField_spec (w v o s : Nat)
    (hw : w = 8 ∨ w = 16 ∨ w = 32 ∨ w = 64) (hv : v < 2 ^ w) (hs : s ≤ w) :
    BitField w v o s = (if w ≤ o then 0 else v >>> o) &&& (2 ^ s - 1)
      ∧ BitField w v o 0 = 0 := by
  have hw64 : w ≤ 64 := by omega
  constructor
  · simp only [BitField, shr, mask_mod w s hw64 hs, Nat.mod_eq_of_lt hv]
  · simp [BitField, mask]

/-- C1 at a concrete input: the 3-bit field at offset 4 of the byte `0xB7`. -/
theorem BitField_spec_witness :
    (BitField 8 0xB7 4 3 = (if 8 ≤ 4 then 0 else 0xB7 >>> 4) &&& (2 ^ 3 - 1)
      ∧ BitField 8 0xB7 4 0 = 0) ∧ BitField 8 0xB7 4 3 = 3 :=
  ⟨BitField_spec 8 0xB7 4 3 (by decide) (by decide) (by decide), by decide⟩

/-! ## parse_info.go: ArrayZip -/

theorem ArrayZip_pair (lo hi : Nat) :
    ArrayZip [lo, hi] 32
      = some (ArrayZip.step 32 (ArrayZip.step 32 0 lo) hi) := by
  simp [ArrayZip]

theorem step_low (lo : Nat) (h : lo < 2 ^ 32) : ArrayZip.step 32 0 lo = lo := by
  unfold ArrayZip.step
  by_cases h0 : lo = 0
  · simp [h0]
  · have : lo < 2 ^ 64 := Nat.lt_trans h (by decide)
    rw [if_neg h0, if_pos rfl, Nat.mod_eq_of_lt this]

theorem shl_high (hi : Nat) (h : hi < 2 ^ 32) : shl 64 hi 32 = hi * 2 ^ 32 := by
  have h1 : hi < 2 ^ 64 := Nat.lt_trans h (by decide)
  have h2 : hi * 2 ^ 32 < 2 ^ 64 := by omega
  simp only [shl, Nat.shiftLeft_eq, Nat.mod_eq_of_lt h1, Nat.mod_eq_of_lt h2]
  simp

theorem or_high_low (lo hi : Nat) (hlo : lo < 2 ^ 32) :
    hi * 2 ^ 32 ||| lo = hi * 2 ^ 32 + lo := by
  rw [Nat.mul_comm]
  exact (Nat.mul_add_lt_is_or hlo hi).symm

theorem step_high (lo hi : Nat) (hlo : lo < 2 ^ 32) (hhi : hi < 2 ^ 32)
    (h0 : lo ≠ 0) : ArrayZip.step 32 lo hi = hi * 2 ^ 32 + lo := by
  unfold ArrayZip.step
  by_cases h1 : hi = 0
  · simp [h1]
  · rw [if_neg h1, if_neg h0, shl_high hi hhi, or_high_low lo hi hlo]

/-- C2: the claim that `ArrayZip(arr, shift)` is the OR of every non-zero word
placed at bit `index * shift` does not hold of the code: on `[0, 1]` with
shift 32 the code returns 1 where the positional rule gives `2 ^ 32`, and on
`[1, 1, 1]` with shift 8 it returns 257 where the rule gives 65793. -/
theorem ArrayZip_not_positional :
    ArrayZip [0, 1] 32 = some 1 ∧ positionalOr 32 0 [0, 1] = 4294967296
      ∧ ArrayZip [1, 1, 1] 8 = some 257 ∧ positionalOr 8 0 [1, 1, 1] = 65793 := by
  decide

/-- C3: the claim `ArrayZip([0, y], 32) = y << 32` does not hold of the code:
for `y = 0x500E004A` the code returns `y` itself, not `y * 2 ^ 32`. -/
theorem ArrayZip_zero_low_word :
    ArrayZip [0, 0x500E004A] 32 = some 0x500E004A
      ∧ shl 64 0x500E004A 32 = 0x500E004A00000000
      ∧ ArrayZip [0, 0x500E004A] 32 ≠ some (shl 64 0x500E004A 32) := by
  decide

/-- C4: for every 32-bit word `x`, `ArrayZip([x, 0], 32) = x`, and
`ArrayZip([0, 0], 32) = 0`. -/
theorem ArrayZip_single_low_word (x : Nat) (hx : x < 2 ^ 32) :
    ArrayZip [x, 0] 32 = some x ∧ ArrayZip [0, 0] 32 = some 0 := by
  constructor
  · rw [ArrayZip_pair, step_low x hx]
    simp [ArrayZip.step]
  · decide

/-- C4 at the word `0xAAAAAA1E`. -/
theorem ArrayZip_single_low_word_witness :
    ArrayZip [0xAAAAAA1E, 0] 32 = some 0xAAAAAA1E ∧ ArrayZip [0, 0] 32 = some 0 :=
  ArrayZip_single_low_word 0xAAAAAA1E (by decide)

/-- C5: for 32-bit words `lo ≠ 0` and `hi`, `ArrayZip([lo, hi], 32)` is
`hi * 2^32 + lo`; this is the sector count `GetSize` formats from
`RawSize = [lo, hi]` and the address `GetSasAddr` returns for
`SasAddr = [lo, hi, 0, 0]`. -/
theorem ArrayZip_little_endian_pair (lo hi : Nat) (hlo : lo < 2 ^ 32)
    (hhi : hi < 2 ^ 32) (h0 : lo ≠ 0)
    (info : MR_PD_INFO) (hinfo : info.RawSize = [lo, hi])
    (a : MR_PD_ADDRESS) (ha : a.SasAddr = [lo, hi, 0, 0])
    (SizeString : Nat → String) :
    ArrayZip [lo, hi] 32 = some (hi * 2 ^ 32 + lo)
      ∧ info.GetSize SizeString = some (SizeString (hi * 2 ^ 32 + lo))
      ∧ a.GetSasAddr = some (hi * 2 ^ 32 + lo) := by
  have hp : ArrayZip [lo, hi] 32 = some (hi * 2 ^ 32 + lo) := by
    rw [ArrayZip_pair, step_low lo hlo, step_high lo hi hlo hhi h0]
  refine ⟨hp, ?_, ?_⟩
  · simp [MR_PD_INFO.GetSize, hinfo, hp]
  · have hs : ArrayZip [lo, hi, 0, 0] 32
        = some (ArrayZip.step 32 (ArrayZip.step 32 0 lo) hi) := by
      simp [ArrayZip, ArrayZip.step]
    rw [MR_PD_ADDRESS.GetSasAddr, ha, hs, step_low lo hlo,
      step_high lo hi hlo hhi h0]

/-- C5 at `lo = 0xAAAAAA1E`, `hi = 0x500E004A`: the SAS address
5768548493399075358 of the recorded test output. -/
theorem ArrayZip_little_endian_pair_witness :
    (ArrayZip [0xAAAAAA1E, 0x500E004A] 32 = some (0x500E004A * 2 ^ 32 + 0xAAAAAA1E)
      ∧ MR_PD_INFO.GetSize toString { RawSize := [0xAAAAAA1E, 0x500E004A] }
          = some (toString (0x500E004A * 2 ^ 32 + 0xAAAAAA1E))
      ∧ MR_PD_ADDRESS.GetSasAddr ⟨0, 0, 1, 0, 13, 0, [0xAAAAAA1E, 0x500E004A, 0, 0]⟩
          = some (0x500E004A * 2 ^ 32 + 0xAAAAAA1E))
      ∧ 0x500E004A * 2 ^ 32 + 0xAAAAAA1E = 5768548493399075358 :=
  ⟨ArrayZip_little_endian_pair 0xAAAAAA1E 0x500E004A (by decide) (by decide)
      (by decide) { RawSize := [0xAAAAAA1E, 0x500E004A] } rfl
      ⟨0, 0, 1, 0, 13, 0, [0xAAAAAA1E, 0x500E004A, 0, 0]⟩ rfl toString,
    by decide⟩

/-! ## Little-endian byte strings -/

theorem putLE_length (n v : Nat) : (putLE n v).length = n := by
  induction n generalizing v with
  | zero => rfl
  | succ n ih => simp [putLE, ih]

theorem getLE_putLE (n v : Nat) : getLE (putLE n v) = v % 256 ^ n := by
  induction n generalizing v with
  | zero => simp [putLE, getLE, Nat.mod_one]
  | succ n ih =>
    simp only [putLE, getLE, ih]
    rw [Nat.pow_succ, Nat.mul_comm (256 ^ n) 256, Nat.mod_mul]

theorem getLE_putLE_of_lt (n v : Nat) (h : v < 256 ^ n) :
    getLE (putLE n v) = v := by
  rw [getLE_putLE, Nat.mod_eq_of_lt h]

theorem slice_append_left (a b : List Nat) : slice (a ++ b) 0 a.length = a := by
  simp [slice]

theorem slice_append_right (a b : List Nat) (k n : Nat) :
    slice (a ++ b) (a.length + k) n = slice b k n := by
  simp [slice]

/-! ## megaraid.go: the request packet in explicit form -/

theorem Offsetof_values :
    Offsetof .cmd = 0 ∧ Offsetof .cmd_status = 2 ∧ Offsetof .sge_count = 7
      ∧ Offsetof .pad_0 = 12 ∧ Offsetof .flags = 16 ∧ Offsetof .timeout = 18
      ∧ Offsetof .data_xfer_len = 20 ∧ Offsetof .opcode = 24
      ∧ Offsetof .mbox = 28 ∧ Offsetof .sgl = 40 := by
  decide

theorem dcmd_frame (inst : Instance) (m0 m1 : Nat) :
    MFI_READ.dcmd inst (List.replicate 28 0 ++ [m0, m1] ++ List.replicate 98 0)
      = [5, 0, 255, 0, 0, 0, 0, 1] ++ List.replicate 8 0 ++ [16, 0, 0, 0]
          ++ putLE 4 (inst.Buf.length % 2 ^ 32) ++ putLE 4 inst.Cmd.OpCode
          ++ [m0, m1] ++ List.replicate 98 0 := by
  obtain ⟨h1, h2, h3, h4, h5, h6, h7, h8, _, _⟩ := Offsetof_values
  simp only [MFI_READ.dcmd, h1, h2, h3, h4, h5, h6, h7, h8]
  simp [store, putLE, MFI_CMD_DCMD, MFI_STAT_INVALID_STATUS, MFI_FRAME_DIR_READ,
    List.replicate]

theorem mbox_device (inst : Instance) (s : ScsiDevice) (rest : List ScsiDevice) :
    MFI_READ.mbox inst (s :: rest) (List.replicate 128 0)
      = List.replicate 28 0
          ++ [((s.Channel * 128) % 2 ^ 16 + s.DeviceId) % 2 ^ 16 % 256,
              ((s.Channel * 128) % 2 ^ 16 + s.DeviceId) % 2 ^ 16 / 256 % 256]
          ++ List.replicate 98 0 := by
  simp only [MFI_READ.mbox, Offsetof_values.2.2.2.2.2.2.2.2.1]
  simp [store, putLE, MEGASAS_MAX_DEV_PER_CHANNEL, List.replicate]

theorem mbox_raw (inst : Instance) :
    MFI_READ.mbox inst [] (List.replicate 128 0)
      = List.replicate 28 0 ++ [inst.Dcmd.MboxB.getD 0 0 % 256, 0]
          ++ List.replicate 98 0 := by
  simp only [MFI_READ.mbox, Offsetof_values.2.2.2.2.2.2.2.2.1]
  by_cases h : inst.Dcmd.MboxB.getD 0 0 > 0
  · rw [if_pos h]
    simp [store, putLE, List.replicate]
  · have h0 : inst.Dcmd.MboxB.getD 0 0 = 0 := by omega
    rw [if_neg h, h0]
    simp [List.replicate]

theorem ioc_eq (A : Nat) (inst : Instance) (sdev : List ScsiDevice)
    (hbuf : inst.Buf ≠ []) :
    MFI_READ.ioc A inst sdev = some
      { host_no := inst.HostNo, __pad1 := 0, sgl_off := 40, sge_count := 1,
        sense_off := 0, sense_len := 0,
        frame := MFI_READ.dcmd inst (MFI_READ.mbox inst sdev (List.replicate 128 0)),
        sgl := ⟨A % 2 ^ 64, inst.Buf.length % 2 ^ 64⟩ :: List.replicate 15 ⟨0, 0⟩ } := by
  unfold MFI_READ.ioc
  cases hb : inst.Buf with
  | nil => exact absurd hb hbuf
  | cons b bs =>
    simp [megasas_iocpacket.zero, MAX_IOCTL_SGE, Offsetof_values.2.2.2.2.2.2.2.2.2,
      List.replicate]

/-- The packet sent for a device-addressed request, byte by byte. -/
theorem iocBuf_device (A : Nat) (inst : Instance) (s : ScsiDevice)
    (rest : List ScsiDevice) (hbuf : inst.Buf ≠ []) :
    MFI_READ.iocBuf A inst (s :: rest) = some
      (putLE 2 inst.HostNo ++ [0, 0] ++ [40, 0, 0, 0] ++ [1, 0, 0, 0]
        ++ List.replicate 8 0
        ++ ([5, 0, 255, 0, 0, 0, 0, 1] ++ List.replicate 8 0 ++ [16, 0, 0, 0]
          ++ putLE 4 (inst.Buf.length % 2 ^ 32) ++ putLE 4 inst.Cmd.OpCode
          ++ putLE 2 (((s.Channel * 128) % 2 ^ 16 + s.DeviceId) % 2 ^ 16)
          ++ List.replicate 98 0)
        ++ (putLE 8 (A % 2 ^ 64) ++ putLE 8 (inst.Buf.length % 2 ^ 64)
          ++ List.replicate 240 0)) := by
  rw [MFI_READ.iocBuf, ioc_eq A inst _ hbuf, mbox_device, dcmd_frame]
  simp [megasas_iocpacket.PackedBytes, Iovec.PackedBytes, putLE, List.replicate]

/-- The packet sent for a request without a device, byte by byte. -/
theorem iocBuf_raw (A : Nat) (inst : Instance) (hbuf : inst.Buf ≠ []) :
    MFI_READ.iocBuf A inst [] = some
      (putLE 2 inst.HostNo ++ [0, 0] ++ [40, 0, 0, 0] ++ [1, 0, 0, 0]
        ++ List.replicate 8 0
        ++ ([5, 0, 255, 0, 0, 0, 0, 1] ++ List.replicate 8 0 ++ [16, 0, 0, 0]
          ++ putLE 4 (inst.Buf.length % 2 ^ 32) ++ putLE 4 inst.Cmd.OpCode
          ++ [inst.Dcmd.MboxB.getD 0 0 % 256, 0]
          ++ List.replicate 98 0)
        ++ (putLE 8 (A % 2 ^ 64) ++ putLE 8 (inst.Buf.length % 2 ^ 64)
          ++ List.replicate 240 0)) := by
  rw [MFI_READ.iocBuf, ioc_eq A inst _ hbuf, mbox_raw, dcmd_frame]
  simp [megasas_iocpacket.PackedBytes, Iovec.PackedBytes, putLE, List.replicate]

/-- Every packet `MFI_READ` builds, up to the two leading mailbox bytes. -/
theorem iocBuf_shape (A : Nat) (inst : Instance) (sdev : List ScsiDevice)
    (hbuf : inst.Buf ≠ []) :
    ∃ m0 m1, MFI_READ.iocBuf A inst sdev = some
      (putLE 2 inst.HostNo ++ [0, 0] ++ [40, 0, 0, 0] ++ [1, 0, 0, 0]
        ++ List.replicate 8 0
        ++ ([5, 0, 255, 0, 0, 0, 0, 1] ++ List.replicate 8 0 ++ [16, 0, 0, 0]
          ++ putLE 4 (inst.Buf.length % 2 ^ 32) ++ putLE 4 inst.Cmd.OpCode
          ++ [m0, m1] ++ List.replicate 98 0)
        ++ (putLE 8 (A % 2 ^ 64) ++ putLE 8 (inst.Buf.length % 2 ^ 64)
          ++ List.replicate 240 0)) := by
  cases sdev with
  | nil => exact ⟨_, _, iocBuf_raw A inst hbuf⟩
  | cons s rest => exact ⟨_, _, iocBuf_device A inst s rest hbuf⟩

/-- The frame region of a packet of the shape `MFI_READ` builds. -/
theorem frameOf_shape (h0 h1 l o m0 m1 : Nat) (tail : List Nat) :
    frameOf ([h0, h1] ++ [0, 0] ++ [40, 0, 0, 0] ++ [1, 0, 0, 0]
        ++ List.replicate 8 0
        ++ ([5, 0, 255, 0, 0, 0, 0, 1] ++ List.replicate 8 0 ++ [16, 0, 0, 0]
          ++ putLE 4 l ++ putLE 4 o ++ [m0, m1] ++ List.replicate 98 0)
        ++ tail)
      = [5, 0, 255, 0, 0, 0, 0, 1] ++ List.replicate 8 0 ++ [16, 0, 0, 0]
          ++ putLE 4 l ++ putLE 4 o ++ [m0, m1] ++ List.replicate 98 0 := by
  simp [frameOf, slice, putLE, List.replicate]

theorem putLE_two (v : Nat) : putLE 2 v = [v % 256, v / 256 % 256] := rfl

/-! ## megaraid.go: MFI_READ -/

/-- C6: for every instance with a non-empty buffer of length `L < 2^32`, the
frame `MFI_READ` serializes has byte 0 = 5 (`MFI_CMD_DCMD`), byte 2 = 0xFF
(`MFI_STAT_INVALID_STATUS`), byte 7 = 1 (`sge_count`), bytes 16..18 = 0x0010
little-endian (`MFI_FRAME_DIR_READ`), bytes 18..20 = 0 (`timeout`), bytes
20..24 = `L` and bytes 24..28 = the opcode, little-endian; packet bytes 0..2
are the host number, little-endian. -/
theorem MFI_READ_frame_fields (A : Nat) (inst : Instance) (sdev : List ScsiDevice)
    (hbuf : inst.Buf ≠ []) (hlen : inst.Buf.length < 2 ^ 32)
    (hhost : inst.HostNo < 2 ^ 16) (hop : inst.Cmd.OpCode < 2 ^ 32) :
    ∃ pkt, MFI_READ.iocBuf A inst sdev = some pkt
      ∧ slice (frameOf pkt) 0 1 = [MFI_CMD_DCMD] ∧ MFI_CMD_DCMD = 5
      ∧ slice (frameOf pkt) 2 1 = [MFI_STAT_INVALID_STATUS]
      ∧ MFI_STAT_INVALID_STATUS = 0xFF
      ∧ slice (frameOf pkt) 7 1 = [1]
      ∧ slice (frameOf pkt) 16 2 = putLE 2 MFI_FRAME_DIR_READ
      ∧ MFI_FRAME_DIR_READ = 0x0010
      ∧ slice (frameOf pkt) 18 2 = [0, 0]
      ∧ slice (frameOf pkt) 20 4 = putLE 4 inst.Buf.length
      ∧ getLE (slice (frameOf pkt) 20 4) = inst.Buf.length
      ∧ slice (frameOf pkt) 24 4 = putLE 4 inst.Cmd.OpCode
      ∧ getLE (slice (frameOf pkt) 24 4) = inst.Cmd.OpCode
      ∧ slice pkt 0 2 = putLE 2 inst.HostNo
      ∧ getLE (slice pkt 0 2) = inst.HostNo := by
  obtain ⟨m0, m1, h⟩ := iocBuf_shape A inst sdev hbuf
  refine ⟨_, h, ?_⟩
  have hl : slice ([5, 0, 255, 0, 0, 0, 0, 1] ++ List.replicate 8 0 ++ [16, 0, 0, 0]
      ++ putLE 4 (inst.Buf.length % 2 ^ 32) ++ putLE 4 inst.Cmd.OpCode
      ++ [m0, m1] ++ List.replicate 98 0) 20 4 = putLE 4 inst.Buf.length := by
    rw [Nat.mod_eq_of_lt hlen]
    simp [slice, putLE, List.replicate]
  have ho : slice ([5, 0, 255, 0, 0, 0, 0, 1] ++ List.replicate 8 0 ++ [16, 0, 0, 0]
      ++ putLE 4 (inst.Buf.length % 2 ^ 32) ++ putLE 4 inst.Cmd.OpCode
      ++ [m0, m1] ++ List.replicate 98 0) 24 4 = putLE 4 inst.Cmd.OpCode := by
    simp [slice, putLE, List.replicate]
  have hh : slice (putLE 2 inst.HostNo ++ [0, 0] ++ [40, 0, 0, 0] ++ [1, 0, 0, 0]
        ++ List.replicate 8 0
        ++ ([5, 0, 255, 0, 0, 0, 0, 1] ++ List.replicate 8 0 ++ [16, 0, 0, 0]
          ++ putLE 4 (inst.Buf.length % 2 ^ 32) ++ putLE 4 inst.Cmd.OpCode
          ++ [m0, m1] ++ List.replicate 98 0)
        ++ (putLE 8 (A % 2 ^ 64) ++ putLE 8 (inst.Buf.length % 2 ^ 64)
          ++ List.replicate 240 0)) 0 2 = putLE 2 inst.HostNo := by
    simp [slice, putLE]
  rw [hh, getLE_putLE_of_lt 2 _ hhost, putLE_two inst.HostNo, frameOf_shape,
    hl, ho, getLE_putLE_of_lt 4 _ hlen, getLE_putLE_of_lt 4 _ hop]
  simp [slice, putLE, List.replicate, MFI_CMD_DCMD, MFI_STAT_INVALID_STATUS,
    MFI_FRAME_DIR_READ]

/-- C6 for an 8-byte buffer on host 3, opcode `0x02020000`, device (0, 10). -/
theorem MFI_READ_frame_fields_witness :
    ∃ pkt, MFI_READ.iocBuf 4096 ⟨3, List.replicate 8 0, ⟨0x02020000⟩,
          ⟨List.replicate 12 0⟩⟩ [⟨0, 10⟩] = some pkt
      ∧ slice (frameOf pkt) 0 1 = [5]
      ∧ slice (frameOf pkt) 2 1 = [255]
      ∧ getLE (slice (frameOf pkt) 20 4) = 8
      ∧ getLE (slice (frameOf pkt) 24 4) = 0x02020000
      ∧ getLE (slice pkt 0 2) = 3 := by
  obtain ⟨pkt, h, h1, _, h2, _, _, _, _, _, _, h3, _, h4, _, h5⟩ :=
    MFI_READ_frame_fields 4096 ⟨3, List.replicate 8 0, ⟨0x02020000⟩,
      ⟨List.replicate 12 0⟩⟩ [⟨0, 10⟩] (by simp) (by simp) (by decide)
      (by decide)
  rw [List.length_replicate] at h3
  exact ⟨pkt, h, h1, h2, h3, h4, h5⟩

/-- C7: in every request `MFI_READ` builds, packet bytes 4..8 decode
(little-endian) to the `sgl_off` set at construction; that value is 40, the
in-memory offset of `sgl` in `megasas_dcmd_frame`, which equals the sum of
the sizes of the fields declared before it. -/
theorem MFI_READ_sgl_off_roundtrip (A : Nat) (inst : Instance)
    (sdev : List ScsiDevice) (hbuf : inst.Buf ≠ []) :
    ∃ ioc, MFI_READ.ioc A inst sdev = some ioc
      ∧ MFI_READ.iocBuf A inst sdev = some ioc.PackedBytes
      ∧ getLE (slice ioc.PackedBytes 4 4) = ioc.sgl_off
      ∧ ioc.sgl_off = 40
      ∧ ioc.sgl_off = Offsetof .sgl
      ∧ Offsetof .sgl = packedOffset .sgl megasas_dcmd_frame := by
  refine ⟨_, ioc_eq A inst sdev hbuf, ?_, ?_, rfl, ?_, ?_⟩
  · rw [MFI_READ.iocBuf, ioc_eq A inst sdev hbuf]; rfl
  · simp [megasas_iocpacket.PackedBytes, slice, putLE, getLE]
  · exact Offsetof_values.2.2.2.2.2.2.2.2.2.symm
  · decide

/-- C7 for an 8-byte buffer and device (0, 10). -/
theorem MFI_READ_sgl_off_roundtrip_witness :
    ∃ ioc, MFI_READ.ioc 4096 ⟨0, List.replicate 8 0, ⟨0x02020000⟩,
          ⟨List.replicate 12 0⟩⟩ [⟨0, 10⟩] = some ioc
      ∧ getLE (slice ioc.PackedBytes 4 4) = 40 := by
  obtain ⟨ioc, h, _, h1, h2, _, _⟩ :=
    MFI_READ_sgl_off_roundtrip 4096 ⟨0, List.replicate 8 0, ⟨0x02020000⟩,
      ⟨List.replicate 12 0⟩⟩ [⟨0, 10⟩] (by simp)
  exact ⟨ioc, h, h2 ▸ h1⟩

/-- C9: with a device (channel `c`, id `d`), the mailbox region of the frame
holds `(c * 128 + d) mod 2^16` little-endian in its first two bytes and zero
in the other ten, whatever `MboxB` contains. -/
theorem MFI_READ_mbox_device (A : Nat) (inst : Instance) (s : ScsiDevice)
    (rest : List ScsiDevice) (hbuf : inst.Buf ≠ []) :
    ∃ pkt, MFI_READ.iocBuf A inst (s :: rest) = some pkt
      ∧ mboxOf (frameOf pkt)
          = putLE 2 ((s.Channel * 128 + s.DeviceId) % 2 ^ 16) ++ List.replicate 10 0
      ∧ getLE (slice (mboxOf (frameOf pkt)) 0 2)
          = (s.Channel * 128 + s.DeviceId) % 2 ^ 16 := by
  refine ⟨_, iocBuf_device A inst s rest hbuf, ?_⟩
  have hm : mboxOf ([5, 0, 255, 0, 0, 0, 0, 1] ++ List.replicate 8 0 ++ [16, 0, 0, 0]
      ++ putLE 4 (inst.Buf.length % 2 ^ 32) ++ putLE 4 inst.Cmd.OpCode
      ++ [((s.Channel * 128) % 2 ^ 16 + s.DeviceId) % 2 ^ 16 % 256,
          ((s.Channel * 128) % 2 ^ 16 + s.DeviceId) % 2 ^ 16 / 256 % 256]
      ++ List.replicate 98 0)
      = putLE 2 ((s.Channel * 128 + s.DeviceId) % 2 ^ 16) ++ List.replicate 10 0 := by
    rw [Nat.mod_add_mod]
    simp [mboxOf, slice, putLE, List.replicate]
  have hs : slice (putLE 2 ((s.Channel * 128 + s.DeviceId) % 2 ^ 16)
      ++ List.replicate 10 0) 0 2
      = putLE 2 ((s.Channel * 128 + s.DeviceId) % 2 ^ 16) := by
    simp [slice, putLE]
  rw [putLE_two inst.HostNo,
    putLE_two (((s.Channel * 128) % 2 ^ 16 + s.DeviceId) % 2 ^ 16),
    frameOf_shape, hm, hs]
  exact ⟨rfl, getLE_putLE_of_lt 2 _ (Nat.mod_lt _ (by decide))⟩

/-- C9 for channel 1, device 10: the mailbox word is 138. -/
theorem MFI_READ_mbox_device_witness :
    ∃ pkt, MFI_READ.iocBuf 4096 ⟨0, List.replicate 8 0, ⟨0x02020000⟩,
          ⟨List.replicate 12 7⟩⟩ [⟨1, 10⟩] = some pkt
      ∧ mboxOf (frameOf pkt) = [138, 0, 0, 0, 0, 0, 0, 0, 0, 0, 0, 0] := by
  obtain ⟨pkt, h, h1, _⟩ :=
    MFI_READ_mbox_device 4096 ⟨0, List.replicate 8 0, ⟨0x02020000⟩,
      ⟨List.replicate 12 7⟩⟩ ⟨1, 10⟩ [] (by simp)
  exact ⟨pkt, h, h1⟩

/-- C10: without a device, mailbox byte 0 of the frame is `MboxB[0]` (also
when that byte is 0) and mailbox bytes 1..11 are zero, whatever
`MboxB[1..11]` contain. -/
theorem MFI_READ_mbox_raw (A : Nat) (inst : Instance) (hbuf : inst.Buf ≠ [])
    (hlen : inst.Dcmd.MboxB.length = 12) (hbytes : ∀ b ∈ inst.Dcmd.MboxB, b < 256) :
    ∃ pkt, MFI_READ.iocBuf A inst [] = some pkt
      ∧ (mboxOf (frameOf pkt))[0]? = inst.Dcmd.MboxB[0]?
      ∧ slice (mboxOf (frameOf pkt)) 1 11 = List.replicate 11 0 := by
  refine ⟨_, iocBuf_raw A inst hbuf, ?_⟩
  rw [putLE_two inst.HostNo, frameOf_shape]
  cases hm : inst.Dcmd.MboxB with
  | nil => rw [hm] at hlen; exact absurd hlen (by decide)
  | cons b0 bs =>
    have hb : b0 < 256 := hbytes b0 (by rw [hm]; exact List.mem_cons_self _ _)
    simp [mboxOf, slice, putLE, List.replicate, Nat.mod_eq_of_lt hb]

/-- C10 for `MboxB = [1, 9, 9, ..., 9]`: the mailbox is 1 followed by zeros. -/
theorem MFI_READ_mbox_raw_witness :
    ∃ pkt, MFI_READ.iocBuf 4096 ⟨0, List.replicate 8 0, ⟨0x01010000⟩,
          ⟨1 :: List.replicate 11 9⟩⟩ [] = some pkt
      ∧ (mboxOf (frameOf pkt))[0]? = some 1
      ∧ slice (mboxOf (frameOf pkt)) 1 11 = List.replicate 11 0 :=
  MFI_READ_mbox_raw 4096 ⟨0, List.replicate 8 0, ⟨0x01010000⟩,
    ⟨1 :: List.replicate 11 9⟩⟩ (by simp) (by decide) (by decide)

/-! ## megaraid.go: PackedBytes -/

theorem Iovec_PackedBytes_length (v : Iovec) : v.PackedBytes.length = 16 := by
  simp [Iovec.PackedBytes, putLE_length]

theorem flatMap_PackedBytes_length (l : List Iovec) :
    (l.flatMap Iovec.PackedBytes).length = 16 * l.length := by
  induction l with
  | nil => rfl
  | cons x xs ih =>
    simp only [List.flatMap_cons, List.length_append, Iovec_PackedBytes_length, ih,
      List.length_cons]
    omega

theorem flatMap_PackedBytes_slice (l : List Iovec) (i : Nat) (v : Iovec)
    (h : l[i]? = some v) :
    slice (l.flatMap Iovec.PackedBytes) (16 * i) 16 = v.PackedBytes := by
  induction l generalizing i with
  | nil => simp at h
  | cons x xs ih =>
    cases i with
    | zero =>
      simp only [List.getElem?_cons_zero, Option.some.injEq] at h
      subst h
      have := slice_append_left x.PackedBytes (xs.flatMap Iovec.PackedBytes)
      rw [Iovec_PackedBytes_length] at this
      simpa [List.flatMap_cons] using this
    | succ j =>
      simp only [List.getElem?_cons_succ] at h
      have := slice_append_right x.PackedBytes (xs.flatMap Iovec.PackedBytes)
        (16 * j) 16
      rw [Iovec_PackedBytes_length] at this
      rw [List.flatMap_cons, show 16 * (j + 1) = 16 + 16 * j by omega, this]
      exact ih j h

theorem PackedBytes_split (ioc : megasas_iocpacket) :
    ioc.PackedBytes
      = (putLE 2 ioc.host_no ++ putLE 2 ioc.__pad1 ++ putLE 4 ioc.sgl_off
          ++ putLE 4 ioc.sge_count ++ putLE 4 ioc.sense_off
          ++ putLE 4 ioc.sense_len ++ ioc.frame)
        ++ ioc.sgl.flatMap Iovec.PackedBytes :=
  rfl

/-- C8: for every `megasas_iocpacket` value, `PackedBytes` returns exactly
404 bytes: the fields in declaration order, little-endian, without padding:
`host_no` at 0, `__pad1` at 2, `sgl_off` at 4, `sge_count` at 8, `sense_off`
at 12, `sense_len` at 16, `frame` at 20..148 and scatter-gather slot `i` at
`148 + 16 * i`. -/
theorem PackedBytes_layout (ioc : megasas_iocpacket) (h : ioc.WellTyped) :
    ioc.PackedBytes.length = 404
      ∧ 2 + 2 + 4 + 4 + 4 + 4 + 128 + 16 * 16 = 404
      ∧ slice ioc.PackedBytes 0 2 = putLE 2 ioc.host_no
      ∧ getLE (slice ioc.PackedBytes 0 2) = ioc.host_no
      ∧ slice ioc.PackedBytes 2 2 = putLE 2 ioc.__pad1
      ∧ slice ioc.PackedBytes 4 4 = putLE 4 ioc.sgl_off
      ∧ getLE (slice ioc.PackedBytes 4 4) = ioc.sgl_off
      ∧ slice ioc.PackedBytes 8 4 = putLE 4 ioc.sge_count
      ∧ getLE (slice ioc.PackedBytes 8 4) = ioc.sge_count
      ∧ slice ioc.PackedBytes 12 4 = putLE 4 ioc.sense_off
      ∧ getLE (slice ioc.PackedBytes 12 4) = ioc.sense_off
      ∧ slice ioc.PackedBytes 16 4 = putLE 4 ioc.sense_len
      ∧ getLE (slice ioc.PackedBytes 16 4) = ioc.sense_len
      ∧ slice ioc.PackedBytes 20 128 = ioc.frame
      ∧ ∀ i, i < 16 → ∃ v, ioc.sgl[i]? = some v
          ∧ slice ioc.PackedBytes (148 + 16 * i) 16
              = putLE 8 v.IovBase ++ putLE 8 v.IovLen
          ∧ getLE (putLE 8 v.IovBase) = v.IovBase
          ∧ getLE (putLE 8 v.IovLen) = v.IovLen := by
  obtain ⟨h1, _, h3, h4, h5, h6, hf, _, hs, hv⟩ := h
  have e0 : slice ioc.PackedBytes 0 2 = putLE 2 ioc.host_no := by
    simp [megasas_iocpacket.PackedBytes, slice, putLE]
  have e4 : slice ioc.PackedBytes 4 4 = putLE 4 ioc.sgl_off := by
    simp [megasas_iocpacket.PackedBytes, slice, putLE]
  have e8 : slice ioc.PackedBytes 8 4 = putLE 4 ioc.sge_count := by
    simp [megasas_iocpacket.PackedBytes, slice, putLE]
  have e12 : slice ioc.PackedBytes 12 4 = putLE 4 ioc.sense_off := by
    simp [megasas_iocpacket.PackedBytes, slice, putLE]
  have e16 : slice ioc.PackedBytes 16 4 = putLE 4 ioc.sense_len := by
    simp [megasas_iocpacket.PackedBytes, slice, putLE]
  refine ⟨?_, rfl, e0, ?_, ?_, e4, ?_, e8, ?_, e12, ?_, e16, ?_, ?_, ?_⟩
  · simp only [megasas_iocpacket.PackedBytes, List.length_append, putLE_length,
      flatMap_PackedBytes_length, hf, hs, MAX_IOCTL_SGE]
  · rw [e0, getLE_putLE_of_lt 2 _ h1]
  · simp [megasas_iocpacket.PackedBytes, slice, putLE]
  · rw [e4, getLE_putLE_of_lt 4 _ h3]
  · rw [e8, getLE_putLE_of_lt 4 _ h4]
  · rw [e12, getLE_putLE_of_lt 4 _ h5]
  · rw [e16, getLE_putLE_of_lt 4 _ h6]
  · simp [megasas_iocpacket.PackedBytes, slice, putLE, ← hf]
  · intro i hi
    have hi2 : i < ioc.sgl.length := by rw [hs]; exact hi
    refine ⟨ioc.sgl[i], List.getElem?_eq_getElem hi2, ?_, ?_, ?_⟩
    · have hl : (putLE 2 ioc.host_no ++ putLE 2 ioc.__pad1 ++ putLE 4 ioc.sgl_off
          ++ putLE 4 ioc.sge_count ++ putLE 4 ioc.sense_off
          ++ putLE 4 ioc.sense_len ++ ioc.frame).length = 148 := by
        simp only [List.length_append, putLE_length, hf]
      have := slice_append_right
        (putLE 2 ioc.host_no ++ putLE 2 ioc.__pad1 ++ putLE 4 ioc.sgl_off
          ++ putLE 4 ioc.sge_count ++ putLE 4 ioc.sense_off
          ++ putLE 4 ioc.sense_len ++ ioc.frame)
        (ioc.sgl.flatMap Iovec.PackedBytes) (16 * i) 16
      rw [hl] at this
      rw [PackedBytes_split, this,
        flatMap_PackedBytes_slice ioc.sgl i _ (List.getElem?_eq_getElem hi2)]
      rfl
    · exact getLE_putLE_of_lt 8 _ (hv _ (List.getElem_mem hi2)).1
    · exact getLE_putLE_of_lt 8 _ (hv _ (List.getElem_mem hi2)).2

/-- C8 for the packet with host 3, `sgl_off` 40, one scatter-gather element
at address `0x7f0000001000` of 512 bytes. -/
theorem PackedBytes_layout_witness :
    (megasas_iocpacket.PackedBytes
        ⟨3, 0, 40, 1, 0, 0, List.replicate 128 0,
          ⟨0x7f0000001000, 512⟩ :: List.replicate 15 ⟨0, 0⟩⟩).length = 404
      ∧ slice (megasas_iocpacket.PackedBytes
        ⟨3, 0, 40, 1, 0, 0, List.replicate 128 0,
          ⟨0x7f0000001000, 512⟩ :: List.replicate 15 ⟨0, 0⟩⟩) 4 4
          = [40, 0, 0, 0] := by
  have h := PackedBytes_layout
    ⟨3, 0, 40, 1, 0, 0, List.replicate 128 0,
      ⟨0x7f0000001000, 512⟩ :: List.replicate 15 ⟨0, 0⟩⟩
    ⟨by decide, by decide, by decide, by decide, by decide, by decide,
      List.length_replicate 128 0,
      fun b hb => by rw [List.eq_of_mem_replicate hb]; decide,
      by decide, by decide⟩
  exact ⟨h.1, h.2.2.2.2.2.1⟩

/-! ## megaraid.go: the scatter-gather envelope -/

/-- The scatter-gather region of a packet of the shape `MFI_READ` builds. -/
theorem sgl_region_shape (h0 h1 l o m0 m1 : Nat) (tail : List Nat) (k n : Nat) :
    slice ([h0, h1] ++ [0, 0] ++ [40, 0, 0, 0] ++ [1, 0, 0, 0]
        ++ List.replicate 8 0
        ++ ([5, 0, 255, 0, 0, 0, 0, 1] ++ List.replicate 8 0 ++ [16, 0, 0, 0]
          ++ putLE 4 l ++ putLE 4 o ++ [m0, m1] ++ List.replicate 98 0)
        ++ tail) (148 + k) n
      = slice tail k n := by
  have hl : ([h0, h1] ++ [0, 0] ++ [40, 0, 0, 0] ++ [1, 0, 0, 0]
        ++ List.replicate 8 0
        ++ ([5, 0, 255, 0, 0, 0, 0, 1] ++ List.replicate 8 0 ++ [16, 0, 0, 0]
          ++ putLE 4 l ++ putLE 4 o ++ [m0, m1] ++ List.replicate 98 0)).length
      = 148 := by
    simp [putLE_length]
  have := slice_append_right
    ([h0, h1] ++ [0, 0] ++ [40, 0, 0, 0] ++ [1, 0, 0, 0]
        ++ List.replicate 8 0
        ++ ([5, 0, 255, 0, 0, 0, 0, 1] ++ List.replicate 8 0 ++ [16, 0, 0, 0]
          ++ putLE 4 l ++ putLE 4 o ++ [m0, m1] ++ List.replicate 98 0))
    tail k n
  rw [hl] at this
  exact this

theorem slice_zero_length (a b : List Nat) (n : Nat) (h : a.length = n) :
    slice (a ++ b) 0 n = a := by
  subst h; exact slice_append_left a b

/-- C11: every request `MFI_READ` builds for a buffer at address `A` of length
`L` declares exactly one scatter-gather element: packet bytes 8..12 hold 1,
bytes 12..20 (`sense_off`, `sense_len`) are zero, slot 0 (bytes 148..164) is
`A` then `L` as little-endian 64-bit integers, slots 1..15 (bytes 164..404)
are zero; the slot length equals the frame's `data_xfer_len` when
`L < 2^32`. -/
theorem MFI_READ_single_sge (A : Nat) (inst : Instance) (sdev : List ScsiDevice)
    (hbuf : inst.Buf ≠ []) (hA : A < 2 ^ 64) (hL : inst.Buf.length < 2 ^ 64) :
    ∃ pkt, MFI_READ.iocBuf A inst sdev = some pkt
      ∧ pkt.length = 404
      ∧ slice pkt 8 4 = putLE 4 1 ∧ getLE (slice pkt 8 4) = 1
      ∧ slice pkt 12 8 = List.replicate 8 0
      ∧ slice pkt 148 8 = putLE 8 A ∧ getLE (slice pkt 148 8) = A
      ∧ slice pkt 156 8 = putLE 8 inst.Buf.length
      ∧ getLE (slice pkt 156 8) = inst.Buf.length
      ∧ slice pkt 164 240 = List.replicate 240 0
      ∧ (inst.Buf.length < 2 ^ 32 →
          getLE (slice pkt 156 8) = getLE (slice (frameOf pkt) 20 4)) := by
  obtain ⟨m0, m1, h⟩ := iocBuf_shape A inst sdev hbuf
  refine ⟨_, h, ?_⟩
  rw [Nat.mod_eq_of_lt hA, Nat.mod_eq_of_lt hL, putLE_two inst.HostNo]
  have t0 : slice (putLE 8 A ++ putLE 8 inst.Buf.length ++ List.replicate 240 0) 0 8
      = putLE 8 A := by
    rw [List.append_assoc]; exact slice_zero_length _ _ 8 (putLE_length 8 A)
  have t1 : slice (putLE 8 A ++ putLE 8 inst.Buf.length ++ List.replicate 240 0) 8 8
      = putLE 8 inst.Buf.length := by
    have := slice_append_right (putLE 8 A)
      (putLE 8 inst.Buf.length ++ List.replicate 240 0) 0 8
    rw [putLE_length, List.append_assoc] at *
    rw [this]; exact slice_zero_length _ _ 8 (putLE_length 8 _)
  have t2 : slice (putLE 8 A ++ putLE 8 inst.Buf.length ++ List.replicate 240 0) 16 240
      = List.replicate 240 0 := by
    have := slice_append_right (putLE 8 A ++ putLE 8 inst.Buf.length)
      (List.replicate 240 0) 0 240
    rw [List.length_append, putLE_length, putLE_length] at this
    rw [this]
    have h2 := slice_zero_length (List.replicate 240 0) [] 240 (List.length_replicate _ _)
    rwa [List.append_nil] at h2
  have e148 := sgl_region_shape (inst.HostNo % 256) (inst.HostNo / 256 % 256)
    (inst.Buf.length % 2 ^ 32) inst.Cmd.OpCode m0 m1
    (putLE 8 A ++ putLE 8 inst.Buf.length ++ List.replicate 240 0) 0 8
  have e156 := sgl_region_shape (inst.HostNo % 256) (inst.HostNo / 256 % 256)
    (inst.Buf.length % 2 ^ 32) inst.Cmd.OpCode m0 m1
    (putLE 8 A ++ putLE 8 inst.Buf.length ++ List.replicate 240 0) 8 8
  have e164 := sgl_region_shape (inst.HostNo % 256) (inst.HostNo / 256 % 256)
    (inst.Buf.length % 2 ^ 32) inst.Cmd.OpCode m0 m1
    (putLE 8 A ++ putLE 8 inst.Buf.length ++ List.replicate 240 0) 16 240
  rw [t0] at e148
  rw [t1] at e156
  rw [t2] at e164
  have h8 : slice ([inst.HostNo % 256, inst.HostNo / 256 % 256] ++ [0, 0]
        ++ [40, 0, 0, 0] ++ [1, 0, 0, 0] ++ List.replicate 8 0
        ++ ([5, 0, 255, 0, 0, 0, 0, 1] ++ List.replicate 8 0 ++ [16, 0, 0, 0]
          ++ putLE 4 (inst.Buf.length % 2 ^ 32) ++ putLE 4 inst.Cmd.OpCode
          ++ [m0, m1] ++ List.replicate 98 0)
        ++ (putLE 8 A ++ putLE 8 inst.Buf.length ++ List.replicate 240 0)) 8 4
      = putLE 4 1 := by
    simp [slice, putLE]
  have h12 : slice ([inst.HostNo % 256, inst.HostNo / 256 % 256] ++ [0, 0]
        ++ [40, 0, 0, 0] ++ [1, 0, 0, 0] ++ List.replicate 8 0
        ++ ([5, 0, 255, 0, 0, 0, 0, 1] ++ List.replicate 8 0 ++ [16, 0, 0, 0]
          ++ putLE 4 (inst.Buf.length % 2 ^ 32) ++ putLE 4 inst.Cmd.OpCode
          ++ [m0, m1] ++ List.replicate 98 0)
        ++ (putLE 8 A ++ putLE 8 inst.Buf.length ++ List.replicate 240 0)) 12 8
      = List.replicate 8 0 := by
    simp [slice, putLE, List.replicate]
  refine ⟨?_, h8, ?_, h12, e148, ?_, e156, ?_, e164, ?_⟩
  · simp only [List.length_append, List.length_cons, List.length_nil,
      List.length_replicate, putLE_length]
  · rw [h8]; rfl
  · rw [e148, getLE_putLE_of_lt 8 A hA]
  · rw [e156, getLE_putLE_of_lt 8 _ hL]
  · intro h32
    rw [e156, getLE_putLE_of_lt 8 _ hL, frameOf_shape, Nat.mod_eq_of_lt h32]
    have : slice ([5, 0, 255, 0, 0, 0, 0, 1] ++ List.replicate 8 0 ++ [16, 0, 0, 0]
        ++ putLE 4 inst.Buf.length ++ putLE 4 inst.Cmd.OpCode
        ++ [m0, m1] ++ List.replicate 98 0) 20 4 = putLE 4 inst.Buf.length := by
      simp [slice, putLE, List.replicate]
    rw [this, getLE_putLE_of_lt 4 _ h32]

/-- C11 for an 8-byte buffer at address `0x7f0000001000`. -/
theorem MFI_READ_single_sge_witness :
    ∃ pkt, MFI_READ.iocBuf 0x7f0000001000 ⟨0, List.replicate 8 0, ⟨0x02010100⟩,
          ⟨List.replicate 12 0⟩⟩ [] = some pkt
      ∧ pkt.length = 404
      ∧ getLE (slice pkt 8 4) = 1
      ∧ getLE (slice pkt 148 8) = 0x7f0000001000
      ∧ getLE (slice pkt 156 8) = 8
      ∧ slice pkt 164 240 = List.replicate 240 0 := by
  obtain ⟨pkt, h, h1, _, h2, _, _, h3, _, h4, h5, _⟩ :=
    MFI_READ_single_sge 0x7f0000001000 ⟨0, List.replicate 8 0, ⟨0x02010100⟩,
      ⟨List.replicate 12 0⟩⟩ [] (by simp) (by decide) (by simp)
  rw [List.length_replicate] at h4
  exact ⟨pkt, h, h1, h2, h3, h4, h5⟩

/-! ## parse_info.go: ParseVpdPage83Jbod -/

set_option maxRecDepth 100000 in
theorem top_nibble : ∀ b, b < 256 → shr 8 b 4 &&& 0xF = b / 16 := by
  decide

theorem drop_length_eq (data E rest : List Nat) (offset : Nat)
    (h : data.drop offset = E ++ rest) (hE : 0 < E.length) :
    data.length = offset + E.length + rest.length := by
  have := congrArg List.length h
  rw [List.length_drop, List.length_append] at this
  omega

theorem drop_getD (data tl : List Nat) (offset i : Nat)
    (h : data.drop offset = tl) : data.getD (offset + i) 0 = tl.getD i 0 := by
  rw [List.getD_eq_getElem?_getD, List.getD_eq_getElem?_getD, ← h,
    List.getElem?_drop]

theorem drop_slice (data tl : List Nat) (offset i n : Nat)
    (h : data.drop offset = tl) : slice data (offset + i) n = slice tl i n := by
  rw [slice, slice, ← h, List.drop_drop]

theorem encode_length (d : Descriptor) : d.encode.length = 4 + d.payload.length := by
  simp [Descriptor.encode]; omega

theorem encode_getD (d : Descriptor) (rest : List Nat) :
    (d.encode ++ rest).getD 3 0 = d.payload.length := by
  simp [Descriptor.encode]

theorem encode_slice (d : Descriptor) (rest : List Nat) :
    slice (d.encode ++ rest) 4 d.payload.length = d.payload := by
  simp [Descriptor.encode, slice]

/-- A well-formed descriptor that does not qualify is stepped over: the loop
continues `4 + n` bytes further. -/
theorem loop_skip (data rest : List Nat) (d : Descriptor) (fuel offset : Nat)
    (h : data.drop offset = d.encode ++ rest) (hw : d.wellFormed)
    (hq : ¬ d.qualifies) :
    ParseVpdPage83Jbod.loop data (fuel + 1) offset
      = ParseVpdPage83Jbod.loop data fuel (offset + 4 + d.payload.length) := by
  have hlen := drop_length_eq data d.encode rest offset h
    (by rw [encode_length]; omega)
  rw [encode_length] at hlen
  have hg : data.getD (offset + 3) 0 = d.payload.length := by
    rw [drop_getD data _ offset 3 h, encode_getD]
  have hs : slice data (offset + 4) d.payload.length = d.payload := by
    rw [drop_slice data _ offset 4 _ h, encode_slice]
  obtain ⟨h1, _, hb⟩ := hw
  rw [ParseVpdPage83Jbod.loop]
  simp only [hg, hs]
  rw [if_pos (by omega), if_neg (by omega), if_neg (by omega)]
  by_cases h8 : d.payload.length ≥ 8
  · rw [if_pos h8]
    have hb0 : d.payload.getD 0 0 < 256 := by
      cases hp : d.payload with
      | nil => simp
      | cons x xs => simpa using hb x (by rw [hp]; exact List.mem_cons_self _ _)
    rw [top_nibble _ hb0, if_neg]
    intro hn
    exact hq ⟨h8, hn⟩
  · rw [if_neg h8]

/-- A well-formed qualifying descriptor ends the loop with its WWN. -/
theorem loop_hit (data rest : List Nat) (d : Descriptor) (fuel offset : Nat)
    (h : data.drop offset = d.encode ++ rest) (hw : d.wellFormed)
    (hq : d.qualifies) :
    ParseVpdPage83Jbod.loop data (fuel + 1) offset
      = some (sprintfNaa (getBE (d.payload.drop (d.payload.length - 8)))) := by
  have hlen := drop_length_eq data d.encode rest offset h
    (by rw [encode_length]; omega)
  rw [encode_length] at hlen
  have hg : data.getD (offset + 3) 0 = d.payload.length := by
    rw [drop_getD data _ offset 3 h, encode_getD]
  have hs : slice data (offset + 4) d.payload.length = d.payload := by
    rw [drop_slice data _ offset 4 _ h, encode_slice]
  obtain ⟨h1, _, hb⟩ := hw
  have hb0 : d.payload.getD 0 0 < 256 := by
    cases hp : d.payload with
    | nil => simp
    | cons x xs => simpa using hb x (by rw [hp]; exact List.mem_cons_self _ _)
  rw [ParseVpdPage83Jbod.loop]
  simp only [hg, hs]
  rw [if_pos (by omega), if_neg (by omega), if_neg (by omega), if_pos hq.1,
    top_nibble _ hb0, if_pos hq.2]

/-- A header with length byte 0, or a length that runs past the end of the
buffer, ends the loop with "invalid length". -/
theorem loop_bad (data bad : List Nat) (fuel offset : Nat)
    (h : data.drop offset = bad) (h4 : 4 ≤ bad.length)
    (hl : bad.getD 3 0 = 0 ∨ 4 + bad.getD 3 0 > bad.length) :
    ParseVpdPage83Jbod.loop data (fuel + 1) offset = some "invalid length" := by
  have hlen : data.length = offset + bad.length := by
    have := congrArg List.length h
    rw [List.length_drop] at this
    omega
  have hg : data.getD (offset + 3) 0 = bad.getD 3 0 := drop_getD data _ offset 3 h
  rw [ParseVpdPage83Jbod.loop]
  simp only [hg]
  rw [if_pos (by omega), if_neg (by omega), if_pos]
  rcases hl with h0 | h0
  · exact Or.inl h0
  · exact Or.inr (by omega)

/-- A run of well-formed descriptors of which none qualifies is stepped over
as a whole. -/
theorem loop_skip_all (data : List Nat) (pre : List Descriptor) :
    ∀ (rest : List Nat) (fuel offset : Nat),
      (∀ p ∈ pre, p.wellFormed ∧ ¬ p.qualifies) →
      data.drop offset = pre.flatMap Descriptor.encode ++ rest →
      ParseVpdPage83Jbod.loop data (fuel + pre.length) offset
        = ParseVpdPage83Jbod.loop data fuel
            (offset + (pre.flatMap Descriptor.encode).length)
        ∧ data.drop (offset + (pre.flatMap Descriptor.encode).length) = rest := by
  induction pre with
  | nil =>
    intro rest fuel offset _ h
    simpa using h
  | cons d ds ih =>
    intro rest fuel offset hpre h
    rw [List.flatMap_cons, List.append_assoc] at h
    have hd := hpre d (List.mem_cons_self _ _)
    have hnext : data.drop (offset + 4 + d.payload.length)
        = ds.flatMap Descriptor.encode ++ rest := by
      have := congrArg (List.drop d.encode.length) h
      rw [List.drop_drop, List.drop_left' rfl, encode_length] at this
      rw [← this]; congr 1; omega
    obtain ⟨ih1, ih2⟩ := ih rest fuel (offset + 4 + d.payload.length)
      (fun p hp => hpre p (List.mem_cons_of_mem _ hp)) hnext
    have e : fuel + (d :: ds).length = (fuel + ds.length) + 1 := by
      simp; omega
    have e2 : offset + ((d :: ds).flatMap Descriptor.encode).length
        = offset + 4 + d.payload.length + (ds.flatMap Descriptor.encode).length := by
      rw [List.flatMap_cons, List.length_append, encode_length]; omega
    rw [e, e2, loop_skip data _ d _ offset h hd.1 hd.2]
    exact ⟨ih1, ih2⟩

theorem flatMap_encode_length_ge (pre : List Descriptor) :
    pre.length ≤ (pre.flatMap Descriptor.encode).length := by
  induction pre with
  | nil => simp
  | cons d ds ih =>
    rw [List.flatMap_cons, List.length_append, encode_length, List.length_cons]
    omega

theorem getBE_foldl_lt (bs : List Nat) (hb : ∀ b ∈ bs, b < 256) :
    ∀ acc, bs.foldl (fun a b => a * 256 + b) acc < (acc + 1) * 256 ^ bs.length := by
  induction bs with
  | nil => intro acc; simp
  | cons x xs ih =>
    intro acc
    have hx : x < 256 := hb x (List.mem_cons_self _ _)
    have := ih (fun b h => hb b (List.mem_cons_of_mem _ h)) (acc * 256 + x)
    rw [List.foldl_cons, List.length_cons, Nat.pow_succ]
    calc List.foldl (fun a b => a * 256 + b) (acc * 256 + x) xs
        < (acc * 256 + x + 1) * 256 ^ xs.length := this
      _ ≤ ((acc + 1) * 256) * 256 ^ xs.length :=
          Nat.mul_le_mul_right _ (by omega)
      _ = (acc + 1) * (256 ^ xs.length * 256) := by
          rw [Nat.mul_assoc, Nat.mul_comm 256]

theorem getBE_lt (bs : List Nat) (hb : ∀ b ∈ bs, b < 256) :
    getBE bs < 256 ^ bs.length := by
  have := getBE_foldl_lt bs hb 0
  simpa [getBE] using this

theorem hexFixed_length (n v : Nat) : (hexFixed n v).length = n := by
  induction n generalizing v with
  | zero => rfl
  | succ n ih => simp [hexFixed, ih]

theorem hexDigit_mem : ∀ d, d < 16 → hexDigit d ∈ "0123456789abcdef".data := by
  decide

theorem hexDigitVal_hexDigit : ∀ d, d < 16 → hexDigitVal (hexDigit d) = d := by
  decide

theorem hexFixed_mem (n v : Nat) :
    ∀ c ∈ hexFixed n v, c ∈ "0123456789abcdef".data := by
  induction n generalizing v with
  | zero => intro c hc; simp [hexFixed] at hc
  | succ n ih =>
    intro c hc
    rw [hexFixed, List.mem_append, List.mem_singleton] at hc
    rcases hc with hc | hc
    · exact ih _ c hc
    · rw [hc]; exact hexDigit_mem _ (Nat.mod_lt _ (by decide))

theorem hexVal_hexFixed (n v : Nat) : hexVal (hexFixed n v) = v % 16 ^ n := by
  induction n generalizing v with
  | zero => simp [hexFixed, hexVal, Nat.mod_one]
  | succ n ih =>
    have h := ih (v / 16)
    rw [hexVal] at h
    rw [hexFixed, hexVal, List.foldl_append, h]
    simp only [List.foldl_cons, List.foldl_nil]
    rw [hexDigitVal_hexDigit _ (Nat.mod_lt _ (by decide)), Nat.pow_succ,
      Nat.mul_comm (16 ^ n) 16, Nat.mod_mul]
    omega

theorem last8_lt (payload : List Nat) (h8 : 8 ≤ payload.length)
    (hb : ∀ b ∈ payload, b < 256) :
    getBE (payload.drop (payload.length - 8)) < 2 ^ 64 := by
  have := getBE_lt (payload.drop (payload.length - 8))
    (fun b h => hb b (List.mem_of_mem_drop h))
  rw [List.length_drop, show payload.length - (payload.length - 8) = 8 by omega]
    at this
  exact this

/-- C12: in a buffer of 4 leading bytes followed by well-formed descriptors,
the first descriptor whose payload has at least 8 bytes and whose first
payload byte has top nibble 0x5 or 0x6 decides the result: `"naa."` followed
by the 16 lowercase hexadecimal digits of the big-endian integer formed by
the last 8 payload bytes.  The descriptors before it are stepped over by
`4 + n` bytes each; what follows it (further descriptors or any other bytes)
is not looked at. -/
theorem ParseVpdPage83Jbod_first_naa (lead : List Nat) (pre : List Descriptor)
    (d : Descriptor) (rest : List Nat) (hlead : lead.length = 4)
    (hpre : ∀ p ∈ pre, p.wellFormed ∧ ¬ p.qualifies)
    (hd : d.wellFormed) (hq : d.qualifies) :
    ∃ wwn, wwn = getBE (d.payload.drop (d.payload.length - 8))
      ∧ ParseVpdPage83Jbod
          (lead ++ pre.flatMap Descriptor.encode ++ d.encode ++ rest)
          = some ("naa." ++ String.mk (hexFixed 16 wwn))
      ∧ wwn < 2 ^ 64
      ∧ (hexFixed 16 wwn).length = 16
      ∧ (∀ c ∈ hexFixed 16 wwn, c ∈ "0123456789abcdef".data)
      ∧ hexVal (hexFixed 16 wwn) = wwn := by
  have hw : getBE (d.payload.drop (d.payload.length - 8)) < 2 ^ 64 :=
    last8_lt d.payload hq.1 hd.2.2
  refine ⟨_, rfl, ?_, hw, hexFixed_length _ _, hexFixed_mem _ _, ?_⟩
  · have hdrop : (lead ++ pre.flatMap Descriptor.encode ++ d.encode ++ rest).drop 4
        = pre.flatMap Descriptor.encode ++ (d.encode ++ rest) := by
      rw [List.append_assoc, List.append_assoc, List.drop_left' hlead]
    have hlen : (lead ++ pre.flatMap Descriptor.encode ++ d.encode ++ rest).length
        = 4 + (pre.flatMap Descriptor.encode).length + d.encode.length
            + rest.length := by
      simp only [List.length_append, hlead]
    have hge := flatMap_encode_length_ge pre
    obtain ⟨hs1, hs2⟩ := loop_skip_all _ pre (d.encode ++ rest)
      ((lead ++ pre.flatMap Descriptor.encode ++ d.encode ++ rest).length
        - pre.length + 1) 4 hpre hdrop
    rw [ParseVpdPage83Jbod, if_neg (by omega),
      show (lead ++ pre.flatMap Descriptor.encode ++ d.encode ++ rest).length + 1
        = (lead ++ pre.flatMap Descriptor.encode ++ d.encode ++ rest).length
            - pre.length + 1 + pre.length by omega,
      hs1, loop_hit _ rest d _ _ hs2 hd hq, sprintfNaa, Nat.mod_eq_of_lt hw]
  · rw [hexVal_hexFixed]
    exact Nat.mod_eq_of_lt hw

/-- C12 on a buffer with a 2-byte descriptor, a non-NAA 8-byte descriptor and
then the NAA descriptor `60 01 02 03 04 05 06 07 08`, whose last 8 bytes are
taken. -/
theorem ParseVpdPage83Jbod_first_naa_witness :
    ParseVpdPage83Jbod
        ([0, 0x83, 0, 36] ++ [1, 2, 0, 2, 0xAA, 0xBB]
          ++ [1, 3, 0, 8, 0x21, 2, 3, 4, 5, 6, 7, 8]
          ++ [1, 3, 0, 9, 0x60, 1, 2, 3, 4, 5, 6, 7, 8] ++ [0, 0, 0, 0])
      = some "naa.0102030405060708" := by
  obtain ⟨wwn, hw, h, _⟩ := ParseVpdPage83Jbod_first_naa [0, 0x83, 0, 36]
    [⟨1, 2, 0, [0xAA, 0xBB]⟩, ⟨1, 3, 0, [0x21, 2, 3, 4, 5, 6, 7, 8]⟩]
    ⟨1, 3, 0, [0x60, 1, 2, 3, 4, 5, 6, 7, 8]⟩ [0, 0, 0, 0] rfl
    (by
      intro p hp
      simp only [List.mem_cons, List.mem_singleton, List.not_mem_nil, or_false] at hp
      rcases hp with rfl | rfl
      · exact ⟨⟨by decide, by decide, by decide⟩, fun h => absurd h.1 (by decide)⟩
      · exact ⟨⟨by decide, by decide, by decide⟩,
          fun h => by rcases h.2 with h | h <;> exact absurd h (by decide)⟩)
    ⟨by decide, by decide, by decide⟩ ⟨by decide, Or.inr (by decide)⟩
  rw [hw] at h
  exact h

/-- C15: when the header reached after a run of well-formed, non-qualifying
descriptors has length byte 0, or a length that runs past the end of the
buffer, the result is "invalid length", which is no WWN, whatever bytes
follow that header. -/
theorem ParseVpdPage83Jbod_stops_at_bad_header (lead : List Nat)
    (pre : List Descriptor) (bad : List Nat) (hlead : lead.length = 4)
    (hpre : ∀ p ∈ pre, p.wellFormed ∧ ¬ p.qualifies)
    (h4 : 4 ≤ bad.length)
    (hl : bad.getD 3 0 = 0 ∨ 4 + bad.getD 3 0 > bad.length) :
    ParseVpdPage83Jbod (lead ++ pre.flatMap Descriptor.encode ++ bad)
        = some "invalid length"
      ∧ ∀ s : String, "invalid length" ≠ "naa." ++ s := by
  constructor
  · have hdrop : (lead ++ pre.flatMap Descriptor.encode ++ bad).drop 4
        = pre.flatMap Descriptor.encode ++ bad := by
      rw [List.append_assoc, List.drop_left' hlead]
    have hlen : (lead ++ pre.flatMap Descriptor.encode ++ bad).length
        = 4 + (pre.flatMap Descriptor.encode).length + bad.length := by
      simp only [List.length_append, hlead]
    have hge := flatMap_encode_length_ge pre
    obtain ⟨hs1, hs2⟩ := loop_skip_all _ pre bad
      ((lead ++ pre.flatMap Descriptor.encode ++ bad).length - pre.length + 1) 4
      hpre hdrop
    rw [ParseVpdPage83Jbod, if_neg (by omega),
      show (lead ++ pre.flatMap Descriptor.encode ++ bad).length + 1
        = (lead ++ pre.flatMap Descriptor.encode ++ bad).length
            - pre.length + 1 + pre.length by omega,
      hs1, loop_bad _ bad _ _ hs2 h4 hl]
  · intro s h
    have := congrArg String.data h
    simp at this

/-- C15 on a buffer whose first header has length byte 0 and is followed by a
valid NAA descriptor: the descriptor is never reached. -/
theorem ParseVpdPage83Jbod_stops_at_bad_header_witness :
    ParseVpdPage83Jbod
        ([0, 0x83, 0, 16] ++ [1, 2, 0, 2, 0xAA, 0xBB]
          ++ ([1, 3, 0, 0] ++ [1, 3, 0, 8, 0x51, 2, 3, 4, 5, 6, 7, 8]))
      = some "invalid length"
      ∧ ∀ s : String, "invalid length" ≠ "naa." ++ s :=
  ParseVpdPage83Jbod_stops_at_bad_header [0, 0x83, 0, 16]
    [⟨1, 2, 0, [0xAA, 0xBB]⟩]
    ([1, 3, 0, 0] ++ [1, 3, 0, 8, 0x51, 2, 3, 4, 5, 6, 7, 8]) rfl
    (by
      intro p hp
      simp only [List.mem_singleton] at hp
      subst hp
      exact ⟨⟨by decide, by decide, by decide⟩, fun h => absurd h.1 (by decide)⟩)
    (by decide) (Or.inl (by decide))

/-- C13, as stated, fails: on the 16-byte buffer with descriptor payload
`51 02 03 04 05 06 07 08` the result is not "naa.0102030405060708". -/
theorem ParseVpdPage83Jbod_refuted_example :
    ParseVpdPage83Jbod
        [0, 0, 0, 0, 0x01, 0x00, 0x00, 0x08,
          0x51, 0x02, 0x03, 0x04, 0x05, 0x06, 0x07, 0x08]
      ≠ some "naa.0102030405060708" := by
  decide

/-- C13, amended: for every choice of the four leading bytes, the 16-byte
buffer `[_,_,_,_, 01,00,00,08, 51,02,03,04,05,06,07,08]` yields
"naa.5102030405060708": the WWN is the last 8 payload bytes, the NAA byte
`0x51` included. -/
theorem ParseVpdPage83Jbod_example (a b c d : Nat) :
    ParseVpdPage83Jbod
        [a, b, c, d, 0x01, 0x00, 0x00, 0x08,
          0x51, 0x02, 0x03, 0x04, 0x05, 0x06, 0x07, 0x08]
      = some "naa.5102030405060708" := by
  have h := loop_hit
    [a, b, c, d, 0x01, 0x00, 0x00, 0x08,
      0x51, 0x02, 0x03, 0x04, 0x05, 0x06, 0x07, 0x08] []
    ⟨0x01, 0x00, 0x00, [0x51, 0x02, 0x03, 0x04, 0x05, 0x06, 0x07, 0x08]⟩ 16 4 rfl
    ⟨by decide, by decide, by decide⟩ ⟨by decide, Or.inl (by decide)⟩
  rw [ParseVpdPage83Jbod, if_neg (by simp)]
  exact h.trans (by decide)

/-- C14, as stated, fails: the empty buffer yields "invalid data" and a
zero length byte yields "invalid length"; neither is the "no valid WWN
found" returned when the region is exhausted without a match. -/
theorem ParseVpdPage83Jbod_not_found_refuted :
    ParseVpdPage83Jbod [] = some "invalid data"
      ∧ ParseVpdPage83Jbod [0, 0, 0, 0, 1, 0, 0, 0] = some "invalid length"
      ∧ ParseVpdPage83Jbod [0, 0, 0, 0] = some "no valid WWN found"
      ∧ ParseVpdPage83Jbod [] ≠ ParseVpdPage83Jbod [0, 0, 0, 0]
      ∧ ParseVpdPage83Jbod [0, 0, 0, 0, 1, 0, 0, 0]
          ≠ ParseVpdPage83Jbod [0, 0, 0, 0] := by
  decide

/-- C14, amended: the empty buffer yields "invalid data", and every buffer
whose header at offset 4 is complete and has length byte 0 yields "invalid
length"; there is no panic, and neither result is a WWN or the "no valid WWN
found" of an exhausted region. -/
theorem ParseVpdPage83Jbod_malformed (data : List Nat) (h8 : 8 ≤ data.length)
    (h0 : data.getD 7 0 = 0) :
    ParseVpdPage83Jbod [] = some "invalid data"
      ∧ ParseVpdPage83Jbod data = some "invalid length"
      ∧ (∀ s : String, "invalid data" ≠ "naa." ++ s)
      ∧ (∀ s : String, "invalid length" ≠ "naa." ++ s)
      ∧ "invalid data" ≠ "no valid WWN found"
      ∧ "invalid length" ≠ "no valid WWN found" := by
  refine ⟨by decide, ?_, ?_, ?_, by decide, by decide⟩
  · have hg : (data.drop 4).getD 3 0 = 0 := by
      rw [← drop_getD data _ 4 3 rfl]; exact h0
    rw [ParseVpdPage83Jbod, if_neg (by omega)]
    exact loop_bad data (data.drop 4) _ 4 rfl
      (by rw [List.length_drop]; omega) (Or.inl hg)
  · intro s h
    have := congrArg String.data h
    simp at this
  · intro s h
    have := congrArg String.data h
    simp at this

/-- C14, amended, on a buffer whose first header has length byte 0. -/
theorem ParseVpdPage83Jbod_malformed_witness :
    ParseVpdPage83Jbod [] = some "invalid data"
      ∧ ParseVpdPage83Jbod [0, 0x83, 0, 4, 1, 3, 0, 0, 0x51, 2] = some "invalid length" :=
  have h := ParseVpdPage83Jbod_malformed [0, 0x83, 0, 4, 1, 3, 0, 0, 0x51, 2]
    (by decide) (by decide)
  ⟨h.1, h.2.1⟩

/-! ## macro.go: GetInquiryData -/

theorem GetInquiryData_ok (info : MR_PD_INFO) (h : 96 ≤ info.InquiryData.length) :
    info.GetInquiryData = .ok
      { PeripheralQualifier := shr 8 (info.InquiryData.getD 0 0 &&& 0xE0) 5
        PeripheralDeviceType := info.InquiryData.getD 0 0 &&& 0x1F
        RemovableMedia := (info.InquiryData.getD 1 0 &&& 0x80) == 0x80
        Version := info.InquiryData.getD 2 0
        ResponseDataFormat := info.InquiryData.getD 3 0 &&& 0x0F
        VendorIdentification := trimString (slice info.InquiryData 8 8)
        ProductIdentification := trimString (slice info.InquiryData 16 16)
        FirmwareRevision := trimString (slice info.InquiryData 32 4)
        SerialNumber := trimString (slice info.InquiryData 36 20) } := by
  unfold MR_PD_INFO.GetInquiryData
  simp only []
  rw [if_neg (by omega)]

set_option maxRecDepth 100000 in
theorem inquiry_byte_facts : ∀ b, b < 256 →
    shr 8 (b &&& 0xE0) 5 = b >>> 5
      ∧ (b >>> 5) * 32 + (b &&& 0x1F) = b
      ∧ b >>> 5 < 8 ∧ b &&& 0x1F < 32
      ∧ ((b &&& 0x80) == 0x80) = b.testBit 7
      ∧ (b.testBit 7 = true ↔ 128 ≤ b)
      ∧ b &&& 0x0F = b % 16 := by
  decide

theorem getD_lt (d : List Nat) (hb : ∀ b ∈ d, b < 256) (i : Nat) :
    d.getD i 0 < 256 := by
  rw [List.getD_eq_getElem?_getD]
  cases h : d[i]? with
  | none => simp
  | some x => exact hb x (List.getElem?_mem h)

/-- C16: for every `MR_PD_INFO` with a 96-byte inquiry block `d`,
`GetInquiryData` succeeds with `PeripheralQualifier = d[0] >> 5`,
`PeripheralDeviceType = d[0] & 0x1F` (so qualifier * 32 + type = `d[0]`),
`RemovableMedia` true exactly when the top bit of `d[1]` is set,
`Version = d[2]` and `ResponseDataFormat = d[3] & 0x0F`. -/
theorem GetInquiryData_fields (info : MR_PD_INFO)
    (hlen : info.InquiryData.length = 96)
    (hb : ∀ b ∈ info.InquiryData, b < 256) :
    ∃ r, info.GetInquiryData = .ok r
      ∧ r.PeripheralQualifier = info.InquiryData.getD 0 0 >>> 5
      ∧ r.PeripheralDeviceType = info.InquiryData.getD 0 0 &&& 0x1F
      ∧ r.PeripheralQualifier * 32 + r.PeripheralDeviceType
          = info.InquiryData.getD 0 0
      ∧ r.PeripheralQualifier < 8 ∧ r.PeripheralDeviceType < 32
      ∧ r.RemovableMedia = (info.InquiryData.getD 1 0).testBit 7
      ∧ (r.RemovableMedia = true ↔ 128 ≤ info.InquiryData.getD 1 0)
      ∧ r.Version = info.InquiryData.getD 2 0
      ∧ r.ResponseDataFormat = info.InquiryData.getD 3 0 &&& 0x0F
      ∧ r.ResponseDataFormat = info.InquiryData.getD 3 0 % 16 := by
  refine ⟨_, GetInquiryData_ok info (by omega), ?_⟩
  obtain ⟨h1, h2, h3, h4, _, _, _⟩ :=
    inquiry_byte_facts _ (getD_lt info.InquiryData hb 0)
  obtain ⟨_, _, _, _, h5, h6, _⟩ :=
    inquiry_byte_facts _ (getD_lt info.InquiryData hb 1)
  obtain ⟨_, _, _, _, _, _, h7⟩ :=
    inquiry_byte_facts _ (getD_lt info.InquiryData hb 3)
  refine ⟨h1, rfl, ?_, ?_, h4, h5, ?_, rfl, rfl, h7⟩
  · rw [h1]; exact h2
  · rw [h1]; exact h3
  · rw [h5]; exact h6

/-- C16 on a block whose first four bytes are `0x65, 0x80, 0x06, 0x12`. -/
theorem GetInquiryData_fields_witness :
    ∃ r, MR_PD_INFO.GetInquiryData
          { InquiryData := [0x65, 0x80, 0x06, 0x12] ++ List.replicate 92 0x20 }
        = .ok r
      ∧ r.PeripheralQualifier = 3 ∧ r.PeripheralDeviceType = 5
      ∧ r.RemovableMedia = true ∧ r.Version = 6 ∧ r.ResponseDataFormat = 2 := by
  obtain ⟨r, h, h1, h2, _, _, _, h3, _, h4, h5, _⟩ := GetInquiryData_fields
    { InquiryData := [0x65, 0x80, 0x06, 0x12] ++ List.replicate 92 0x20 }
    (by simp)
    (by
      intro b hb
      simp only [List.mem_append, List.mem_cons, List.mem_singleton,
        List.not_mem_nil, or_false] at hb
      rcases hb with (rfl | rfl | rfl | rfl) | hb
      · decide
      · decide
      · decide
      · decide
      · rw [List.eq_of_mem_replicate hb]; decide)
  exact ⟨r, h, h1, h2, h3, h4, h5⟩

/-! ## macro.go: trimString -/

theorem dropWhile_append_all (p : Nat → Bool) (a b : List Nat)
    (h : ∀ c ∈ a, p c = true) : (a ++ b).dropWhile p = b.dropWhile p := by
  induction a with
  | nil => rfl
  | cons x xs ih =>
    rw [List.cons_append, List.dropWhile_cons, if_pos (h x (List.mem_cons_self _ _))]
    exact ih (fun c hc => h c (List.mem_cons_of_mem _ hc))

theorem rdropWhile_append_all (p : Nat → Bool) (l ws : List Nat)
    (h : ∀ c ∈ ws, p c = true) : (l ++ ws).rdropWhile p = l.rdropWhile p := by
  rw [List.rdropWhile, List.rdropWhile, List.reverse_append,
    dropWhile_append_all p _ _ (fun c hc => h c (List.mem_reverse.mp hc))]

theorem dropWhile_of_head (p : Nat → Bool) (l : List Nat)
    (h : ∀ c, l.head? = some c → p c = false) : l.dropWhile p = l := by
  cases l with
  | nil => rfl
  | cons x xs =>
    have hx : p x = false := h x rfl
    rw [List.dropWhile_cons, if_neg (by rw [hx]; decide)]

theorem rdropWhile_of_getLast (p : Nat → Bool) (l : List Nat)
    (h : ∀ c, l.getLast? = some c → p c = false) : l.rdropWhile p = l := by
  rw [List.rdropWhile, dropWhile_of_head p l.reverse
    (fun c hc => h c (by rw [← List.head?_reverse]; exact hc)), List.reverse_reverse]

theorem isSpace_ne_zero (c : Nat) (h : isSpace c = true) : (c == 0) = false := by
  cases c with
  | zero => exact absurd h (by decide)
  | succ n => rfl

/-- A text that neither starts nor ends in white space and does not end in
NUL, padded with white space and then with NUL bytes, is trimmed to the
text. -/
theorem trimString_padded (text ws : List Nat) (m : Nat)
    (hws : ∀ c ∈ ws, isSpace c = true)
    (hfirst : ∀ c, text.head? = some c → isSpace c = false)
    (hlast : ∀ c, text.getLast? = some c → isSpace c = false ∧ c ≠ 0) :
    trimString (text ++ ws ++ List.replicate m 0) = text := by
  have h1 : TrimRightNul (text ++ ws ++ List.replicate m 0) = text ++ ws := by
    rw [TrimRightNul, rdropWhile_append_all _ _ _
      (fun c hc => by rw [List.eq_of_mem_replicate hc]; rfl)]
    apply rdropWhile_of_getLast
    intro c hc
    rw [List.getLast?_append] at hc
    cases hw : ws.getLast? with
    | some w =>
      rw [hw] at hc
      have hc2 : some w = some c := hc
      rw [← Option.some.inj hc2]
      exact isSpace_ne_zero _ (hws _ (List.mem_of_getLast?_eq_some hw))
    | none =>
      rw [hw] at hc
      have hc2 : text.getLast? = some c := hc
      have := (hlast c hc2).2
      simpa using this
  rw [trimString, h1, TrimSpace]
  cases text with
  | nil =>
    rw [List.nil_append, ← List.append_nil ws, dropWhile_append_all _ _ _ hws]
    rfl
  | cons x xs =>
    rw [dropWhile_of_head isSpace _ (fun c hc => hfirst c (by simpa using hc)),
      rdropWhile_append_all _ _ _ hws]
    exact rdropWhile_of_getLast _ _ (fun c hc => (hlast c hc).1)

/-- What `trimString` does when a NUL byte is followed by a space: the
trailing NUL bytes are removed first, so the NUL stays. -/
theorem trimString_nul_then_space : trimString [0x41, 0x00, 0x20] = [0x41, 0x00] := by
  decide

/-- C17, as stated, fails: on the ASCII slice `"A\t"`, whose first byte is
not white space, `trimString` returns `"A"`, while the slice without its
longest suffix of space and NUL bytes is `"A\t"` itself. -/
theorem trimString_refuted :
    (∀ c ∈ [0x41, 0x09], c < 128) ∧ isSpace 0x41 = false
      ∧ trimString [0x41, 0x09] = [0x41]
      ∧ stripSpaceNul [0x41, 0x09] = [0x41, 0x09]
      ∧ trimString [0x41, 0x09] ≠ stripSpaceNul [0x41, 0x09] := by
  decide

/-- C17, amended: for an ASCII slice made of a text (empty, or starting and
ending in a byte that is neither white space nor NUL), then white space,
then NUL bytes, `trimString` returns the text; the four string fields of
`GetInquiryData` are `trimString` of bytes 8..16, 16..32, 32..36 and 36..56,
so a field padded in that way does not end in a space or a NUL byte. -/
theorem trimString_padding (text ws : List Nat) (m : Nat) (info : MR_PD_INFO)
    (hascii : ∀ c ∈ text ++ ws, c < 128)
    (hws : ∀ c ∈ ws, isSpace c = true)
    (hfirst : ∀ c, text.head? = some c → isSpace c = false)
    (hlast : ∀ c, text.getLast? = some c → isSpace c = false ∧ c ≠ 0)
    (hinfo : info.InquiryData.length = 96) :
    trimString (text ++ ws ++ List.replicate m 0) = text
      ∧ (∀ c ∈ trimString (text ++ ws ++ List.replicate m 0), c < 128)
      ∧ (∀ c, (trimString (text ++ ws ++ List.replicate m 0)).getLast? = some c →
          c ≠ 0x20 ∧ c ≠ 0x00)
      ∧ ∃ r, info.GetInquiryData = .ok r
          ∧ r.VendorIdentification = trimString (slice info.InquiryData 8 8)
          ∧ r.ProductIdentification = trimString (slice info.InquiryData 16 16)
          ∧ r.FirmwareRevision = trimString (slice info.InquiryData 32 4)
          ∧ r.SerialNumber = trimString (slice info.InquiryData 36 20) := by
  have h := trimString_padded text ws m hws hfirst hlast
  refine ⟨h, ?_, ?_, _, GetInquiryData_ok info (by omega), rfl, rfl, rfl, rfl⟩
  · intro c hc
    rw [h] at hc
    exact hascii c (List.mem_append_left _ hc)
  · intro c hc
    rw [h] at hc
    obtain ⟨h1, h2⟩ := hlast c hc
    refine ⟨?_, h2⟩
    intro h32
    rw [h32] at h1
    exact absurd h1 (by decide)

/-- C17, amended, on the vendor field `"ACME"` padded with two spaces, a tab
and two NUL bytes. -/
theorem trimString_padding_witness :
    trimString (asciiBytes "ACME" ++ [0x20, 0x20, 0x09] ++ List.replicate 2 0)
      = asciiBytes "ACME" :=
  (trimString_padding (asciiBytes "ACME") [0x20, 0x20, 0x09] 2 {}
    (by decide) (by decide) (by decide) (by decide) (by decide)).1

/-- A text of characters that are neither white space nor NUL, padded with
spaces, is trimmed to the text. -/
theorem trimString_space_padded (t : List Nat) (k : Nat)
    (ht : ∀ c ∈ t, c < 128 ∧ isSpace c = false ∧ c ≠ 0) :
    trimString (t ++ List.replicate k 0x20) = t := by
  have h := trimString_padded t (List.replicate k 0x20) 0
    (fun c hc => by rw [List.eq_of_mem_replicate hc]; rfl)
    (fun c hc => (ht c (List.mem_of_mem_head? hc)).2.1)
    (fun c hc => (ht c (List.mem_of_getLast?_eq_some hc)).2)
  simpa using h

/-- C18: when bytes 8..16 of a 96-byte inquiry block are a text of ASCII
characters that are neither white space nor NUL followed only by spaces, and
bytes 16..32 likewise, `GetInquiryData` returns those texts as
`VendorIdentification` and `ProductIdentification`. -/
theorem GetInquiryData_vendor_product (info : MR_PD_INFO) (v p : List Nat)
    (k j : Nat) (hlen : info.InquiryData.length = 96)
    (hv : slice info.InquiryData 8 8 = v ++ List.replicate k 0x20)
    (hp : slice info.InquiryData 16 16 = p ++ List.replicate j 0x20)
    (hvc : ∀ c ∈ v, c < 128 ∧ isSpace c = false ∧ c ≠ 0)
    (hpc : ∀ c ∈ p, c < 128 ∧ isSpace c = false ∧ c ≠ 0) :
    ∃ r, info.GetInquiryData = .ok r
      ∧ r.VendorIdentification = v ∧ r.ProductIdentification = p
      ∧ r.PeripheralQualifier = shr 8 (info.InquiryData.getD 0 0 &&& 0xE0) 5
      ∧ r.PeripheralDeviceType = info.InquiryData.getD 0 0 &&& 0x1F
      ∧ r.RemovableMedia = ((info.InquiryData.getD 1 0 &&& 0x80) == 0x80) := by
  refine ⟨_, GetInquiryData_ok info (by omega), ?_, ?_, rfl, rfl, rfl⟩
  · show trimString (slice info.InquiryData 8 8) = v
    rw [hv, trimString_space_padded v k hvc]
  · show trimString (slice info.InquiryData 16 16) = p
    rw [hp, trimString_space_padded p j hpc]

/-- C18 on the block with byte 0 = 0x00, byte 1 = 0x80, vendor bytes
`"ACME"` + 4 spaces and product bytes `"DISK1234"` + 8 spaces: qualifier 0,
device type 0, removable media, vendor "ACME", product "DISK1234". -/
theorem GetInquiryData_vendor_product_witness :
    ∃ r, MR_PD_INFO.GetInquiryData
          { InquiryData := [0x00, 0x80] ++ List.replicate 6 0
              ++ asciiBytes "ACME    " ++ asciiBytes "DISK1234        "
              ++ List.replicate 64 0 }
        = .ok r
      ∧ r.VendorIdentification = asciiBytes "ACME"
      ∧ r.ProductIdentification = asciiBytes "DISK1234"
      ∧ r.PeripheralQualifier = 0 ∧ r.PeripheralDeviceType = 0
      ∧ r.RemovableMedia = true := by
  obtain ⟨r, h, h1, h2, h3, h4, h5⟩ := GetInquiryData_vendor_product
    { InquiryData := [0x00, 0x80] ++ List.replicate 6 0
        ++ asciiBytes "ACME    " ++ asciiBytes "DISK1234        "
        ++ List.replicate 64 0 }
    (asciiBytes "ACME") (asciiBytes "DISK1234") 4 8
    (by decide) (by decide) (by decide) (by decide) (by decide)
  exact ⟨r, h, h1, h2, h3.trans (by decide), h4.trans (by decide),
    h5.trans (by decide)⟩

/-! ## parse_info.go: SizeString -/

theorem ilog2Fuel_spec : ∀ (fuel n : Nat), 0 < n → n ≤ fuel →
    2 ^ ilog2Fuel fuel n ≤ n ∧ n < 2 ^ (ilog2Fuel fuel n + 1) := by
  intro fuel
  induction fuel with
  | zero => intro n h0 h; omega
  | succ f ih =>
    intro n h0 h
    rw [ilog2Fuel]
    by_cases h2 : 2 ≤ n
    · rw [if_pos h2]
      obtain ⟨h3, h4⟩ := ih (n / 2) (by omega) (by omega)
      rw [Nat.pow_succ, Nat.pow_succ] at *
      constructor <;> omega
    · rw [if_neg h2]
      constructor <;> simp <;> omega

theorem ilog2_spec (n : Nat) (h : 0 < n) :
    2 ^ ilog2 n ≤ n ∧ n < 2 ^ (ilog2 n + 1) :=
  ilog2Fuel_spec n n h (Nat.le_refl n)

theorem ilog2_unique (n k : Nat) (h1 : 2 ^ k ≤ n) (h2 : n < 2 ^ (k + 1)) :
    ilog2 n = k := by
  have h0 : 0 < n := Nat.lt_of_lt_of_le (Nat.two_pow_pos k) h1
  obtain ⟨h3, h4⟩ := ilog2_spec n h0
  have a : ilog2 n < k + 1 :=
    (Nat.pow_lt_pow_iff_right (by decide : 1 < 2)).mp (Nat.lt_of_le_of_lt h3 h2)
  have b : k < ilog2 n + 1 :=
    (Nat.pow_lt_pow_iff_right (by decide : 1 < 2)).mp (Nat.lt_of_le_of_lt h1 h4)
  omega

theorem ilog2_mul_pow (n a : Nat) (h : 0 < n) : ilog2 (n * 2 ^ a) = ilog2 n + a := by
  obtain ⟨h3, h4⟩ := ilog2_spec n h
  apply ilog2_unique
  · rw [Nat.pow_add]; exact Nat.mul_le_mul_right _ h3
  · rw [show ilog2 n + a + 1 = (ilog2 n + 1) + a by omega, Nat.pow_add]
    exact Nat.mul_lt_mul_of_pos_right h4 (Nat.two_pow_pos a)

theorem ilog2_pow (b : Nat) : ilog2 (2 ^ b) = b :=
  ilog2_unique _ b (Nat.le_refl _) (Nat.pow_lt_pow_right (by decide) (Nat.lt_succ_self b))

theorem roundHalfEven_exact (d q : Nat) (h : 0 < d) : roundHalfEven (d * q) d = q := by
  rw [roundHalfEven, Nat.mul_mod_right, Nat.mul_div_cancel_left q h, if_neg]
  omega

theorem roundHalfEven_bounds (n d : Nat) (h : 0 < d) :
    2 * (d * roundHalfEven n d) ≤ 2 * n + d ∧ 2 * n ≤ 2 * (d * roundHalfEven n d) + d := by
  have hm := Nat.mod_lt n h
  have hd := Nat.div_add_mod n d
  rw [roundHalfEven]
  split_ifs with hc
  · rw [Nat.mul_add, Nat.mul_one]
    constructor
    · omega
    · omega
  · constructor
    · omega
    · omega

theorem roundHalfEven_unique (X Q r : Nat) (hQ : 0 < Q)
    (h1 : 2 * (Q * r) < 2 * X + Q) (h2 : 2 * X < 2 * (Q * r) + Q) :
    roundHalfEven X Q = r := by
  have hm := Nat.mod_lt X hQ
  have hd := Nat.div_add_mod X Q
  have hq1 : X / Q < r + 1 := by
    apply Nat.lt_of_mul_lt_mul_left (a := Q)
    rw [Nat.mul_add, Nat.mul_one]
    omega
  have hq2 : r < X / Q + 2 := by
    apply Nat.lt_of_mul_lt_mul_left (a := Q)
    rw [Nat.mul_add]
    omega
  rw [roundHalfEven]
  rcases Nat.lt_or_ge (X / Q) r with hlt | hge
  · have e : r = X / Q + 1 := by omega
    rw [e, Nat.mul_add, Nat.mul_one] at h1
    rw [if_pos (Or.inl (by omega))]
    exact e.symm
  · have e : X / Q = r := by omega
    rw [← e] at h2
    rw [if_neg (by omega)]
    exact e

theorem roundHalfEven_ge (n d : Nat) : n / d ≤ roundHalfEven n d := by
  rw [roundHalfEven]
  split_ifs <;> omega

theorem float64_den_pos (x : Frac) : 0 < (float64 x).den := by
  rw [float64]
  split_ifs
  · decide
  · exact Nat.two_pow_pos _
  · exact Nat.two_pow_pos _

theorem pow_split (L : Nat) (h : L ≤ 52) : (2 : Nat) ^ 52 = 2 ^ (52 - L) * 2 ^ L := by
  rw [← Nat.pow_add]; congr 1; omega

/-- A value `n * 2^a / 2^b` with `n < 2^53` is a `float64`: rounding leaves it
unchanged. -/
theorem float64_exact (n a b : Nat) (h0 : 0 < n) (h : n < 2 ^ 53) :
    float64 ⟨n * 2 ^ a, 2 ^ b⟩ = ⟨n * 2 ^ (a + 52), 2 ^ (b + 52)⟩ := by
  obtain ⟨h3, h4⟩ := ilog2_spec n h0
  have hL : ilog2 n ≤ 52 := by
    have : ilog2 n < 53 :=
      (Nat.pow_lt_pow_iff_right (by decide : 1 < 2)).mp (Nat.lt_of_le_of_lt h3 h)
    omega
  generalize hLdef : ilog2 n = L at h3 h4 hL
  have hpos : 0 < n * 2 ^ a := Nat.mul_pos h0 (Nat.two_pow_pos a)
  have hne : ¬ (n * 2 ^ a = 0) := by omega
  have hlog1 : ilog2 (n * 2 ^ a) = L + a := by rw [ilog2_mul_pow n a h0, hLdef]
  have hlog2 : ilog2 (2 ^ b) = b := ilog2_pow b
  rw [float64]
  simp only [hlog1, hlog2, if_neg hne, Nat.pow_add]
  generalize hP : (2 : Nat) ^ 52 = P
  generalize hA : (2 : Nat) ^ a = A
  generalize hB : (2 : Nat) ^ b = B
  generalize hK : (2 : Nat) ^ L = K at h3
  generalize hJ : (2 : Nat) ^ (52 - L) = J
  have e52 : P = J * K := by rw [← hP, ← hJ, ← hK]; exact pow_split L hL
  have eN : n * A * (P * B) = B * (K * A) * (n * J) := by rw [e52]; ring
  have hD : 0 < B * (K * A) := by
    rw [← hB, ← hK, ← hA]
    exact Nat.mul_pos (Nat.two_pow_pos _) (Nat.mul_pos (Nat.two_pow_pos _) (Nat.two_pow_pos _))
  have hcond : B * (K * A) * P ≤ n * A * (P * B) := by
    rw [e52]
    calc B * (K * A) * (J * K) = (B * A * J * K) * K := by ring
      _ ≤ (B * A * J * K) * n := Nat.mul_le_mul_left _ h3
      _ = n * A * (J * K * B) := by ring
  have hr : roundHalfEven (n * A * (P * B)) (B * (K * A)) = n * J := by
    rw [eN]; exact roundHalfEven_exact _ _ hD
  rw [if_pos hcond, hr, e52]
  simp only [Frac.mk.injEq]
  constructor <;> ring

/-- Rounding to `float64` does not go below a power of two that the value
has reached. -/
theorem float64_ge_pow (x : Frac) (j : Nat) (hden : 0 < x.den)
    (h : 2 ^ j * x.den ≤ x.num) :
    2 ^ j * (float64 x).den ≤ (float64 x).num := by
  have hnum : 0 < x.num :=
    Nat.lt_of_lt_of_le (Nat.mul_pos (Nat.two_pow_pos j) hden) h
  obtain ⟨a1, a2⟩ := ilog2_spec x.num hnum
  obtain ⟨b1, b2⟩ := ilog2_spec x.den hden
  rw [float64]
  simp only [if_neg (Nat.pos_iff_ne_zero.mp hnum)]
  generalize ilog2 x.num = la at a1 a2
  generalize ilog2 x.den = lb at b1 b2
  have hle : j + lb ≤ la := by
    have : 2 ^ (j + lb) < 2 ^ (la + 1) :=
      calc 2 ^ (j + lb) = 2 ^ j * 2 ^ lb := Nat.pow_add 2 j lb
        _ ≤ 2 ^ j * x.den := Nat.mul_le_mul_left _ b1
        _ ≤ x.num := h
        _ < 2 ^ (la + 1) := a2
    have := (Nat.pow_lt_pow_iff_right (by decide : 1 < 2)).mp this
    omega
  by_cases hc : x.den * 2 ^ la * 2 ^ 52 ≤ x.num * 2 ^ (52 + lb)
  · simp only [if_pos hc]
    have hm : 2 ^ 52 ≤ roundHalfEven (x.num * 2 ^ (52 + lb)) (x.den * 2 ^ la) := by
      refine Nat.le_trans ?_ (roundHalfEven_ge _ _)
      rw [Nat.le_div_iff_mul_le (Nat.mul_pos hden (Nat.two_pow_pos la)),
        Nat.mul_comm]
      exact hc
    calc 2 ^ j * 2 ^ (52 + lb) = 2 ^ 52 * 2 ^ (j + lb) := by
          rw [Nat.pow_add, Nat.pow_add]; ring
      _ ≤ 2 ^ 52 * 2 ^ la :=
          Nat.mul_le_mul_left _ (Nat.pow_le_pow_right (by decide) hle)
      _ ≤ _ := Nat.mul_le_mul_right _ hm
  · simp only [if_neg hc]
    have hlt : j + lb + 1 ≤ la := by
      rcases Nat.lt_or_ge (j + lb) la with h1 | h1
      · exact h1
      · exfalso
        have e : la = j + lb := by omega
        apply hc
        rw [e]
        calc x.den * 2 ^ (j + lb) * 2 ^ 52 = (2 ^ j * x.den) * (2 ^ lb * 2 ^ 52) := by
              rw [Nat.pow_add]; ring
          _ ≤ x.num * (2 ^ lb * 2 ^ 52) := Nat.mul_le_mul_right _ h
          _ = x.num * 2 ^ (52 + lb) := by rw [Nat.pow_add]; ring
    have hm : 2 ^ 52
        ≤ roundHalfEven (2 * (x.num * 2 ^ (52 + lb))) (x.den * 2 ^ la) := by
      refine Nat.le_trans ?_ (roundHalfEven_ge _ _)
      rw [Nat.le_div_iff_mul_le (Nat.mul_pos hden (Nat.two_pow_pos la))]
      calc 2 ^ 52 * (x.den * 2 ^ la) ≤ 2 ^ 52 * (2 ^ (lb + 1) * x.num) :=
            Nat.mul_le_mul_left _
              (Nat.mul_le_mul (Nat.le_of_lt b2) a1)
        _ = 2 * (x.num * 2 ^ (52 + lb)) := by
            rw [Nat.pow_add, Nat.pow_add]; ring
    calc 2 ^ j * 2 ^ (53 + lb) = 2 ^ 52 * 2 ^ (j + lb + 1) := by
          rw [Nat.pow_add, Nat.pow_add, Nat.pow_add]; ring
      _ ≤ 2 ^ 52 * 2 ^ la :=
          Nat.mul_le_mul_left _ (Nat.pow_le_pow_right (by decide) hlt)
      _ ≤ _ := Nat.mul_le_mul_right _ hm

/-- An integer number of hundredths `r < 2^52`, divided by 100 in `float64`
and printed with two decimals, prints as `r`. -/
theorem sprintf2f_hundredths (r : Nat) (h : r < 2 ^ 52) :
    sprintf2f (fdiv ⟨r, 1⟩ 100) = fmtHundredths r := by
  rw [sprintf2f, fdiv]
  congr 1
  rcases Nat.eq_zero_or_pos r with h0 | h0
  · subst h0; decide
  · obtain ⟨a1, a2⟩ := ilog2_spec r h0
    have hl : ilog2 100 = 6 := by decide
    have hla : ilog2 r ≤ 51 := by
      have : ilog2 r < 52 :=
        (Nat.pow_lt_pow_iff_right (by decide : 1 < 2)).mp (Nat.lt_of_le_of_lt a1 h)
      omega
    have hK : 2 ^ ilog2 r ≤ 2 ^ 51 := Nat.pow_le_pow_right (by decide) hla
    rw [float64]
    simp only [Nat.one_mul, hl, if_neg (Nat.pos_iff_ne_zero.mp h0)]
    have hK0 : 0 < 2 ^ ilog2 r := Nat.two_pow_pos _
    generalize (2 : Nat) ^ ilog2 r = K at hK a1 hK0 ⊢
    have hD : 0 < 100 * K := by omega
    by_cases hc : 100 * K * 2 ^ 52 ≤ r * 2 ^ (52 + 6)
    · simp only [if_pos hc]
      obtain ⟨p1, p2⟩ := roundHalfEven_bounds (r * 2 ^ (52 + 6)) (100 * K) hD
      generalize roundHalfEven (r * 2 ^ (52 + 6)) (100 * K) = m at p1 p2
      apply roundHalfEven_unique _ _ _ (by decide)
      · rw [show 100 * (m * K) = 100 * K * m by ring]
        norm_num at p1 p2 hK ⊢
        omega
      · rw [show 100 * (m * K) = 100 * K * m by ring]
        norm_num at p1 p2 hK ⊢
        omega
    · simp only [if_neg hc]
      obtain ⟨p1, p2⟩ := roundHalfEven_bounds (2 * (r * 2 ^ (52 + 6))) (100 * K) hD
      generalize roundHalfEven (2 * (r * 2 ^ (52 + 6))) (100 * K) = m at p1 p2
      apply roundHalfEven_unique _ _ _ (by decide)
      · rw [show 100 * (m * K) = 100 * K * m by ring]
        norm_num at p1 p2 hK ⊢
        omega
      · rw [show 100 * (m * K) = 100 * K * m by ring]
        norm_num at p1 p2 hK ⊢
        omega

theorem bytes_exact (s : Nat) (hs : 0 < s) (h : s < 2 ^ 53) :
    float64 ⟨s * SectorSz % 2 ^ 64, 1⟩ = ⟨s * 2 ^ (9 + 52), 2 ^ (0 + 52)⟩ := by
  have hlt : s * SectorSz < 2 ^ 64 := by
    rw [SectorSz]; omega
  rw [Nat.mod_eq_of_lt hlt]
  exact float64_exact s 9 0 hs h

theorem fdiv_exact (s u : Nat) (hs : 0 < s) (h : s < 2 ^ 53) :
    fdiv ⟨s * 2 ^ (9 + 52), 2 ^ (0 + 52)⟩ (2 ^ u)
      = ⟨s * 2 ^ (9 + 52 + 52), 2 ^ (0 + 52 + u + 52)⟩ := by
  rw [fdiv]
  simp only []
  rw [← Nat.pow_add]
  exact float64_exact s (9 + 52) (0 + 52 + u) hs h

theorem unit_compare (s u : Nat) :
    2 ^ (0 + 52 + u + 52) < s * 2 ^ (9 + 52 + 52) ↔ 2 ^ u < 512 * s := by
  have e1 : 2 ^ (0 + 52 + u + 52) = 2 ^ u * 2 ^ 104 := by
    rw [show 0 + 52 + u + 52 = u + 104 by omega, Nat.pow_add]
  have e2 : s * 2 ^ (9 + 52 + 52) = 512 * s * 2 ^ 104 := by
    norm_num; ring
  rw [e1, e2]
  exact Nat.mul_lt_mul_right (Nat.two_pow_pos 104)

theorem fmul_exact (s b : Nat) (hs : 0 < s) (h25 : 25 * s < 2 ^ 53) :
    fmul ⟨s * 2 ^ (9 + 52 + 52), 2 ^ b⟩ 100 = ⟨25 * s * 2 ^ (115 + 52), 2 ^ (b + 52)⟩ := by
  rw [fmul]
  simp only []
  rw [show s * 2 ^ (9 + 52 + 52) * 100 = 25 * s * 2 ^ 115 by norm_num; ring]
  exact float64_exact (25 * s) 115 b (by omega) h25

theorem mathRound_exact (s u : Nat) :
    mathRound ⟨25 * s * 2 ^ (115 + 52), 2 ^ (0 + 52 + u + 52 + 52)⟩
      = ⟨hundredthsHalfAway (512 * s) (2 ^ u), 1⟩ := by
  rw [mathRound, hundredthsHalfAway]
  simp only [Frac.mk.injEq, and_true]
  have e1 : 2 ^ (0 + 52 + u + 52 + 52) = 2 ^ 156 * 2 ^ u := by
    rw [show 0 + 52 + u + 52 + 52 = 156 + u by omega, Nat.pow_add]
  rw [e1]
  generalize (2 : Nat) ^ u = U
  rw [show 2 * (25 * s * 2 ^ (115 + 52)) + 2 ^ 156 * U
      = 2 ^ 156 * (200 * (512 * s) + U) by norm_num; ring,
    show 2 * (2 ^ 156 * U) = 2 ^ 156 * (2 * U) by ring]
  exact Nat.mul_div_mul_left _ _ (Nat.two_pow_pos 156)

/-- In the range where every `float64` operation is exact, a branch of
`SizeString` prints the exact quotient rounded half away from zero. -/
theorem branch_text (s u : Nat) (hs : 0 < s) (h25 : 25 * s < 2 ^ 53)
    (hr : hundredthsHalfAway (512 * s) (2 ^ u) < 2 ^ 52) :
    sprintf2f (fdiv (mathRound (fmul
        ⟨s * 2 ^ (9 + 52 + 52), 2 ^ (0 + 52 + u + 52)⟩ 100)) 100)
      = fmtHundredths (hundredthsHalfAway (512 * s) (2 ^ u)) := by
  rw [fmul_exact s _ hs h25, mathRound_exact, sprintf2f_hundredths _ hr]

set_option maxRecDepth 4000 in
theorem SizeString_zero : SizeString 0 = "0.00 kB" := by
  decide

set_option maxRecDepth 4000 in
/-- Below `2^53 / 25` sectors every `float64` operation of `SizeString` is
exact: the text is the exact quotient by the selected unit, rounded half
away from zero to hundredths, followed by the unit. -/
theorem SizeString_exact (s : Nat) (h25 : 25 * s < 2 ^ 53) :
    SizeString s
      = fmtHundredths (hundredthsHalfAway (512 * s) (unitFor (512 * s)).1)
          ++ (unitFor (512 * s)).2 := by
  rcases Nat.eq_zero_or_pos s with h0 | hs
  · subst h0; decide
  · have h53 : s < 2 ^ 53 := by omega
    simp only [SizeString, TB, GB, MB, KB, unitFor]
    rw [bytes_exact s hs h53, fdiv_exact s 40 hs h53, fdiv_exact s 30 hs h53,
      fdiv_exact s 20 hs h53, fdiv_exact s 10 hs h53]
    simp only []
    by_cases c1 : 2 ^ 40 < 512 * s
    · rw [if_pos ((unit_compare s 40).mpr c1), if_pos c1,
        branch_text s 40 hs h25 (by rw [hundredthsHalfAway]; omega)]
    · rw [if_neg (fun h => c1 ((unit_compare s 40).mp h)), if_neg c1]
      by_cases c2 : 2 ^ 30 < 512 * s
      · rw [if_pos ((unit_compare s 30).mpr c2), if_pos c2,
          branch_text s 30 hs h25 (by rw [hundredthsHalfAway]; omega)]
      · rw [if_neg (fun h => c2 ((unit_compare s 30).mp h)), if_neg c2]
        by_cases c3 : 2 ^ 20 < 512 * s
        · rw [if_pos ((unit_compare s 20).mpr c3), if_pos c3,
            branch_text s 20 hs h25 (by rw [hundredthsHalfAway]; omega)]
        · rw [if_neg (fun h => c3 ((unit_compare s 20).mp h)), if_neg c3,
            branch_text s 10 hs h25 (by rw [hundredthsHalfAway]; omega)]

/-- From `2^53 / 25` sectors on the quotient by TB exceeds 1, whatever the
rounding of the conversion to `float64`. -/
theorem SizeString_large (s : Nat) (h1 : 2 ^ 53 ≤ 25 * s) (h2 : s < 2 ^ 55) :
    ∃ n, SizeString s = fmtHundredths n ++ " TB" := by
  have hlt : s * SectorSz < 2 ^ 64 := by rw [SectorSz]; omega
  have hb : 2 ^ 41 * (float64 ⟨s * SectorSz % 2 ^ 64, 1⟩).den
      ≤ (float64 ⟨s * SectorSz % 2 ^ 64, 1⟩).num := by
    refine float64_ge_pow ⟨s * SectorSz % 2 ^ 64, 1⟩ 41 Nat.one_pos ?_
    rw [Nat.mod_eq_of_lt hlt, SectorSz]
    show 2 ^ 41 * 1 ≤ s * 512
    omega
  have hd := float64_den_pos ⟨s * SectorSz % 2 ^ 64, 1⟩
  simp only [SizeString]
  generalize float64 ⟨s * SectorSz % 2 ^ 64, 1⟩ = bytes at hb hd ⊢
  have ht : 2 ^ 1 * (fdiv bytes TB).den ≤ (fdiv bytes TB).num := by
    rw [fdiv]
    refine float64_ge_pow ⟨bytes.num, bytes.den * TB⟩ 1
      (Nat.mul_pos hd (Nat.two_pow_pos 40)) ?_
    show 2 ^ 1 * (bytes.den * TB) ≤ bytes.num
    rw [TB]
    calc 2 ^ 1 * (bytes.den * 2 ^ 40) = 2 ^ 41 * bytes.den := by ring
      _ ≤ bytes.num := hb
  have htd := float64_den_pos ⟨bytes.num, bytes.den * TB⟩
  have hcond : (fdiv bytes TB).den < (fdiv bytes TB).num := by
    rw [fdiv] at ht ⊢
    omega
  rw [if_pos hcond, sprintf2f]
  exact ⟨_, rfl⟩

theorem append_unit_inj (p q u v : String)
    (hl : u.data.length = v.data.length) (h : p ++ u = q ++ v) : u = v := by
  have hd := congrArg String.data h
  rw [String.data_append, String.data_append] at hd
  exact String.ext (List.append_inj_right' hd hl)

theorem unitFor_length (B : Nat) : (unitFor B).2.data.length = 3 := by
  rw [unitFor]
  split_ifs <;> rfl

theorem hasSuffix_unit (n B : Nat) (v : String) (hv : v.data.length = 3) :
    hasSuffix (fmtHundredths n ++ (unitFor B).2) v ↔ (unitFor B).2 = v := by
  constructor
  · rintro ⟨p, hp⟩
    exact append_unit_inj _ _ _ _ (by rw [unitFor_length, hv]) hp
  · intro h
    exact ⟨fmtHundredths n, by rw [h]⟩

theorem unitFor_cases (B : Nat) :
    ((unitFor B).2 = " TB" ↔ 2 ^ 40 < B)
      ∧ ((unitFor B).2 = " GB" ↔ 2 ^ 30 < B ∧ B ≤ 2 ^ 40)
      ∧ ((unitFor B).2 = " MB" ↔ 2 ^ 20 < B ∧ B ≤ 2 ^ 30)
      ∧ ((unitFor B).2 = " kB" ↔ B ≤ 2 ^ 20) := by
  rw [unitFor, TB, GB, MB]
  by_cases c1 : 2 ^ 40 < B
  · rw [if_pos c1]
    refine ⟨⟨fun _ => c1, fun _ => rfl⟩, ⟨fun h => absurd h (by decide), fun h => by omega⟩,
      ⟨fun h => absurd h (by decide), fun h => by omega⟩,
      ⟨fun h => absurd h (by decide), fun h => by omega⟩⟩
  · rw [if_neg c1]
    by_cases c2 : 2 ^ 30 < B
    · rw [if_pos c2]
      refine ⟨⟨fun h => absurd h (by decide), fun h => by omega⟩,
        ⟨fun _ => ⟨c2, by omega⟩, fun _ => rfl⟩,
        ⟨fun h => absurd h (by decide), fun h => by omega⟩,
        ⟨fun h => absurd h (by decide), fun h => by omega⟩⟩
    · rw [if_neg c2]
      by_cases c3 : 2 ^ 20 < B
      · rw [if_pos c3]
        refine ⟨⟨fun h => absurd h (by decide), fun h => by omega⟩,
          ⟨fun h => absurd h (by decide), fun h => by omega⟩,
          ⟨fun _ => ⟨c3, by omega⟩, fun _ => rfl⟩,
          ⟨fun h => absurd h (by decide), fun h => by omega⟩⟩
      · rw [if_neg c3]
        refine ⟨⟨fun h => absurd h (by decide), fun h => by omega⟩,
          ⟨fun h => absurd h (by decide), fun h => by omega⟩,
          ⟨fun h => absurd h (by decide), fun h => by omega⟩,
          ⟨fun _ => by omega, fun _ => rfl⟩⟩

theorem SizeString_shape (s : Nat) (hs : s < 2 ^ 55) :
    ∃ n, SizeString s = fmtHundredths n ++ (unitFor (512 * s)).2 := by
  rcases Nat.lt_or_ge (25 * s) (2 ^ 53) with h | h
  · exact ⟨_, SizeString_exact s h⟩
  · obtain ⟨n, hn⟩ := SizeString_large s h hs
    refine ⟨n, ?_⟩
    rw [hn, ((unitFor_cases (512 * s)).1).mpr (by omega)]

set_option maxRecDepth 4000 in
/-- C19, as stated, fails: for `s = 360288388948951 < 2^55` sectors the
text is "167772.36 TB", while the exact quotient `512 * s / 2^40` in
hundredths, 16777235.499999998..., lies more than half a hundredth below
16777236 and rounds to 167772.35. -/
theorem SizeString_rounding_refuted :
    360288388948951 < 2 ^ 55
      ∧ SizeString 360288388948951 = "167772.36 TB"
      ∧ fmtHundredths 16777236 = "167772.36"
      ∧ hundredthsHalfAway (512 * 360288388948951) TB = 16777235
      ∧ 2 * (100 * (512 * 360288388948951)) + TB < 2 * (16777236 * TB) := by
  decide

/-- C19, amended: for every `s < 2^55`, with `B = 512 * s`, the text is a
number with two decimals followed by the unit, " TB" exactly when
`B > 2^40`, " GB" exactly when `2^30 < B ≤ 2^40`, " MB" exactly when
`2^20 < B ≤ 2^30` and " kB" otherwise; and when `25 * s < 2^53` (every
`float64` step is then exact) the number is `B` divided by the unit, rounded
to two decimals, a tie going away from zero. -/
theorem SizeString_units (s : Nat) (hs : s < 2 ^ 55) :
    (∃ n, SizeString s = fmtHundredths n ++ (unitFor (512 * s)).2)
      ∧ (hasSuffix (SizeString s) " TB" ↔ 2 ^ 40 < 512 * s)
      ∧ (hasSuffix (SizeString s) " GB" ↔ 2 ^ 30 < 512 * s ∧ 512 * s ≤ 2 ^ 40)
      ∧ (hasSuffix (SizeString s) " MB" ↔ 2 ^ 20 < 512 * s ∧ 512 * s ≤ 2 ^ 30)
      ∧ (hasSuffix (SizeString s) " kB" ↔ 512 * s ≤ 2 ^ 20)
      ∧ (25 * s < 2 ^ 53 →
          SizeString s
            = fmtHundredths (hundredthsHalfAway (512 * s) (unitFor (512 * s)).1)
                ++ (unitFor (512 * s)).2) := by
  obtain ⟨n, hn⟩ := SizeString_shape s hs
  obtain ⟨u1, u2, u3, u4⟩ := unitFor_cases (512 * s)
  refine ⟨⟨n, hn⟩, ?_, ?_, ?_, ?_, SizeString_exact s⟩
  · rw [hn, hasSuffix_unit n _ " TB" rfl]; exact u1
  · rw [hn, hasSuffix_unit n _ " GB" rfl]; exact u2
  · rw [hn, hasSuffix_unit n _ " MB" rfl]; exact u3
  · rw [hn, hasSuffix_unit n _ " kB" rfl]; exact u4

set_option maxRecDepth 4000 in
/-- C19, amended, for a disk of 1953525168 sectors: "931.51 GB". -/
theorem SizeString_units_witness : SizeString 1953525168 = "931.51 GB" :=
  ((SizeString_units 1953525168 (by decide)).2.2.2.2.2 (by decide)).trans
    (by decide)

set_option maxRecDepth 4000 in
/-- C20, as stated, fails: `SizeString(2147483648)` is not "1.00 TB". -/
theorem SizeString_refuted_one_TB : SizeString 2147483648 ≠ "1.00 TB" := by
  decide

set_option maxRecDepth 4000 in
/-- C20, amended: `SizeString(2147483648)` (2^31 sectors, exactly 2^40
bytes) returns "1024.00 GB": the quotient by TB is exactly 1, which does not
exceed 1. -/
theorem SizeString_one_TB :
    SizeString 2147483648 = "1024.00 GB"
      ∧ 2147483648 * SectorSz = TB
      ∧ SizeString 2147483649 = "1.00 TB" := by
  decide

set_option maxRecDepth 4000 in
/-- C21, as stated, fails: `SizeString(1)` is not "0.00 kB". -/
theorem SizeString_refuted_one_sector : SizeString 1 ≠ "0.00 kB" := by
  decide

set_option maxRecDepth 4000 in
/-- C21, amended: `SizeString(1)` (one sector of 512 bytes, half a kB)
returns "0.50 kB"; "0.00 kB" is what `SizeString(0)` returns. -/
theorem SizeString_one_sector :
    SizeString 1 = "0.50 kB"
      ∧ 2 * (1 * SectorSz) = KB
      ∧ SizeString 0 = "0.00 kB" := by
  decide

/-! ## ioctl.go -/

theorem shl_small (x k : Nat) (h : x * 2 ^ k < 2 ^ 64) (hk : k < 64) :
    shl 64 x k = x * 2 ^ k := by
  have hx : x < 2 ^ 64 := by
    have : x * 1 ≤ x * 2 ^ k := Nat.mul_le_mul_left x (Nat.one_le_two_pow)
    omega
  have hk2 : ¬ 64 ≤ k := by omega
  simp only [shl, if_neg hk2, Nat.shiftLeft_eq, Nat.mod_eq_of_lt hx, Nat.mod_eq_of_lt h]

theorem Iowr_sum (t nr size : Nat) (ht : t < 2 ^ 8) (hn : nr < 2 ^ 8)
    (hs : size < 2 ^ 14) :
    Iowr t nr size = 3 * 2 ^ 30 + size * 2 ^ 16 + t * 2 ^ 8 + nr := by
  have e1 : shl 64 (directionWrite ||| directionRead) directionShift = 2 ^ 30 * 3 := by
    decide
  have e2 : shl 64 t typeShift = 2 ^ 8 * t := by
    rw [show typeShift = 8 from rfl, shl_small t 8 (by omega) (by decide), Nat.mul_comm]
  have e3 : shl 64 nr numberShift = nr := by
    rw [show numberShift = 0 from rfl, shl_small nr 0 (by omega) (by decide)]; simp
  have e4 : shl 64 size sizeShift = 2 ^ 16 * size := by
    rw [show sizeShift = 16 from rfl, shl_small size 16 (by omega) (by decide),
      Nat.mul_comm]
  rw [Iowr, _ioc, e1, e2, e3, e4]
  have o1 : 2 ^ 8 * t ||| nr = 2 ^ 8 * t + nr := (Nat.mul_add_lt_is_or hn t).symm
  have o2 : 2 ^ 16 * size ||| (2 ^ 8 * t + nr) = 2 ^ 16 * size + (2 ^ 8 * t + nr) :=
    (Nat.mul_add_lt_is_or (by omega) size).symm
  have o3 : 2 ^ 30 * 3 ||| (2 ^ 16 * size + (2 ^ 8 * t + nr))
      = 2 ^ 30 * 3 + (2 ^ 16 * size + (2 ^ 8 * t + nr)) :=
    (Nat.mul_add_lt_is_or (by omega) 3).symm
  rw [Nat.lor_assoc (2 ^ 30 * 3), o1, Nat.lor_assoc (2 ^ 30 * 3),
    Nat.lor_comm (2 ^ 8 * t + nr), o2, o3]
  omega

/-- C29: for every `t < 2^8`, `nr < 2^8` and `size < 2^14` the command
`c = Iowr(t, nr, size)` has `c & 0xFF = nr`, `(c >> 8) & 0xFF = t`,
`(c >> 16) & 0x3FFF = size` and `c >> 30 = 3` (write|read); and
`MEGASAS_IOC_FIRMWARE = Iowr('M', 1, 404) = 0xC1944D01`, 404 being the
packed size of `megasas_iocpacket`. -/
theorem Iowr_fields (t nr size : Nat) (ht : t < 2 ^ 8) (hn : nr < 2 ^ 8)
    (hs : size < 2 ^ 14) :
    Iowr t nr size &&& 0xFF = nr
      ∧ (Iowr t nr size >>> 8) &&& 0xFF = t
      ∧ (Iowr t nr size >>> 16) &&& 0x3FFF = size
      ∧ Iowr t nr size >>> 30 = 3
      ∧ directionWrite ||| directionRead = 3
      ∧ megasas_iocpacket.Size = 404
      ∧ MEGASAS_IOC_FIRMWARE = Iowr (Char.toNat 'M') 1 404
      ∧ MEGASAS_IOC_FIRMWARE = 0xC1944D01 := by
  have hsum := Iowr_sum t nr size ht hn hs
  have m8 : ∀ x, x &&& 0xFF = x % 2 ^ 8 := fun x =>
    Nat.and_pow_two_sub_one_eq_mod x 8
  have m14 : ∀ x, x &&& 0x3FFF = x % 2 ^ 14 := fun x =>
    Nat.and_pow_two_sub_one_eq_mod x 14
  have hsize : megasas_iocpacket.Size = 404 := by
    simp only [megasas_iocpacket.Size, megasas_iocpacket.PackedBytes,
      megasas_iocpacket.zero, List.length_append, putLE_length, List.length_replicate,
      flatMap_PackedBytes_length, MAX_IOCTL_SGE]
  have hcmd : MEGASAS_IOC_FIRMWARE = Iowr (Char.toNat 'M') 1 404 := by
    rw [MEGASAS_IOC_FIRMWARE, hsize]; rfl
  refine ⟨?_, ?_, ?_, ?_, by decide, hsize, hcmd, ?_⟩
  · rw [m8, hsum]; omega
  · rw [m8, Nat.shiftRight_eq_div_pow, hsum]; omega
  · rw [m14, Nat.shiftRight_eq_div_pow, hsum]; omega
  · rw [Nat.shiftRight_eq_div_pow, hsum]; omega
  · rw [hcmd, Iowr_sum _ _ _ (by decide) (by decide) (by decide)]; decide

/-- C29 at `t = 'M'`, `nr = 1`, `size = 404`. -/
theorem Iowr_fields_witness :
    Iowr 77 1 404 &&& 0xFF = 1 ∧ (Iowr 77 1 404 >>> 8) &&& 0xFF = 77
      ∧ (Iowr 77 1 404 >>> 16) &&& 0x3FFF = 404 ∧ Iowr 77 1 404 >>> 30 = 3 :=
  have h := Iowr_fields 77 1 404 (by decide) (by decide) (by decide)
  ⟨h.1, h.2.1, h.2.2.1, h.2.2.2.1⟩

/-! ## Decoding: the offset of every element and field -/

theorem elems_snd (value : Nat → GoValue × Nat) (s : Nat)
    (h : ∀ o, (value o).2 = o + s) :
    ∀ (l offset : Nat), (decoder.elems value l offset).2 = offset + s * l
  | 0, offset => rfl
  | l + 1, offset => by
    simp only [decoder.elems]
    rw [elems_snd value s h l, h]
    ring

mutual
theorem value_snd (buf : List Nat) :
    ∀ (t : GoType) (offset : Nat),
      (decoder.value buf t offset).2 = offset + binary.sizeof t
  | .uint8, _ => rfl
  | .uint16, _ => rfl
  | .uint32, _ => rfl
  | .uint64, _ => rfl
  | .array len elem, offset => by
    simp only [decoder.value, binary.sizeof]
    exact elems_snd _ _ (fun o => value_snd buf elem o) len offset
  | .struct fields, offset => by
    simp only [decoder.value, binary.sizeof]
    exact fields_snd buf fields offset
theorem fields_snd (buf : List Nat) :
    ∀ (fields : List (String × GoType)) (offset : Nat),
      (decoder.fields buf fields offset).2 = offset + binary.sizeofFields fields
  | [], _ => rfl
  | (name, t) :: rest, offset => by
    simp only [decoder.fields, binary.sizeofFields]
    split
    · simp only []
      rw [fields_snd buf rest]; omega
    · simp only []
      rw [fields_snd buf rest, value_snd buf t]; omega
end

theorem elems_getD (value : Nat → GoValue × Nat) (s : Nat)
    (h : ∀ o, (value o).2 = o + s) :
    ∀ (l offset i : Nat), i < l →
      (decoder.elems value l offset).1.getD i (.uint 0) = (value (offset + s * i)).1
  | 0, _, _, hi => absurd hi (Nat.not_lt_zero _)
  | l + 1, offset, 0, _ => by simp [decoder.elems]
  | l + 1, offset, i + 1, hi => by
    simp only [decoder.elems, List.getD_cons_succ]
    rw [elems_getD value s h l _ i (Nat.lt_of_succ_lt_succ hi), h]
    congr 2; ring

theorem elems_length (value : Nat → GoValue × Nat) :
    ∀ (l offset : Nat), (decoder.elems value l offset).1.length = l
  | 0, _ => rfl
  | l + 1, offset => by simp [decoder.elems, elems_length value l]

/-- Element `i` of a decoded array is the element type decoded at
`offset + size * i`. -/
theorem array_index (buf : List Nat) (len : Nat) (elem : GoType) (offset i : Nat)
    (hi : i < len) :
    (decoder.value buf (.array len elem) offset).1.index i
      = (decoder.value buf elem (offset + binary.sizeof elem * i)).1 := by
  simp only [decoder.value, GoValue.index]
  exact elems_getD _ _ (fun o => value_snd buf elem o) len offset i hi

theorem fields_lookup (buf : List Nat) (name : String) (hname : name ≠ "_") :
    ∀ (fields : List (String × GoType)) (offset o : Nat) (t : GoType),
      binary.offsetof name fields = some (o, t) →
      (decoder.fields buf fields offset).1.lookup name
        = some (decoder.value buf t (offset + o)).1
  | [], _, _, _, h => by simp [binary.offsetof] at h
  | (n, t0) :: rest, offset, o, t, h => by
    simp only [binary.offsetof] at h
    by_cases hn : n = name
    · subst hn
      rw [if_pos rfl] at h
      simp only [Option.some.injEq, Prod.mk.injEq] at h
      obtain ⟨ho, ht⟩ := h
      subst ho; subst ht
      simp [decoder.fields, hname, List.lookup]
    · rw [if_neg hn] at h
      cases hr : binary.offsetof name rest with
      | none => rw [hr] at h; simp at h
      | some r =>
        rw [hr] at h
        simp only [Option.map_some', Option.some.injEq, Prod.mk.injEq] at h
        obtain ⟨ho, ht⟩ := h
        have hne : (name == n) = false := by
          simp only [beq_eq_false_iff_ne, ne_eq]; exact fun h => hn h.symm
        have hrec := fun off => fields_lookup buf name hname rest off r.1 r.2 hr
        simp only [decoder.fields]
        split
        · simp only [List.lookup, hne]
          rw [hrec, ← ho, ← ht]; congr 3; omega
        · simp only [List.lookup, hne]
          rw [hrec, value_snd, ← ho, ← ht]; congr 3; omega

/-- Field `name` of a decoded struct is the field type decoded at the packed
offset of the field. -/
theorem struct_field (buf : List Nat) (name : String) (hname : name ≠ "_")
    (fields : List (String × GoType)) (offset o : Nat) (t : GoType)
    (h : binary.offsetof name fields = some (o, t)) :
    (decoder.value buf (.struct fields) offset).1.field name
      = (decoder.value buf t (offset + o)).1 := by
  simp only [decoder.value, GoValue.field]
  rw [fields_lookup buf name hname fields offset o t h]
  rfl

theorem getLE_slice_one (buf : List Nat) (k : Nat) (h : k < buf.length) :
    getLE (slice buf k 1) = buf.getD k 0 := by
  have hd : buf.drop k = buf[k] :: buf.drop (k + 1) := List.drop_eq_getElem_cons h
  show getLE (List.take (0 + 1) (List.drop k buf)) = _
  rw [hd, List.take_succ_cons, List.take_zero, List.getD_eq_getElem?_getD,
    List.getElem?_eq_getElem h]
  simp [getLE]

/-- A decoded byte array is the bytes it covers. -/
theorem bytes_toList (buf : List Nat) :
    ∀ (n offset : Nat), offset + n ≤ buf.length →
      (decoder.value buf (.array n .uint8) offset).1.toList = slice buf offset n
  | 0, offset, _ => by simp [decoder.value, decoder.elems, GoValue.toList, slice]
  | n + 1, offset, h => by
    have ih := bytes_toList buf n (offset + 1) (by omega)
    simp only [decoder.value, GoValue.toList] at ih ⊢
    simp only [decoder.elems, decoder.value, List.map_cons, GoValue.toNat, ih]
    have hk : offset < buf.length := by omega
    have hd : buf.drop offset = buf[offset] :: buf.drop (offset + 1) :=
      List.drop_eq_getElem_cons hk
    rw [getLE_slice_one buf offset hk, List.getD_eq_getElem?_getD,
      List.getElem?_eq_getElem hk]
    show _ = List.take (n + 1) (List.drop offset buf)
    rw [hd, List.take_succ_cons]
    simp [slice]

theorem slice_window (buf : List Nat) (a m j w : Nat) (h : j + w ≤ m) :
    slice ((buf.drop a).take m) j w = slice buf (a + j) w := by
  simp only [slice, List.drop_take, List.take_take, List.drop_drop]
  rw [Nat.min_eq_left (by omega)]

theorem fill_length (buf resp : List Nat) : (fill buf resp).length = buf.length := by
  simp [fill]; omega

theorem fill_full (buf resp : List Nat) (h : resp.length = buf.length) :
    fill buf resp = resp := by
  have hd : buf.drop resp.length = [] := by
    rw [h]; exact List.drop_length buf
  rw [fill, hd, List.append_nil, ← h, List.take_length]

theorem fill_nil (buf : List Nat) : fill buf [] = buf := by
  simp [fill]

theorem binary_Read_ok (buf : List Nat) (t : GoType) (h : binary.sizeof t ≤ buf.length) :
    binary.Read buf t = .ok (decoder.value (buf.take (binary.sizeof t)) t 0).1 := by
  simp only [binary.Read]
  rw [if_neg (by omega)]

/-- What `MFI_READ` does with a non-empty buffer: the packet `iocBuf` goes to
the system call with the command `MEGASAS_IOC_FIRMWARE`. -/
theorem MFI_READ_eq (Syscall : Nat → List Nat → List Nat → Nat × List Nat)
    (A : Nat) (inst : Instance) (sdev : List ScsiDevice) (hbuf : inst.Buf ≠ []) :
    ∃ pkt, MFI_READ.iocBuf A inst sdev = some pkt
      ∧ MFI_READ Syscall A inst sdev
          = some ({ inst with
                    Buf := fill inst.Buf (Syscall MEGASAS_IOC_FIRMWARE pkt inst.Buf).2 },
                  if (Syscall MEGASAS_IOC_FIRMWARE pkt inst.Buf).1 ≠ 0
                  then some (.Errno (Syscall MEGASAS_IOC_FIRMWARE pkt inst.Buf).1)
                  else none) := by
  obtain ⟨m0, m1, h⟩ := iocBuf_shape A inst sdev hbuf
  refine ⟨_, h, ?_⟩
  simp only [MFI_READ, h, Ioctl]

set_option maxRecDepth 100000 in
/-- The sizes the queries work with. -/
theorem sizes :
    Sizeof MR_PD_LIST = 32 ∧ MEGASAS_MAX_PD = 256
      ∧ binary.sizeof MR_PD_ADDRESS.decl = 24
      ∧ Sizeof MR_PD_INFO.decl = 512 ∧ binary.sizeof MR_PD_INFO.decl = 512
      ∧ Sizeof MR_LD_LIST = 4104 ∧ binary.sizeof MR_LD_LIST = 4104
      ∧ Sizeof MR_LD_TARGETID_LIST = 268 ∧ binary.sizeof MR_LD_TARGETID_LIST = 267
      ∧ Sizeof megasas_ctrl_info = 2384 ∧ binary.sizeof megasas_ctrl_info = 2384 := by
  decide

/-! ## megaraid.go: the instance every query passes to `MFI_READ` -/

theorem replicate_ne_nil (n : Nat) (h : 0 < n) : List.replicate n 0 ≠ [] := by
  cases n with
  | zero => exact absurd h (Nat.lt_irrefl 0)
  | succ m => simp [List.replicate]

theorem prepare_eq (inst : Instance) :
    MegasasGetPdList.prepare inst
        = ⟨inst.HostNo, List.replicate 8192 0, ⟨MR_DCMD_PD_LIST_QUERY⟩, inst.Dcmd⟩
      ∧ MegasasGetPdInfo.prepare inst
        = ⟨inst.HostNo, List.replicate 512 0, ⟨MR_DCMD_PD_GET_INFO⟩, inst.Dcmd⟩
      ∧ MegasasGetLdList.prepare inst
        = ⟨inst.HostNo, List.replicate 4104 0, ⟨MR_DCMD_LD_GET_LIST⟩, inst.Dcmd⟩
      ∧ MegasasLdListQuery.prepare inst
        = ⟨inst.HostNo, List.replicate 268 0, ⟨MR_DCMD_LD_LIST_QUERY⟩,
            ⟨inst.Dcmd.MboxB.set 0 1⟩⟩
      ∧ MegasasGetCtrlInfo.prepare inst
        = ⟨inst.HostNo, List.replicate 2384 0, ⟨MR_DCMD_CTRL_GET_INFO⟩,
            ⟨inst.Dcmd.MboxB.set 0 1⟩⟩ := by
  obtain ⟨h1, h2, _, h3, _, h4, _, h5, _, h6, _⟩ := sizes
  refine ⟨?_, ?_, ?_, ?_, ?_⟩
  · rw [MegasasGetPdList.prepare, h1, h2]
  · rw [MegasasGetPdInfo.prepare, h3]
  · rw [MegasasGetLdList.prepare, h4]
  · rw [MegasasLdListQuery.prepare, h5, MR_LD_QUERY_TYPE_EXPOSED_TO_HOST]
  · rw [MegasasGetCtrlInfo.prepare, h6]

/-- The opcode bytes of the frame `MFI_READ` serializes. -/
theorem frame_opcode (A : Nat) (inst : Instance) (sdev : List ScsiDevice)
    (hbuf : inst.Buf ≠ []) :
    ∃ pkt, MFI_READ.iocBuf A inst sdev = some pkt
      ∧ slice (frameOf pkt) 24 4 = putLE 4 inst.Cmd.OpCode := by
  obtain ⟨m0, m1, h⟩ := iocBuf_shape A inst sdev hbuf
  refine ⟨_, h, ?_⟩
  rw [putLE_two inst.HostNo, frameOf_shape]
  simp [slice, putLE, List.replicate]

set_option maxRecDepth 100000 in
/-- C28: the packet each query passes to `MFI_READ` carries the opcode of the
table in frame bytes 24..28, little-endian: `MegasasGetCtrlInfo` 0x01010000,
`MegasasGetPdList` 0x02010100, `MegasasGetPdInfo` 0x02020000,
`MegasasGetLdList` 0x03010000, `MegasasLdListQuery` 0x03010100;
`MR_DCMD_CTRL_DEVICE_LIST_GET` is 0x01190600; and the top byte of every
`MR_DCMD_*` opcode is the category of its name (CTRL 0x01, PD 0x02, LD
0x03). -/
theorem query_opcodes (A : Nat) (inst : Instance) (sdev : ScsiDevice) :
    (∃ pkt, MFI_READ.iocBuf A (MegasasGetCtrlInfo.prepare inst) [] = some pkt
        ∧ slice (frameOf pkt) 24 4 = putLE 4 0x01010000)
      ∧ (∃ pkt, MFI_READ.iocBuf A (MegasasGetPdList.prepare inst) [] = some pkt
        ∧ slice (frameOf pkt) 24 4 = putLE 4 0x02010100)
      ∧ (∃ pkt, MFI_READ.iocBuf A (MegasasGetPdInfo.prepare inst) [sdev] = some pkt
        ∧ slice (frameOf pkt) 24 4 = putLE 4 0x02020000)
      ∧ (∃ pkt, MFI_READ.iocBuf A (MegasasGetLdList.prepare inst) [] = some pkt
        ∧ slice (frameOf pkt) 24 4 = putLE 4 0x03010000)
      ∧ (∃ pkt, MFI_READ.iocBuf A (MegasasLdListQuery.prepare inst) [] = some pkt
        ∧ slice (frameOf pkt) 24 4 = putLE 4 0x03010100)
      ∧ getLE (putLE 4 0x01010000) = 0x01010000
      ∧ getLE (putLE 4 0x02010100) = 0x02010100
      ∧ getLE (putLE 4 0x02020000) = 0x02020000
      ∧ getLE (putLE 4 0x03010000) = 0x03010000
      ∧ getLE (putLE 4 0x03010100) = 0x03010100
      ∧ MR_DCMD_CTRL_DEVICE_LIST_GET = 0x01190600
      ∧ MR_DCMD_CTRL_GET_INFO / 2 ^ 24 = 0x01
      ∧ MR_DCMD_CTRL_EVENT_GET_INFO / 2 ^ 24 = 0x01
      ∧ MR_DCMD_CTRL_EVENT_GET / 2 ^ 24 = 0x01
      ∧ MR_DCMD_CTRL_EVENT_WAIT / 2 ^ 24 = 0x01
      ∧ MR_DCMD_CTRL_DEVICE_LIST_GET / 2 ^ 24 = 0x01
      ∧ MR_DCMD_PD_LIST_QUERY / 2 ^ 24 = 0x02
      ∧ MR_DCMD_PD_GET_LIST / 2 ^ 24 = 0x02
      ∧ MR_DCMD_PD_GET_INFO / 2 ^ 24 = 0x02
      ∧ MR_DCMD_LD_GET_LIST / 2 ^ 24 = 0x03
      ∧ MR_DCMD_LD_LIST_QUERY / 2 ^ 24 = 0x03
      ∧ MR_DCMD_LD_GET_PROPERTIES / 2 ^ 24 = 0x03 := by
  obtain ⟨p1, p2, p3, p4, p5⟩ := prepare_eq inst
  rw [p1, p2, p3, p4, p5]
  refine ⟨frame_opcode A _ [] (replicate_ne_nil _ (by decide)),
    frame_opcode A _ [] (replicate_ne_nil _ (by decide)),
    frame_opcode A _ [sdev] (replicate_ne_nil _ (by decide)),
    frame_opcode A _ [] (replicate_ne_nil _ (by decide)),
    frame_opcode A _ [] (replicate_ne_nil _ (by decide)), ?_⟩
  decide

/-! ## megaraid.go: the queries in closed form -/

theorem take_fill (buf resp : List Nat) :
    (fill buf resp).take buf.length = fill buf resp := by
  rw [← fill_length buf resp, List.take_length]

/-- `MegasasGetPdInfo` in closed form: whatever the system call returns, the
buffer afterwards is decoded and no error is returned. -/
theorem MegasasGetPdInfo_eq (S : Nat → List Nat → List Nat → Nat × List Nat)
    (A : Nat) (inst : Instance) (sdev : ScsiDevice) :
    ∃ pkt, MFI_READ.iocBuf A (MegasasGetPdInfo.prepare inst) [sdev] = some pkt
      ∧ MegasasGetPdInfo S A inst sdev
        = some (⟨inst.HostNo,
              fill (List.replicate 512 0)
                (S MEGASAS_IOC_FIRMWARE pkt (List.replicate 512 0)).2,
              ⟨MR_DCMD_PD_GET_INFO⟩, inst.Dcmd⟩,
            .ok (decoder.value
              (fill (List.replicate 512 0)
                (S MEGASAS_IOC_FIRMWARE pkt (List.replicate 512 0)).2)
              MR_PD_INFO.decl 0).1) := by
  obtain ⟨pkt, h1, h2⟩ := MFI_READ_eq S A (MegasasGetPdInfo.prepare inst) [sdev]
    (by rw [(prepare_eq inst).2.1]; exact replicate_ne_nil _ (by decide))
  refine ⟨pkt, h1, ?_⟩
  rw [(prepare_eq inst).2.1] at h2
  dsimp only at h2
  have hlen : (fill (List.replicate 512 0)
      (S MEGASAS_IOC_FIRMWARE pkt (List.replicate 512 0)).2).length = 512 := by
    rw [fill_length, List.length_replicate]
  have hsz : binary.sizeof MR_PD_INFO.decl = 512 := sizes.2.2.2.2.1
  unfold MegasasGetPdInfo
  rw [(prepare_eq inst).2.1, h2]
  dsimp only
  rw [binary_Read_ok _ _ (by rw [hsz, hlen]), hsz]
  have ht := take_fill (List.replicate 512 0)
    (S MEGASAS_IOC_FIRMWARE pkt (List.replicate 512 0)).2
  rw [List.length_replicate] at ht
  rw [ht]

/-- `MegasasGetLdList` in closed form: a non-zero `errno` is returned,
otherwise the buffer is decoded. -/
theorem MegasasGetLdList_eq (S : Nat → List Nat → List Nat → Nat × List Nat)
    (A : Nat) (inst : Instance) :
    ∃ pkt, MFI_READ.iocBuf A (MegasasGetLdList.prepare inst) [] = some pkt
      ∧ MegasasGetLdList S A inst
        = some (⟨inst.HostNo,
              fill (List.replicate 4104 0)
                (S MEGASAS_IOC_FIRMWARE pkt (List.replicate 4104 0)).2,
              ⟨MR_DCMD_LD_GET_LIST⟩, inst.Dcmd⟩,
            if (S MEGASAS_IOC_FIRMWARE pkt (List.replicate 4104 0)).1 ≠ 0
            then .error (.Errno (S MEGASAS_IOC_FIRMWARE pkt (List.replicate 4104 0)).1)
            else .ok (decoder.value
              (fill (List.replicate 4104 0)
                (S MEGASAS_IOC_FIRMWARE pkt (List.replicate 4104 0)).2)
              MR_LD_LIST 0).1) := by
  obtain ⟨pkt, h1, h2⟩ := MFI_READ_eq S A (MegasasGetLdList.prepare inst) []
    (by rw [(prepare_eq inst).2.2.1]; exact replicate_ne_nil _ (by decide))
  refine ⟨pkt, h1, ?_⟩
  rw [(prepare_eq inst).2.2.1] at h2
  dsimp only at h2
  unfold MegasasGetLdList
  rw [(prepare_eq inst).2.2.1]
  have hlen : (fill (List.replicate 4104 0)
      (S MEGASAS_IOC_FIRMWARE pkt (List.replicate 4104 0)).2).length = 4104 := by
    rw [fill_length, List.length_replicate]
  have hsz : binary.sizeof MR_LD_LIST = 4104 := sizes.2.2.2.2.2.2.1
  have ht := take_fill (List.replicate 4104 0)
    (S MEGASAS_IOC_FIRMWARE pkt (List.replicate 4104 0)).2
  rw [List.length_replicate] at ht
  by_cases he : (S MEGASAS_IOC_FIRMWARE pkt (List.replicate 4104 0)).1 ≠ 0
  · rw [if_pos he] at h2
    rw [if_pos he, h2]
  · rw [if_neg he] at h2
    rw [if_neg he, h2]
    dsimp only
    rw [binary_Read_ok _ _ (by rw [hsz, hlen]), hsz, ht]

/-- The print loop of `MegasasLdListQuery` ends when every index it reaches
is inside the array. -/
theorem print_some (T : List Nat) (C : Nat) :
    ∀ (n i : Nat), i + n ≤ T.length → ∃ s, MegasasLdListQuery.print T C n i = some s
  | 0, _, _ => ⟨_, rfl⟩
  | n + 1, i, h => by
    obtain ⟨s, hs⟩ := print_some T C n (i + 1) (by omega)
    have hi : i < T.length := by omega
    simp only [MegasasLdListQuery.print, List.getElem?_eq_getElem hi, hs]
    exact ⟨_, rfl⟩

/-- The print loop of `MegasasLdListQuery` panics when it is to reach an
index outside the array. -/
theorem print_none (T : List Nat) (C : Nat) :
    ∀ (n i : Nat), i ≤ T.length → T.length < i + n →
      MegasasLdListQuery.print T C n i = none
  | 0, i, h1, h2 => by omega
  | n + 1, i, h1, h2 => by
    by_cases hi : i < T.length
    · have ih := print_none T C n (i + 1) (by omega) (by omega)
      simp only [MegasasLdListQuery.print, List.getElem?_eq_getElem hi, ih]
    · have hn : T[i]? = none := List.getElem?_eq_none (by omega)
      simp only [MegasasLdListQuery.print, hn]

/-- `MegasasLdListQuery` in closed form: with `B` the buffer after the
exchange, the call returns `nil` when the count field of `B` (bytes 4..8,
little-endian) is at most 256, whatever the `errno`, and panics in its print
loop when the count is larger. -/
theorem MegasasLdListQuery_eq (S : Nat → List Nat → List Nat → Nat × List Nat)
    (A : Nat) (inst : Instance) (queryType : Nat) :
    ∃ pkt, MFI_READ.iocBuf A (MegasasLdListQuery.prepare inst) [] = some pkt
      ∧ ∀ B, B = fill (List.replicate 268 0)
                (S MEGASAS_IOC_FIRMWARE pkt (List.replicate 268 0)).2 →
        MegasasLdListQuery S A inst queryType
          = if getLE (slice B 4 4) ≤ 256
            then some (⟨inst.HostNo, B, ⟨MR_DCMD_LD_LIST_QUERY⟩,
                  ⟨inst.Dcmd.MboxB.set 0 1⟩⟩, none)
            else none := by
  obtain ⟨pkt, h1, h2⟩ := MFI_READ_eq S A (MegasasLdListQuery.prepare inst) []
    (by rw [(prepare_eq inst).2.2.2.1]; exact replicate_ne_nil _ (by decide))
  refine ⟨pkt, h1, ?_⟩
  intro B hB
  rw [(prepare_eq inst).2.2.2.1] at h2
  dsimp only at h2
  have hlen : B.length = 268 := by
    rw [hB, fill_length, List.length_replicate]
  have hsz : binary.sizeof MR_LD_TARGETID_LIST = 267 := sizes.2.2.2.2.2.2.2.2.1
  have hC : ((decoder.value (B.take 267) MR_LD_TARGETID_LIST 0).1.field "Count").toNat
      = getLE (slice B 4 4) := by
    have hf : (decoder.value (B.take 267) MR_LD_TARGETID_LIST 0).1.field "Count"
        = (decoder.value (B.take 267) .uint32 (0 + 4)).1 := by
      rw [MR_LD_TARGETID_LIST]
      exact struct_field (B.take 267) "Count" (by decide) _ 0 4 _ rfl
    rw [hf]
    have hw := slice_window B 0 267 4 4 (by omega)
    rw [List.drop_zero] at hw
    simp only [decoder.value, GoValue.toNat]
    rw [hw]
  have hT : ((decoder.value (B.take 267) MR_LD_TARGETID_LIST 0).1.field
      "TargetId").toList.length = 256 := by
    have hf : (decoder.value (B.take 267) MR_LD_TARGETID_LIST 0).1.field "TargetId"
        = (decoder.value (B.take 267) (.array MAX_LOGICAL_DRIVES_EXT .uint8)
            (0 + 11)).1 := by
      rw [MR_LD_TARGETID_LIST]
      exact struct_field (B.take 267) "TargetId" (by decide) _ 0 11 _ rfl
    have htl : (B.take 267).length = 267 := by
      rw [List.length_take, hlen]; rfl
    rw [hf, bytes_toList (B.take 267) MAX_LOGICAL_DRIVES_EXT (0 + 11)
      (by rw [htl]; decide)]
    simp only [slice, List.length_take, List.length_drop, htl]
    decide
  unfold MegasasLdListQuery
  rw [(prepare_eq inst).2.2.2.1, h2, ← hB]
  dsimp only
  rw [binary_Read_ok _ _ (by rw [hsz, hlen]; decide), hsz]
  dsimp only
  rw [hC]
  by_cases hc : getLE (slice B 4 4) ≤ 256
  · obtain ⟨s, hs⟩ := print_some _ (getLE (slice B 4 4)) (getLE (slice B 4 4)) 0
      (by rw [hT]; omega)
    rw [if_pos hc, hs]
  · rw [if_neg hc, print_none _ _ _ 0 (Nat.zero_le _) (by rw [hT]; omega)]

theorem zero_count_268 : getLE (slice (List.replicate 268 0) 4 4) = 0 := by
  rw [slice, List.drop_replicate, List.take_replicate]
  decide

/-- `MegasasGetCtrlInfo` in closed form: whatever the system call returns,
the buffer afterwards is decoded. -/
theorem MegasasGetCtrlInfo_eq (S : Nat → List Nat → List Nat → Nat × List Nat)
    (A : Nat) (inst : Instance) :
    ∃ pkt, MFI_READ.iocBuf A (MegasasGetCtrlInfo.prepare inst) [] = some pkt
      ∧ MegasasGetCtrlInfo S A inst
        = some (⟨inst.HostNo,
              fill (List.replicate 2384 0)
                (S MEGASAS_IOC_FIRMWARE pkt (List.replicate 2384 0)).2,
              ⟨MR_DCMD_CTRL_GET_INFO⟩, ⟨inst.Dcmd.MboxB.set 0 1⟩⟩,
            (decoder.value
              (fill (List.replicate 2384 0)
                (S MEGASAS_IOC_FIRMWARE pkt (List.replicate 2384 0)).2)
              megasas_ctrl_info 0).1) := by
  obtain ⟨pkt, h1, h2⟩ := MFI_READ_eq S A (MegasasGetCtrlInfo.prepare inst) []
    (by rw [(prepare_eq inst).2.2.2.2]; exact replicate_ne_nil _ (by decide))
  refine ⟨pkt, h1, ?_⟩
  rw [(prepare_eq inst).2.2.2.2] at h2
  dsimp only at h2
  have hlen : (fill (List.replicate 2384 0)
      (S MEGASAS_IOC_FIRMWARE pkt (List.replicate 2384 0)).2).length = 2384 := by
    rw [fill_length, List.length_replicate]
  have hsz : binary.sizeof megasas_ctrl_info = 2384 := sizes.2.2.2.2.2.2.2.2.2.2
  have ht := take_fill (List.replicate 2384 0)
    (S MEGASAS_IOC_FIRMWARE pkt (List.replicate 2384 0)).2
  rw [List.length_replicate] at ht
  unfold MegasasGetCtrlInfo
  rw [(prepare_eq inst).2.2.2.2, h2]
  dsimp only
  rw [binary_Read_ok _ _ (by rw [hsz, hlen]), hsz, ht]

theorem sizeof_array (n : Nat) :
    binary.sizeof (.array n MR_PD_ADDRESS.decl) = 24 * n := by
  have h : binary.sizeof MR_PD_ADDRESS.decl = 24 := sizes.2.2.1
  simp only [binary.sizeof] at h ⊢
  rw [h]

/-- `MegasasGetPdList` in closed form, for a count of at most 341 (what fits
after byte 8 of the buffer). -/
theorem MegasasGetPdList_eq (S : Nat → List Nat → List Nat → Nat × List Nat)
    (A : Nat) (inst : Instance) :
    ∃ pkt, MFI_READ.iocBuf A (MegasasGetPdList.prepare inst) [] = some pkt
      ∧ ∀ B, B = fill (List.replicate 8192 0)
                (S MEGASAS_IOC_FIRMWARE pkt (List.replicate 8192 0)).2 →
        getLE (slice B 4 4) ≤ 341 →
        MegasasGetPdList S A inst
          = some (⟨inst.HostNo, B, ⟨MR_DCMD_PD_LIST_QUERY⟩, inst.Dcmd⟩,
              if getLE (slice B 4 4) = 0 then .error (.Errorf "null scsi")
              else .ok (decoder.elems
                (fun o => decoder.value ((B.drop 8).take (24 * getLE (slice B 4 4)))
                  MR_PD_ADDRESS.decl o)
                (getLE (slice B 4 4)) 0).1) := by
  obtain ⟨pkt, h1, h2⟩ := MFI_READ_eq S A (MegasasGetPdList.prepare inst) []
    (by rw [(prepare_eq inst).1]; exact replicate_ne_nil _ (by decide))
  refine ⟨pkt, h1, ?_⟩
  intro B hB hn
  rw [(prepare_eq inst).1] at h2
  dsimp only at h2
  have hlen : B.length = 8192 := by
    rw [hB, fill_length, List.length_replicate]
  unfold MegasasGetPdList
  rw [(prepare_eq inst).1, h2, ← hB]
  dsimp only
  by_cases h0 : getLE (slice B 4 4) = 0
  · simp only [if_pos h0]
  · simp only [if_neg h0]
    rw [binary_Read_ok _ _ (by rw [sizeof_array, List.length_drop, hlen]; omega),
      sizeof_array]
    simp only [decoder.value]

/-! ## megaraid.go: failed exchanges, the zero count and the mailbox -/

theorem zero_count : getLE (slice (List.replicate 8192 0) 4 4) = 0 := by
  rw [slice, List.drop_replicate, List.take_replicate]
  decide

/-- On a zero count `MegasasGetPdList` returns the error "null scsi". -/
theorem MegasasGetPdList_zero (S : Nat → List Nat → List Nat → Nat × List Nat)
    (A : Nat) (inst : Instance) (errno : Nat) (resp : List Nat)
    (hS : ∀ pkt buf, S MEGASAS_IOC_FIRMWARE pkt buf = (errno, resp))
    (hlen : resp.length = 8192) (h0 : getLE (slice resp 4 4) = 0) :
    MegasasGetPdList S A inst
      = some (⟨inst.HostNo, resp, ⟨MR_DCMD_PD_LIST_QUERY⟩, inst.Dcmd⟩,
          .error (.Errorf "null scsi")) := by
  obtain ⟨pkt, _, h⟩ := MegasasGetPdList_eq S A inst
  have hB : fill (List.replicate 8192 0)
      (S MEGASAS_IOC_FIRMWARE pkt (List.replicate 8192 0)).2 = resp := by
    rw [hS]; exact fill_full _ _ (by rw [hlen, List.length_replicate])
  have h' := h resp hB.symm (by omega)
  rw [if_pos h0] at h'
  exact h'

/-- C22: the claim that every query reports a failed exchange does not hold
of the code.  When the system call fails with `errno = e ≠ 0` and leaves the
buffer as it was, `MegasasGetLdList` returns `e`, but `MegasasGetPdInfo`
returns a decoded value and no error, `MegasasGetPdList` returns the error
"null scsi", `MegasasLdListQuery` returns `nil`, and `MegasasGetCtrlInfo`
returns a decoded value (it has no error result). -/
theorem queries_drop_errno (S : Nat → List Nat → List Nat → Nat × List Nat)
    (A : Nat) (inst : Instance) (sdev : ScsiDevice) (queryType e : Nat)
    (he : e ≠ 0) (hS : ∀ pkt buf, S MEGASAS_IOC_FIRMWARE pkt buf = (e, [])) :
    (∃ i, MegasasGetLdList S A inst = some (i, .error (.Errno e)))
      ∧ (∃ i data, MegasasGetPdInfo S A inst sdev = some (i, .ok data))
      ∧ (∃ i, MegasasGetPdList S A inst = some (i, .error (.Errorf "null scsi")))
      ∧ Error.Errorf "null scsi" ≠ Error.Errno e
      ∧ (∃ i, MegasasLdListQuery S A inst queryType = some (i, none))
      ∧ (∃ i data, MegasasGetCtrlInfo S A inst = some (i, data)) := by
  refine ⟨?_, ?_, ?_, by simp, ?_, ?_⟩
  · obtain ⟨pkt, _, h⟩ := MegasasGetLdList_eq S A inst
    rw [hS, if_pos he] at h
    exact ⟨_, h⟩
  · obtain ⟨pkt, _, h⟩ := MegasasGetPdInfo_eq S A inst sdev
    exact ⟨_, _, h⟩
  · obtain ⟨pkt, _, h⟩ := MegasasGetPdList_eq S A inst
    have hB : fill (List.replicate 8192 0)
        (S MEGASAS_IOC_FIRMWARE pkt (List.replicate 8192 0)).2
        = List.replicate 8192 0 := by
      rw [hS]; exact fill_nil _
    have h' := h _ hB.symm (by rw [zero_count]; omega)
    rw [if_pos zero_count] at h'
    exact ⟨_, h'⟩
  · obtain ⟨pkt, _, h⟩ := MegasasLdListQuery_eq S A inst queryType
    have hB : fill (List.replicate 268 0)
        (S MEGASAS_IOC_FIRMWARE pkt (List.replicate 268 0)).2
        = List.replicate 268 0 := by
      rw [hS]; exact fill_nil _
    have h' := h _ hB.symm
    rw [zero_count_268, if_pos (Nat.zero_le _)] at h'
    exact ⟨_, h'⟩
  · obtain ⟨pkt, _, h⟩ := MegasasGetCtrlInfo_eq S A inst
    exact ⟨_, _, h⟩

/-- C22 for `errno = 5` (EIO) on host 0, device (0, 10): `MegasasGetPdInfo`
returns a value and no error, `MegasasGetLdList` returns the `errno`. -/
theorem queries_drop_errno_witness :
    (∃ i, MegasasGetLdList (fun _ _ _ => (5, [])) 4096
        ⟨0, [], ⟨0⟩, ⟨List.replicate 12 0⟩⟩ = some (i, .error (.Errno 5)))
      ∧ (∃ i data, MegasasGetPdInfo (fun _ _ _ => (5, [])) 4096
        ⟨0, [], ⟨0⟩, ⟨List.replicate 12 0⟩⟩ ⟨0, 10⟩ = some (i, .ok data)) :=
  have h := queries_drop_errno (fun _ _ _ => (5, [])) 4096
    ⟨0, [], ⟨0⟩, ⟨List.replicate 12 0⟩⟩ ⟨0, 10⟩ 0 5 (by decide) (fun _ _ => rfl)
  ⟨h.1, h.2.1⟩

/-- C23, as stated, fails: on a successful exchange (`errno` 0) whose
response is 8192 zero bytes, the count field being 0, `MegasasGetPdList` returns the error "null scsi", not an empty
collection without error. -/
theorem MegasasGetPdList_refuted_empty :
    getLE (slice (List.replicate 8192 0) 4 4) = 0
      ∧ MegasasGetPdList (fun _ _ _ => (0, List.replicate 8192 0)) 4096
          ⟨0, [], ⟨0⟩, ⟨List.replicate 12 0⟩⟩
        = some (⟨0, List.replicate 8192 0, ⟨MR_DCMD_PD_LIST_QUERY⟩,
                  ⟨List.replicate 12 0⟩⟩, .error (.Errorf "null scsi"))
      ∧ ∀ i, MegasasGetPdList (fun _ _ _ => (0, List.replicate 8192 0)) 4096
          ⟨0, [], ⟨0⟩, ⟨List.replicate 12 0⟩⟩ ≠ some (i, .ok []) := by
  have h := MegasasGetPdList_zero (fun _ _ _ => (0, List.replicate 8192 0)) 4096
    ⟨0, [], ⟨0⟩, ⟨List.replicate 12 0⟩⟩ 0 (List.replicate 8192 0) (fun _ _ => rfl)
    (List.length_replicate _ _) zero_count
  refine ⟨zero_count, h, ?_⟩
  intro i hi
  rw [h] at hi
  have h2 := (Prod.mk.inj (Option.some.inj hi)).2
  cases h2

/-- C23, amended: when the exchange succeeds (`errno` 0) and the response of
8192 bytes has the count field (bytes 4..8, little-endian) 0,
`MegasasGetPdList` returns no collection and the error "null scsi". -/
theorem MegasasGetPdList_null_scsi (S : Nat → List Nat → List Nat → Nat × List Nat)
    (A : Nat) (inst : Instance) (resp : List Nat)
    (hS : ∀ pkt buf, S MEGASAS_IOC_FIRMWARE pkt buf = (0, resp))
    (hlen : resp.length = 8192) (h0 : getLE (slice resp 4 4) = 0) :
    ∃ i, MegasasGetPdList S A inst = some (i, .error (.Errorf "null scsi")) :=
  ⟨_, MegasasGetPdList_zero S A inst 0 resp hS hlen h0⟩

/-- C23, amended, for the successful exchange whose response is 8192 zero
bytes. -/
theorem MegasasGetPdList_null_scsi_witness :
    ∃ i, MegasasGetPdList (fun _ _ _ => (0, List.replicate 8192 0)) 4096
        ⟨0, [], ⟨0⟩, ⟨List.replicate 12 0⟩⟩
      = some (i, .error (.Errorf "null scsi")) :=
  MegasasGetPdList_null_scsi (fun _ _ _ => (0, List.replicate 8192 0)) 4096
    ⟨0, [], ⟨0⟩, ⟨List.replicate 12 0⟩⟩ (List.replicate 8192 0) (fun _ _ => rfl)
    (List.length_replicate _ _) zero_count

set_option maxRecDepth 8000 in
/-- Two instances that differ only in `MboxB`, the second with `MboxB[0] = 1`:
the packets `MFI_READ` builds for them differ exactly in packet byte 48,
mailbox byte 0. -/
theorem iocBuf_mbox_set (A : Nat) (inst i : Instance) (hbuf : inst.Buf ≠ [])
    (hH : i.HostNo = inst.HostNo) (hB : i.Buf = inst.Buf) (hC : i.Cmd = inst.Cmd)
    (hM : i.Dcmd.MboxB.getD 0 0 = 1) :
    ∃ p p', MFI_READ.iocBuf A inst [] = some p ∧ MFI_READ.iocBuf A i [] = some p'
      ∧ p' = p.set 48 1 ∧ p.getD 48 0 = inst.Dcmd.MboxB.getD 0 0 % 256
      ∧ p'.getD 48 0 = 1 := by
  have hbuf' : i.Buf ≠ [] := by rw [hB]; exact hbuf
  refine ⟨_, _, iocBuf_raw A inst hbuf, iocBuf_raw A i hbuf', ?_, ?_, ?_⟩
  · rw [hH, hB, hC, hM]
    simp [putLE, List.replicate]
  · simp [putLE, List.replicate]
  · rw [hM]
    simp [putLE, List.replicate]

theorem set_getD (l : List Nat) (h : l.length = 12) : (l.set 0 1).getD 0 0 = 1 := by
  cases l with
  | nil => exact absurd h (by decide)
  | cons a t => rfl

/-- The packets of the two list queries on an instance whose `MboxB[0]` has
been set to 1: each is the packet built on the instance as it was with packet
byte 48 (mailbox byte 0) set to 1, and differs from it unless `MboxB[0]` was
1 before. -/
theorem MboxB_packets (A : Nat) (inst i : Instance)
    (hlen : inst.Dcmd.MboxB.length = 12) (hH : i.HostNo = inst.HostNo)
    (hM : i.Dcmd.MboxB = inst.Dcmd.MboxB.set 0 1) :
    (∃ p p', MFI_READ.iocBuf A (MegasasGetLdList.prepare inst) [] = some p
              ∧ MFI_READ.iocBuf A (MegasasGetLdList.prepare i) [] = some p'
              ∧ p' = p.set 48 1 ∧ p.getD 48 0 = inst.Dcmd.MboxB.getD 0 0 % 256
              ∧ p'.getD 48 0 = 1 ∧ (inst.Dcmd.MboxB.getD 0 0 % 256 ≠ 1 → p' ≠ p))
          ∧ (∃ p p', MFI_READ.iocBuf A (MegasasGetPdList.prepare inst) [] = some p
              ∧ MFI_READ.iocBuf A (MegasasGetPdList.prepare i) [] = some p'
              ∧ p' = p.set 48 1 ∧ p.getD 48 0 = inst.Dcmd.MboxB.getD 0 0 % 256
              ∧ p'.getD 48 0 = 1 ∧ (inst.Dcmd.MboxB.getD 0 0 % 256 ≠ 1 → p' ≠ p)) := by
  have hg : i.Dcmd.MboxB.getD 0 0 = 1 := by rw [hM]; exact set_getD _ hlen
  rw [(prepare_eq inst).2.2.1, (prepare_eq i).2.2.1, (prepare_eq inst).1,
    (prepare_eq i).1]
  obtain ⟨p, p', hp, hp', hs, h0, h1⟩ :=
    iocBuf_mbox_set A ⟨inst.HostNo, List.replicate 4104 0, ⟨MR_DCMD_LD_GET_LIST⟩, inst.Dcmd⟩
      ⟨i.HostNo, List.replicate 4104 0, ⟨MR_DCMD_LD_GET_LIST⟩, i.Dcmd⟩
      (replicate_ne_nil _ (by decide)) hH rfl rfl hg
  obtain ⟨q, q', hq, hq', ht, k0, k1⟩ :=
    iocBuf_mbox_set A ⟨inst.HostNo, List.replicate 8192 0, ⟨MR_DCMD_PD_LIST_QUERY⟩, inst.Dcmd⟩
      ⟨i.HostNo, List.replicate 8192 0, ⟨MR_DCMD_PD_LIST_QUERY⟩, i.Dcmd⟩
      (replicate_ne_nil _ (by decide)) hH rfl rfl hg
  refine ⟨⟨p, p', hp, hp', hs, h0, h1, ?_⟩, ⟨q, q', hq, hq', ht, k0, k1, ?_⟩⟩
  · intro hne he
    rw [he, h0] at h1
    exact hne h1
  · intro hne he
    rw [he, k0] at k1
    exact hne k1

/-- C24: the claim does not hold of the code.  `MegasasGetCtrlInfo` stores 1
into `MboxB[0]` of the caller's instance and nothing resets it: whatever the
system call does, the instance it leaves has the mailbox bytes it found with
byte 0 set to 1, and the packet that `MegasasGetLdList` or `MegasasGetPdList`
then builds on that instance is the packet built on the instance as it was
with packet byte 48 (mailbox byte 0, a query type) set to 1, a different
packet unless `MboxB[0]` was 1 before.  `MegasasLdListQuery` leaves the same
whenever it returns.  `MegasasGetPdInfo` and `MegasasGetLdList` themselves
leave the mailbox bytes as they found them. -/
theorem queries_stale_MboxB (S : Nat → List Nat → List Nat → Nat × List Nat)
    (A : Nat) (inst : Instance) (sdev : ScsiDevice) (queryType : Nat)
    (hlen : inst.Dcmd.MboxB.length = 12) :
    (∃ i r, MegasasGetCtrlInfo S A inst = some (i, r)
          ∧ i.Dcmd.MboxB = inst.Dcmd.MboxB.set 0 1
          ∧ (∃ p p', MFI_READ.iocBuf A (MegasasGetLdList.prepare inst) [] = some p
              ∧ MFI_READ.iocBuf A (MegasasGetLdList.prepare i) [] = some p'
              ∧ p' = p.set 48 1 ∧ p.getD 48 0 = inst.Dcmd.MboxB.getD 0 0 % 256
              ∧ p'.getD 48 0 = 1 ∧ (inst.Dcmd.MboxB.getD 0 0 % 256 ≠ 1 → p' ≠ p))
          ∧ (∃ p p', MFI_READ.iocBuf A (MegasasGetPdList.prepare inst) [] = some p
              ∧ MFI_READ.iocBuf A (MegasasGetPdList.prepare i) [] = some p'
              ∧ p' = p.set 48 1 ∧ p.getD 48 0 = inst.Dcmd.MboxB.getD 0 0 % 256
              ∧ p'.getD 48 0 = 1 ∧ (inst.Dcmd.MboxB.getD 0 0 % 256 ≠ 1 → p' ≠ p)))
      ∧ (∀ i r, MegasasLdListQuery S A inst queryType = some (i, r) →
          i.Dcmd.MboxB = inst.Dcmd.MboxB.set 0 1
          ∧ (∃ p p', MFI_READ.iocBuf A (MegasasGetLdList.prepare inst) [] = some p
              ∧ MFI_READ.iocBuf A (MegasasGetLdList.prepare i) [] = some p'
              ∧ p' = p.set 48 1 ∧ p.getD 48 0 = inst.Dcmd.MboxB.getD 0 0 % 256
              ∧ p'.getD 48 0 = 1 ∧ (inst.Dcmd.MboxB.getD 0 0 % 256 ≠ 1 → p' ≠ p))
          ∧ (∃ p p', MFI_READ.iocBuf A (MegasasGetPdList.prepare inst) [] = some p
              ∧ MFI_READ.iocBuf A (MegasasGetPdList.prepare i) [] = some p'
              ∧ p' = p.set 48 1 ∧ p.getD 48 0 = inst.Dcmd.MboxB.getD 0 0 % 256
              ∧ p'.getD 48 0 = 1 ∧ (inst.Dcmd.MboxB.getD 0 0 % 256 ≠ 1 → p' ≠ p)))
      ∧ (∃ i r, MegasasGetPdInfo S A inst sdev = some (i, r) ∧ i.Dcmd = inst.Dcmd)
      ∧ (∃ i r, MegasasGetLdList S A inst = some (i, r) ∧ i.Dcmd = inst.Dcmd) := by
  refine ⟨?_, ?_, ?_, ?_⟩
  · obtain ⟨pkt, _, h⟩ := MegasasGetCtrlInfo_eq S A inst
    exact ⟨_, _, h, rfl, MboxB_packets A inst _ hlen rfl rfl⟩
  · intro i r hi
    obtain ⟨pkt, _, h⟩ := MegasasLdListQuery_eq S A inst queryType
    have h' := h _ rfl
    rw [hi] at h'
    by_cases hc : getLE (slice (fill (List.replicate 268 0)
        (S MEGASAS_IOC_FIRMWARE pkt (List.replicate 268 0)).2) 4 4) ≤ 256
    · rw [if_pos hc] at h'
      have e := (Prod.mk.inj (Option.some.inj h')).1
      rw [e]
      exact ⟨rfl, MboxB_packets A inst _ hlen rfl rfl⟩
    · rw [if_neg hc] at h'
      cases h'
  · obtain ⟨pkt, _, h⟩ := MegasasGetPdInfo_eq S A inst sdev
    exact ⟨_, _, h, rfl⟩
  · obtain ⟨pkt, _, h⟩ := MegasasGetLdList_eq S A inst
    exact ⟨_, _, h, rfl⟩

/-- C24 on host 0 with the mailbox bytes all 0: `MegasasGetCtrlInfo` leaves
`MboxB[0] = 1`, and the packet `MegasasGetLdList` then builds on that
instance has mailbox byte 0 (packet byte 48) equal to 1, where the packet
built on the instance as it was has 0. -/
theorem queries_stale_MboxB_witness :
    ∃ i r p p', MegasasGetCtrlInfo (fun _ _ _ => (0, [])) 4096
          ⟨0, [], ⟨0⟩, ⟨List.replicate 12 0⟩⟩ = some (i, r)
      ∧ i.Dcmd.MboxB = 1 :: List.replicate 11 0
      ∧ i.Dcmd.MboxB ≠ List.replicate 12 0
      ∧ MFI_READ.iocBuf 4096
          (MegasasGetLdList.prepare ⟨0, [], ⟨0⟩, ⟨List.replicate 12 0⟩⟩) [] = some p
      ∧ MFI_READ.iocBuf 4096 (MegasasGetLdList.prepare i) [] = some p'
      ∧ p.getD 48 0 = 0 ∧ p'.getD 48 0 = 1 ∧ p' ≠ p := by
  obtain ⟨⟨i, r, h, hm, ⟨p, p', hp, hp', _, h0, h1, hne⟩, _⟩, _⟩ :=
    queries_stale_MboxB (fun _ _ _ => (0, [])) 4096
      ⟨0, [], ⟨0⟩, ⟨List.replicate 12 0⟩⟩ ⟨0, 10⟩ 0 rfl
  refine ⟨i, r, p, p', h, ?_, ?_, hp, hp', h0, h1, hne (by decide)⟩
  · rw [hm]; rfl
  · rw [hm]; decide

/-! ## megaraid.go: buffer sizes -/

/-- C27: every query allocates at least the packed size of what it decodes:
`MegasasGetPdList` 32 * 256 = 8192 bytes, at least 8 + 256 * 24 = 6152;
`MegasasGetPdInfo` 512, the packed size of `MR_PD_INFO`; `MegasasGetLdList`
4104, the packed size of `MR_LD_LIST`; `MegasasLdListQuery` 268, the packed
size of `MR_LD_TARGETID_LIST` being 267; `MegasasGetCtrlInfo` 2384, the
packed size of `megasas_ctrl_info`.  So for every response `resp` written
into the buffer `binary.Read` succeeds, for the address list with every
count `n` up to `MEGASAS_MAX_PD`. -/
theorem query_buffer_sizes (inst : Instance) (resp : List Nat) (n : Nat)
    (hn : n ≤ MEGASAS_MAX_PD) :
    (MegasasGetPdList.prepare inst).Buf.length = 8192
      ∧ Sizeof MR_PD_LIST * MEGASAS_MAX_PD = 32 * 256
      ∧ 8 + MEGASAS_MAX_PD * binary.sizeof MR_PD_ADDRESS.decl = 6152
      ∧ (∃ v, binary.Read ((fill (MegasasGetPdList.prepare inst).Buf resp).drop 8)
            (.array n MR_PD_ADDRESS.decl) = .ok v)
      ∧ (MegasasGetPdInfo.prepare inst).Buf.length = 512
      ∧ binary.sizeof MR_PD_INFO.decl = 512
      ∧ (∃ v, binary.Read (fill (MegasasGetPdInfo.prepare inst).Buf resp)
            MR_PD_INFO.decl = .ok v)
      ∧ (MegasasGetLdList.prepare inst).Buf.length = 4104
      ∧ binary.sizeof MR_LD_LIST = 4104
      ∧ (∃ v, binary.Read (fill (MegasasGetLdList.prepare inst).Buf resp)
            MR_LD_LIST = .ok v)
      ∧ (MegasasLdListQuery.prepare inst).Buf.length = 268
      ∧ binary.sizeof MR_LD_TARGETID_LIST = 267
      ∧ (∃ v, binary.Read (fill (MegasasLdListQuery.prepare inst).Buf resp)
            MR_LD_TARGETID_LIST = .ok v)
      ∧ (MegasasGetCtrlInfo.prepare inst).Buf.length = 2384
      ∧ binary.sizeof megasas_ctrl_info = 2384
      ∧ (∃ v, binary.Read (fill (MegasasGetCtrlInfo.prepare inst).Buf resp)
            megasas_ctrl_info = .ok v) := by
  obtain ⟨p1, p2, p3, p4, p5⟩ := prepare_eq inst
  obtain ⟨s1, s2, s3, _, s5, _, s7, _, s9, _, s11⟩ := sizes
  rw [p1, p2, p3, p4, p5, s1, s2, s3, s5, s7, s9, s11]
  dsimp only
  rw [s2] at hn
  refine ⟨List.length_replicate _ _, rfl, rfl, ⟨_, binary_Read_ok _ _ ?_⟩,
    List.length_replicate _ _, rfl, ⟨_, binary_Read_ok _ _ ?_⟩,
    List.length_replicate _ _, rfl, ⟨_, binary_Read_ok _ _ ?_⟩,
    List.length_replicate _ _, rfl, ⟨_, binary_Read_ok _ _ ?_⟩,
    List.length_replicate _ _, rfl, ⟨_, binary_Read_ok _ _ ?_⟩⟩
  · rw [sizeof_array, List.length_drop, fill_length, List.length_replicate]; omega
  · rw [s5, fill_length, List.length_replicate]
  · rw [s7, fill_length, List.length_replicate]
  · rw [s9, fill_length, List.length_replicate]; decide
  · rw [s11, fill_length, List.length_replicate]

/-- C27 for the largest count, 256, and an empty response. -/
theorem query_buffer_sizes_witness :
    (MegasasGetPdList.prepare ⟨0, [], ⟨0⟩, ⟨List.replicate 12 0⟩⟩).Buf.length = 8192
      ∧ ∃ v, binary.Read
          ((fill (MegasasGetPdList.prepare ⟨0, [], ⟨0⟩, ⟨List.replicate 12 0⟩⟩).Buf
            []).drop 8)
          (.array 256 MR_PD_ADDRESS.decl) = .ok v :=
  have h := query_buffer_sizes ⟨0, [], ⟨0⟩, ⟨List.replicate 12 0⟩⟩ [] 256 (by decide)
  ⟨h.1, h.2.2.2.1⟩

/-! ## megaraid.go: decoding the responses -/

/-- A decoded `MR_PD_ADDRESS`, field by field. -/
theorem ofValue_decode (buf : List Nat) (off : Nat) :
    MR_PD_ADDRESS.ofValue (decoder.value buf MR_PD_ADDRESS.decl off).1
      = { DeviceId := getLE (slice buf off 2)
          EnclosureId := getLE (slice buf (off + 2) 2)
          EnclosureIndex := getLE (slice buf (off + 4) 1)
          SlotNumber := getLE (slice buf (off + 5) 1)
          ScsiDevType := getLE (slice buf (off + 6) 1)
          ConnectPortBitmap := getLE (slice buf (off + 7) 1)
          SasAddr := [getLE (slice buf (off + 8) 4), getLE (slice buf (off + 12) 4),
            getLE (slice buf (off + 16) 4), getLE (slice buf (off + 20) 4)] } := by
  simp [MR_PD_ADDRESS.ofValue, MR_PD_ADDRESS.decl, decoder.value, decoder.fields,
    decoder.elems, GoValue.field, List.lookup, GoValue.toNat, GoValue.toList,
    Nat.add_assoc]

/-- C25: for every response of 8192 bytes whose count field `n` (bytes
4..8, little-endian) satisfies `1 ≤ n ≤ 256`, `MegasasGetPdList` returns
exactly `n` entries, and entry `k < n` is read from the 24 bytes at
`8 + 24 * k`: `DeviceId` the `uint16` at +0, `EnclosureId` the `uint16` at
+2, `EnclosureIndex`, `SlotNumber`, `ScsiDevType`, `ConnectPortBitmap` the
bytes at +4, +5, +6, +7, and `SasAddr[j]` the `uint32` at `+8 + 4 * j`, all
little-endian. -/
theorem MegasasGetPdList_entries (S : Nat → List Nat → List Nat → Nat × List Nat)
    (A : Nat) (inst : Instance) (errno : Nat) (resp : List Nat)
    (hS : ∀ pkt buf, S MEGASAS_IOC_FIRMWARE pkt buf = (errno, resp))
    (hlen : resp.length = 8192)
    (h1 : 1 ≤ getLE (slice resp 4 4)) (h256 : getLE (slice resp 4 4) ≤ 256) :
    ∃ i devices, MegasasGetPdList S A inst = some (i, .ok devices)
      ∧ devices.length = getLE (slice resp 4 4)
      ∧ ∀ k, k < getLE (slice resp 4 4) →
          MR_PD_ADDRESS.ofValue (devices.getD k (.uint 0))
            = { DeviceId := getLE (slice resp (8 + 24 * k) 2)
                EnclosureId := getLE (slice resp (8 + 24 * k + 2) 2)
                EnclosureIndex := resp.getD (8 + 24 * k + 4) 0
                SlotNumber := resp.getD (8 + 24 * k + 5) 0
                ScsiDevType := resp.getD (8 + 24 * k + 6) 0
                ConnectPortBitmap := resp.getD (8 + 24 * k + 7) 0
                SasAddr := [getLE (slice resp (8 + 24 * k + 8 + 4 * 0) 4),
                  getLE (slice resp (8 + 24 * k + 8 + 4 * 1) 4),
                  getLE (slice resp (8 + 24 * k + 8 + 4 * 2) 4),
                  getLE (slice resp (8 + 24 * k + 8 + 4 * 3) 4)] } := by
  obtain ⟨pkt, _, h⟩ := MegasasGetPdList_eq S A inst
  have hB : fill (List.replicate 8192 0)
      (S MEGASAS_IOC_FIRMWARE pkt (List.replicate 8192 0)).2 = resp := by
    rw [hS]; exact fill_full _ _ (by rw [hlen, List.length_replicate])
  have h' := h resp hB.symm (by omega)
  rw [if_neg (by omega)] at h'
  refine ⟨_, _, h', elems_length _ _ _, ?_⟩
  intro k hk
  have hs : ∀ o, (decoder.value
      ((resp.drop 8).take (24 * getLE (slice resp 4 4))) MR_PD_ADDRESS.decl o).2
      = o + 24 := by
    intro o; rw [value_snd, sizes.2.2.1]
  rw [elems_getD _ 24 hs _ 0 k hk, ofValue_decode]
  have w2 : ∀ c, c + 2 ≤ 24 →
      slice ((resp.drop 8).take (24 * getLE (slice resp 4 4))) (0 + 24 * k + c) 2
        = slice resp (8 + 24 * k + c) 2 := by
    intro c hc
    rw [slice_window _ _ _ _ _ (by omega),
      show 8 + (0 + 24 * k + c) = 8 + 24 * k + c by omega]
  have w4 : ∀ c, c + 4 ≤ 24 →
      slice ((resp.drop 8).take (24 * getLE (slice resp 4 4))) (0 + 24 * k + c) 4
        = slice resp (8 + 24 * k + c) 4 := by
    intro c hc
    rw [slice_window _ _ _ _ _ (by omega),
      show 8 + (0 + 24 * k + c) = 8 + 24 * k + c by omega]
  have w1 : ∀ c, c + 1 ≤ 24 →
      getLE (slice ((resp.drop 8).take (24 * getLE (slice resp 4 4))) (0 + 24 * k + c) 1)
        = resp.getD (8 + 24 * k + c) 0 := by
    intro c hc
    rw [slice_window _ _ _ _ _ (by omega), getLE_slice_one _ _ (by omega),
      show 8 + (0 + 24 * k + c) = 8 + 24 * k + c by omega]
  have e0 := w2 0 (by decide)
  rw [Nat.add_zero, Nat.add_zero] at e0
  rw [e0, w2 2 (by decide), w1 4 (by decide), w1 5 (by decide), w1 6 (by decide),
    w1 7 (by decide), w4 8 (by decide), w4 12 (by decide), w4 16 (by decide),
    w4 20 (by decide)]

/-- C25 for a response that lists one address. -/
theorem MegasasGetPdList_entries_witness :
    ∃ i devices, MegasasGetPdList
          (fun _ _ _ => (0, [32, 0, 0, 0, 1, 0, 0, 0] ++ List.replicate 8184 0)) 4096
          ⟨0, [], ⟨0⟩, ⟨List.replicate 12 0⟩⟩ = some (i, .ok devices)
      ∧ devices.length = 1 := by
  obtain ⟨i, devices, h, hl, _⟩ := MegasasGetPdList_entries
    (fun _ _ _ => (0, [32, 0, 0, 0, 1, 0, 0, 0] ++ List.replicate 8184 0)) 4096
    ⟨0, [], ⟨0⟩, ⟨List.replicate 12 0⟩⟩ 0
    ([32, 0, 0, 0, 1, 0, 0, 0] ++ List.replicate 8184 0) (fun _ _ => rfl)
    (by rw [List.length_append, List.length_replicate]; rfl) (by decide) (by decide)
  exact ⟨i, devices, h, hl.trans (by decide)⟩

theorem uint8_toNat (buf : List Nat) (off : Nat) (h : off < buf.length) :
    (decoder.value buf .uint8 off).1.toNat = buf.getD off 0 := by
  simp only [decoder.value, GoValue.toNat]
  exact getLE_slice_one buf off h

/-- C26: for every response of 4104 bytes to a successful exchange,
`MegasasGetLdList` succeeds and returns `LdCount` = the little-endian
`uint32` at offset 0 and, for every slot `k` in 0..255 whatever `LdCount`
is, `TargetId` = the byte at `8 + 16 * k`, `SeqNum` = the little-endian
`uint16` at `8 + 16 * k + 2`, `State` = the byte at `8 + 16 * k + 4` and
`Size` = the little-endian `uint64` at `8 + 16 * k + 8`; the count is not
checked against the 256 slots. -/
theorem MegasasGetLdList_slots (S : Nat → List Nat → List Nat → Nat × List Nat)
    (A : Nat) (inst : Instance) (resp : List Nat)
    (hS : ∀ pkt buf, S MEGASAS_IOC_FIRMWARE pkt buf = (0, resp))
    (hlen : resp.length = 4104) :
    ∃ i data, MegasasGetLdList S A inst = some (i, .ok data)
      ∧ (data.field "LdCount").toNat = getLE (slice resp 0 4)
      ∧ ∀ k, k < 256 →
          ((((data.field "LdList").index k).field "Ref").field "TargetId").toNat
              = resp.getD (8 + 16 * k) 0
            ∧ ((((data.field "LdList").index k).field "Ref").field "SeqNum").toNat
              = getLE (slice resp (8 + 16 * k + 2) 2)
            ∧ (((data.field "LdList").index k).field "State").toNat
              = resp.getD (8 + 16 * k + 4) 0
            ∧ (((data.field "LdList").index k).field "Size").toNat
              = getLE (slice resp (8 + 16 * k + 8) 8) := by
  obtain ⟨pkt, _, h⟩ := MegasasGetLdList_eq S A inst
  have hB : fill (List.replicate 4104 0)
      (S MEGASAS_IOC_FIRMWARE pkt (List.replicate 4104 0)).2 = resp := by
    rw [hS]; exact fill_full _ _ (by rw [hlen, List.length_replicate])
  rw [hB, hS, if_neg (by simp)] at h
  refine ⟨_, _, h, ?_, ?_⟩
  · have hC : (decoder.value resp MR_LD_LIST 0).1.field "LdCount"
        = (decoder.value resp .uint32 (0 + 0)).1 := by
      rw [MR_LD_LIST]
      exact struct_field resp "LdCount" (by decide) _ 0 0 _ rfl
    rw [hC]
    rfl
  · intro k hk
    have hLd : (decoder.value resp MR_LD_LIST 0).1.field "LdList"
        = (decoder.value resp (.array MAX_LOGICAL_DRIVES_EXT LD_INFO) (0 + 8)).1 := by
      rw [MR_LD_LIST]
      exact struct_field resp "LdList" (by decide) _ 0 8 _ rfl
    have hsz : binary.sizeof LD_INFO = 16 := by decide
    rw [hLd, array_index resp MAX_LOGICAL_DRIVES_EXT LD_INFO _ k hk, hsz]
    have hRef : ∀ off, (decoder.value resp LD_INFO off).1.field "Ref"
        = (decoder.value resp (.struct [("TargetId", GoType.uint8),
            ("_", GoType.uint8), ("SeqNum", GoType.uint16)]) (off + 0)).1 := by
      intro off
      rw [LD_INFO]
      exact struct_field resp "Ref" (by decide) _ off 0 _ rfl
    have hState : ∀ off, (decoder.value resp LD_INFO off).1.field "State"
        = (decoder.value resp .uint8 (off + 4)).1 := by
      intro off
      rw [LD_INFO]
      exact struct_field resp "State" (by decide) _ off 4 _ rfl
    have hSize : ∀ off, (decoder.value resp LD_INFO off).1.field "Size"
        = (decoder.value resp .uint64 (off + 8)).1 := by
      intro off
      rw [LD_INFO]
      exact struct_field resp "Size" (by decide) _ off 8 _ rfl
    have hT : ∀ off, (decoder.value resp (.struct [("TargetId", GoType.uint8),
            ("_", GoType.uint8), ("SeqNum", GoType.uint16)]) off).1.field "TargetId"
        = (decoder.value resp .uint8 (off + 0)).1 := fun off =>
      struct_field resp "TargetId" (by decide) _ off 0 _ rfl
    have hQ : ∀ off, (decoder.value resp (.struct [("TargetId", GoType.uint8),
            ("_", GoType.uint8), ("SeqNum", GoType.uint16)]) off).1.field "SeqNum"
        = (decoder.value resp .uint16 (off + 2)).1 := fun off =>
      struct_field resp "SeqNum" (by decide) _ off 2 _ rfl
    rw [hRef, hState, hSize, hT, hQ,
      uint8_toNat resp _ (by omega), uint8_toNat resp _ (by omega)]
    refine ⟨?_, ?_, ?_, ?_⟩
    · rw [show 0 + 8 + 16 * k + 0 + 0 = 8 + 16 * k by omega]
    · rw [show 0 + 8 + 16 * k + 0 + 2 = 8 + 16 * k + 2 by omega]
      rfl
    · rw [show 0 + 8 + 16 * k + 4 = 8 + 16 * k + 4 by omega]
    · rw [show 0 + 8 + 16 * k + 8 = 8 + 16 * k + 8 by omega]
      rfl

/-- C26 for the response of 4104 zero bytes: the list has count 0 and slot
255 is decoded all the same. -/
theorem MegasasGetLdList_slots_witness :
    ∃ i data, MegasasGetLdList (fun _ _ _ => (0, List.replicate 4104 0)) 4096
          ⟨0, [], ⟨0⟩, ⟨List.replicate 12 0⟩⟩ = some (i, .ok data)
      ∧ (data.field "LdCount").toNat = getLE (slice (List.replicate 4104 0) 0 4)
      ∧ (((data.field "LdList").index 255).field "State").toNat
          = (List.replicate 4104 0).getD (8 + 16 * 255 + 4) 0 := by
  obtain ⟨i, data, h, hc, hk⟩ := MegasasGetLdList_slots
    (fun _ _ _ => (0, List.replicate 4104 0)) 4096
    ⟨0, [], ⟨0⟩, ⟨List.replicate 12 0⟩⟩ (List.replicate 4104 0) (fun _ _ => rfl)
    (List.length_replicate _ _)
  exact ⟨i, data, h, hc, (hk 255 (by decide)).2.2.1⟩

/-! ## macro.go: the layout of `MR_PD_INFO` -/

set_option maxRecDepth 100000 in
/-- The packed layout of `MR_PD_INFO`. -/
theorem MR_PD_INFO_extents :
    binary.sizeof MR_PD_INFO.decl = 512
      ∧ binary.sizeofFields MR_PD_INFO.decl.fields.dropLast = 428
      ∧ (MR_PD_INFO.decl.fields.getLast?.map fun f => (f.1, binary.sizeof f.2))
          = some ("_", 512 - 428)
      ∧ binary.extent ["InquiryData"] MR_PD_INFO.decl = some (4, 100)
      ∧ binary.extent ["VpdPage83"] MR_PD_INFO.decl = some (100, 164)
      ∧ binary.extent ["FwState"] MR_PD_INFO.decl = some (184, 186)
      ∧ binary.extent ["RawSize"] MR_PD_INFO.decl = some (232, 240)
      ∧ binary.extent ["EnclDeviceId"] MR_PD_INFO.decl = some (256, 258)
      ∧ binary.extent ["SlotNumber"] MR_PD_INFO.decl = some (259, 260)
      ∧ binary.extent ["MediaType"] MR_PD_INFO.decl = some (370, 371)
      ∧ binary.extent ["Properties", "Bits"] MR_PD_INFO.decl = some (408, 412) := by
  decide

/-- The fields of a decoded `MR_PD_INFO` that the accessors and the listing
use, each as the type of the field decoded at its packed offset. -/
theorem MR_PD_INFO_fields (buf : List Nat) :
    (decoder.value buf MR_PD_INFO.decl 0).1.field "InquiryData"
        = (decoder.value buf (.array 96 .uint8) (0 + 4)).1
      ∧ (decoder.value buf MR_PD_INFO.decl 0).1.field "VpdPage83"
        = (decoder.value buf (.array 64 .uint8) (0 + 100)).1
      ∧ (decoder.value buf MR_PD_INFO.decl 0).1.field "FwState"
        = (decoder.value buf .uint16 (0 + 184)).1
      ∧ (decoder.value buf MR_PD_INFO.decl 0).1.field "RawSize"
        = (decoder.value buf (.array 2 .uint32) (0 + 232)).1
      ∧ (decoder.value buf MR_PD_INFO.decl 0).1.field "EnclDeviceId"
        = (decoder.value buf .uint16 (0 + 256)).1
      ∧ (decoder.value buf MR_PD_INFO.decl 0).1.field "SlotNumber"
        = (decoder.value buf .uint8 (0 + 259)).1
      ∧ (decoder.value buf MR_PD_INFO.decl 0).1.field "MediaType"
        = (decoder.value buf .uint8 (0 + 370)).1
      ∧ (decoder.value buf MR_PD_INFO.decl 0).1.field "Properties"
        = (decoder.value buf (.struct [("Bits", GoType.uint32)]) (0 + 408)).1 := by
  rw [MR_PD_INFO.decl]
  exact ⟨struct_field buf "InquiryData" (by decide) _ 0 4 _ rfl,
    struct_field buf "VpdPage83" (by decide) _ 0 100 _ rfl,
    struct_field buf "FwState" (by decide) _ 0 184 _ rfl,
    struct_field buf "RawSize" (by decide) _ 0 232 _ rfl,
    struct_field buf "EnclDeviceId" (by decide) _ 0 256 _ rfl,
    struct_field buf "SlotNumber" (by decide) _ 0 259 _ rfl,
    struct_field buf "MediaType" (by decide) _ 0 370 _ rfl,
    struct_field buf "Properties" (by decide) _ 0 408 _ rfl⟩

theorem uint32_pair (buf : List Nat) (off : Nat) :
    (decoder.value buf (.array 2 .uint32) off).1.toList
      = [getLE (slice buf off 4), getLE (slice buf (off + 4) 4)] := by
  simp [decoder.value, decoder.elems, GoValue.toList, GoValue.toNat]

/-- C30: the packed layout of `MR_PD_INFO` is 512 bytes, of which the
fields before the trailing blank `[512 - 428]uint8` take 428, with
`InquiryData` at bytes 4..100, `VpdPage83` at 100..164, `FwState` at 184,
`RawSize` at 232..240, `EnclDeviceId` at 256, `SlotNumber` at 259,
`MediaType` at 370 and `Properties.Bits` at 408; and for every response of
512 bytes `MegasasGetPdInfo` returns these fields read, little-endian, from
these offsets. -/
theorem MR_PD_INFO_layout (S : Nat → List Nat → List Nat → Nat × List Nat)
    (A : Nat) (inst : Instance) (sdev : ScsiDevice) (errno : Nat) (resp : List Nat)
    (hS : ∀ pkt buf, S MEGASAS_IOC_FIRMWARE pkt buf = (errno, resp))
    (hlen : resp.length = 512) :
    binary.sizeof MR_PD_INFO.decl = 512
      ∧ binary.sizeofFields MR_PD_INFO.decl.fields.dropLast = 428
      ∧ (MR_PD_INFO.decl.fields.getLast?.map fun f => (f.1, binary.sizeof f.2))
          = some ("_", 512 - 428)
      ∧ binary.extent ["InquiryData"] MR_PD_INFO.decl = some (4, 100)
      ∧ binary.extent ["VpdPage83"] MR_PD_INFO.decl = some (100, 164)
      ∧ binary.extent ["FwState"] MR_PD_INFO.decl = some (184, 186)
      ∧ binary.extent ["RawSize"] MR_PD_INFO.decl = some (232, 240)
      ∧ binary.extent ["EnclDeviceId"] MR_PD_INFO.decl = some (256, 258)
      ∧ binary.extent ["SlotNumber"] MR_PD_INFO.decl = some (259, 260)
      ∧ binary.extent ["MediaType"] MR_PD_INFO.decl = some (370, 371)
      ∧ binary.extent ["Properties", "Bits"] MR_PD_INFO.decl = some (408, 412)
      ∧ ∃ i data, MegasasGetPdInfo S A inst sdev = some (i, .ok data)
          ∧ (data.field "InquiryData").toList = slice resp 4 96
          ∧ (data.field "VpdPage83").toList = slice resp 100 64
          ∧ (data.field "FwState").toNat = getLE (slice resp 184 2)
          ∧ (data.field "RawSize").toList
              = [getLE (slice resp 232 4), getLE (slice resp 236 4)]
          ∧ (data.field "EnclDeviceId").toNat = getLE (slice resp 256 2)
          ∧ (data.field "SlotNumber").toNat = resp.getD 259 0
          ∧ (data.field "MediaType").toNat = resp.getD 370 0
          ∧ ((data.field "Properties").field "Bits").toNat = getLE (slice resp 408 4)
          ∧ (MR_PD_INFO.ofValue data).InquiryData = slice resp 4 96
          ∧ (MR_PD_INFO.ofValue data).RawSize
              = [getLE (slice resp 232 4), getLE (slice resp 236 4)] := by
  obtain ⟨e1, e2, e3, e4, e5, e6, e7, e8, e9, e10, e11⟩ := MR_PD_INFO_extents
  refine ⟨e1, e2, e3, e4, e5, e6, e7, e8, e9, e10, e11, ?_⟩
  obtain ⟨pkt, _, h⟩ := MegasasGetPdInfo_eq S A inst sdev
  have hB : fill (List.replicate 512 0)
      (S MEGASAS_IOC_FIRMWARE pkt (List.replicate 512 0)).2 = resp := by
    rw [hS]; exact fill_full _ _ (by rw [hlen, List.length_replicate])
  rw [hB] at h
  obtain ⟨f1, f2, f3, f4, f5, f6, f7, f8⟩ := MR_PD_INFO_fields resp
  have hInq : ((decoder.value resp MR_PD_INFO.decl 0).1.field "InquiryData").toList
      = slice resp 4 96 := by
    rw [f1]; exact bytes_toList resp 96 (0 + 4) (by omega)
  have hRaw : ((decoder.value resp MR_PD_INFO.decl 0).1.field "RawSize").toList
      = [getLE (slice resp 232 4), getLE (slice resp 236 4)] := by
    rw [f4]; exact uint32_pair resp (0 + 232)
  refine ⟨_, _, h, hInq, ?_, ?_, hRaw, ?_, ?_, ?_, ?_, hInq, hRaw⟩
  · rw [f2]; exact bytes_toList resp 64 (0 + 100) (by omega)
  · rw [f3]; rfl
  · rw [f5]; rfl
  · rw [f6]; exact uint8_toNat resp (0 + 259) (by omega)
  · rw [f7]; exact uint8_toNat resp (0 + 370) (by omega)
  · rw [f8, struct_field resp "Bits" (by decide) [("Bits", GoType.uint32)] (0 + 408) 0
      .uint32 rfl]
    rfl

/-- C30 for a response of 512 bytes whose byte 370 (`MediaType`) is 1. -/
theorem MR_PD_INFO_layout_witness :
    ∃ i data, MegasasGetPdInfo
          (fun _ _ _ => (0, List.replicate 370 0 ++ 1 :: List.replicate 141 0)) 4096
          ⟨0, [], ⟨0⟩, ⟨List.replicate 12 0⟩⟩ ⟨0, 10⟩ = some (i, .ok data)
      ∧ (data.field "MediaType").toNat
          = (List.replicate 370 0 ++ 1 :: List.replicate 141 0).getD 370 0 := by
  obtain ⟨_, _, _, _, _, _, _, _, _, _, _, i, data, h, _, _, _, _, _, _, hm, _⟩ :=
    MR_PD_INFO_layout (fun _ _ _ => (0, List.replicate 370 0 ++ 1 :: List.replicate 141 0))
      4096 ⟨0, [], ⟨0⟩, ⟨List.replicate 12 0⟩⟩ ⟨0, 10⟩ 0
      (List.replicate 370 0 ++ 1 :: List.replicate 141 0) (fun _ _ => rfl)
      (by rw [List.length_append, List.length_replicate, List.length_cons,
        List.length_replicate])
  exact ⟨i, data, h, hm⟩

/-! ## macro.go: the layout of `megasas_ctrl_info` -/

set_option maxRecDepth 100000 in
/-- The packed layout of `megasas_ctrl_info` at the fields whose comments
give an offset. -/
theorem megasas_ctrl_info_extents :
    binary.extent ["PdsForRaidLevels"] megasas_ctrl_info = some (0x760, 0x780)
      ∧ binary.extent ["MaxPds"] megasas_ctrl_info = some (0x780, 0x782)
      ∧ binary.extent ["MaxDedHSPs"] megasas_ctrl_info = some (0x782, 0x784)
      ∧ binary.extent ["MaxGlobalHSP"] megasas_ctrl_info = some (0x784, 0x786)
      ∧ binary.extent ["DdfSize"] megasas_ctrl_info = some (0x786, 0x788)
      ∧ binary.extent ["MaxLdsPerArray"] megasas_ctrl_info = some (0x788, 0x789)
      ∧ binary.extent ["PartitionsInDDF"] megasas_ctrl_info = some (0x789, 0x78A)
      ∧ binary.extent ["LockKeyBinding"] megasas_ctrl_info = some (0x78A, 0x78B)
      ∧ binary.extent ["MaxPITsPerLd"] megasas_ctrl_info = some (0x78B, 0x78C)
      ∧ binary.extent ["MaxViewsPerLd"] megasas_ctrl_info = some (0x78C, 0x78D)
      ∧ binary.extent ["MaxTargetId"] megasas_ctrl_info = some (0x78D, 0x78E)
      ∧ binary.extent ["MaxBvlVdSize"] megasas_ctrl_info = some (0x78E, 0x790)
      ∧ binary.extent ["MaxConfigurableSSCSize"] megasas_ctrl_info = some (0x790, 0x792)
      ∧ binary.extent ["CurrentSSCsize"] megasas_ctrl_info = some (0x792, 0x794)
      ∧ binary.extent ["ExpanderFwVersion"] megasas_ctrl_info = some (0x794, 0x7A0)
      ∧ binary.extent ["PFKTrialTimeRemaining"] megasas_ctrl_info = some (0x7A0, 0x7A2)
      ∧ binary.extent ["CacheMemorySize"] megasas_ctrl_info = some (0x7A2, 0x7A4)
      ∧ binary.extent ["AdapterOperations2"] megasas_ctrl_info = some (0x7A4, 0x7A8)
      ∧ binary.extent ["DriverVersion"] megasas_ctrl_info = some (0x7A8, 0x7C8)
      ∧ binary.extent ["MaxDAPdCountSpinup60"] megasas_ctrl_info = some (0x7C8, 0x7C9)
      ∧ binary.extent ["TemperatureROC"] megasas_ctrl_info = some (0x7C9, 0x7CA)
      ∧ binary.extent ["TemperatureCtrl"] megasas_ctrl_info = some (0x7CA, 0x7CB)
      ∧ binary.extent ["MaxConfigurablePds"] megasas_ctrl_info = some (0x7CC, 0x7CE)
      ∧ binary.extent ["ClusterId"] megasas_ctrl_info = some (0x7D4, 0x7E4)
      ∧ binary.extent ["Iov", "MaxVFsSupported"] megasas_ctrl_info = some (0x7E4, 0x7E5)
      ∧ binary.extent ["Iov", "NumVFsEnabled"] megasas_ctrl_info = some (0x7E5, 0x7E6)
      ∧ binary.extent ["Iov", "RequestorId"] megasas_ctrl_info = some (0x7E6, 0x7E7)
      ∧ binary.extent ["Iov", "Reserved"] megasas_ctrl_info = some (0x7E7, 0x7E8)
      ∧ binary.extent ["AdapterOperations4"] megasas_ctrl_info = some (0x7FC, 0x7FE)
      ∧ ("_", 0x7FE, 0x800) ∈ binary.layout megasas_ctrl_info.fields 0
      ∧ binary.extent ["Size"] megasas_ctrl_info = some (0x800, 0x804)
      ∧ 0x800 = 2 * 1024
      ∧ binary.sizeof megasas_ctrl_info = 2384
      ∧ Sizeof megasas_ctrl_info = 2384 := by
  refine ⟨?_, ?_, ?_, ?_, ?_, ?_, ?_, ?_, ?_, ?_, ?_, ?_, ?_, ?_, ?_, ?_, ?_, ?_, ?_, ?_,
    ?_, ?_, ?_, ?_, ?_, ?_, ?_, ?_, ?_, ?_, ?_, ?_, ?_, ?_⟩ <;> decide

theorem megasas_ctrl_info_fields (buf : List Nat) :
    (decoder.value buf megasas_ctrl_info 0).1.field "MaxPds"
        = (decoder.value buf .uint16 (0 + 0x780)).1
      ∧ (decoder.value buf megasas_ctrl_info 0).1.field "Size"
        = (decoder.value buf .uint32 (0 + 0x800)).1 := by
  rw [megasas_ctrl_info]
  exact ⟨struct_field buf "MaxPds" (by decide) _ 0 0x780 _ rfl,
    struct_field buf "Size" (by decide) _ 0 0x800 _ rfl⟩

/-- C31: in the packed layout of `megasas_ctrl_info` every named field whose
comment gives a hexadecimal offset sits at that offset (`PdsForRaidLevels`
at 0x760, `MaxPds` 0x780, ..., `Iov` at 0x7E4..0x7E7), the blank array
after `AdapterOperations4` covers 0x7FE..0x800 so that `Size` sits at 0x800,
and the structure packs to 2384 bytes, its size in memory; so from every
response of 2384 bytes `MegasasGetCtrlInfo` reads `MaxPds` at 0x780 and
`Size` at 0x800. -/
theorem megasas_ctrl_info_layout (S : Nat → List Nat → List Nat → Nat × List Nat)
    (A : Nat) (inst : Instance) (errno : Nat) (resp : List Nat)
    (hS : ∀ pkt buf, S MEGASAS_IOC_FIRMWARE pkt buf = (errno, resp))
    (hlen : resp.length = 2384) :
    binary.extent ["PdsForRaidLevels"] megasas_ctrl_info = some (0x760, 0x780)
      ∧ binary.extent ["MaxPds"] megasas_ctrl_info = some (0x780, 0x782)
      ∧ binary.extent ["MaxDedHSPs"] megasas_ctrl_info = some (0x782, 0x784)
      ∧ binary.extent ["MaxGlobalHSP"] megasas_ctrl_info = some (0x784, 0x786)
      ∧ binary.extent ["DdfSize"] megasas_ctrl_info = some (0x786, 0x788)
      ∧ binary.extent ["MaxLdsPerArray"] megasas_ctrl_info = some (0x788, 0x789)
      ∧ binary.extent ["PartitionsInDDF"] megasas_ctrl_info = some (0x789, 0x78A)
      ∧ binary.extent ["LockKeyBinding"] megasas_ctrl_info = some (0x78A, 0x78B)
      ∧ binary.extent ["MaxPITsPerLd"] megasas_ctrl_info = some (0x78B, 0x78C)
      ∧ binary.extent ["MaxViewsPerLd"] megasas_ctrl_info = some (0x78C, 0x78D)
      ∧ binary.extent ["MaxTargetId"] megasas_ctrl_info = some (0x78D, 0x78E)
      ∧ binary.extent ["MaxBvlVdSize"] megasas_ctrl_info = some (0x78E, 0x790)
      ∧ binary.extent ["MaxConfigurableSSCSize"] megasas_ctrl_info = some (0x790, 0x792)
      ∧ binary.extent ["CurrentSSCsize"] megasas_ctrl_info = some (0x792, 0x794)
      ∧ binary.extent ["ExpanderFwVersion"] megasas_ctrl_info = some (0x794, 0x7A0)
      ∧ binary.extent ["PFKTrialTimeRemaining"] megasas_ctrl_info = some (0x7A0, 0x7A2)
      ∧ binary.extent ["CacheMemorySize"] megasas_ctrl_info = some (0x7A2, 0x7A4)
      ∧ binary.extent ["AdapterOperations2"] megasas_ctrl_info = some (0x7A4, 0x7A8)
      ∧ binary.extent ["DriverVersion"] megasas_ctrl_info = some (0x7A8, 0x7C8)
      ∧ binary.extent ["MaxDAPdCountSpinup60"] megasas_ctrl_info = some (0x7C8, 0x7C9)
      ∧ binary.extent ["TemperatureROC"] megasas_ctrl_info = some (0x7C9, 0x7CA)
      ∧ binary.extent ["TemperatureCtrl"] megasas_ctrl_info = some (0x7CA, 0x7CB)
      ∧ binary.extent ["MaxConfigurablePds"] megasas_ctrl_info = some (0x7CC, 0x7CE)
      ∧ binary.extent ["ClusterId"] megasas_ctrl_info = some (0x7D4, 0x7E4)
      ∧ binary.extent ["Iov", "MaxVFsSupported"] megasas_ctrl_info = some (0x7E4, 0x7E5)
      ∧ binary.extent ["Iov", "NumVFsEnabled"] megasas_ctrl_info = some (0x7E5, 0x7E6)
      ∧ binary.extent ["Iov", "RequestorId"] megasas_ctrl_info = some (0x7E6, 0x7E7)
      ∧ binary.extent ["Iov", "Reserved"] megasas_ctrl_info = some (0x7E7, 0x7E8)
      ∧ binary.extent ["AdapterOperations4"] megasas_ctrl_info = some (0x7FC, 0x7FE)
      ∧ ("_", 0x7FE, 0x800) ∈ binary.layout megasas_ctrl_info.fields 0
      ∧ binary.extent ["Size"] megasas_ctrl_info = some (0x800, 0x804)
      ∧ 0x800 = 2 * 1024
      ∧ binary.sizeof megasas_ctrl_info = 2384
      ∧ Sizeof megasas_ctrl_info = 2384
      ∧ ∃ i data, MegasasGetCtrlInfo S A inst = some (i, data)
          ∧ (data.field "MaxPds").toNat = getLE (slice resp 0x780 2)
          ∧ (data.field "Size").toNat = getLE (slice resp 0x800 4) := by
  obtain ⟨e1, e2, e3, e4, e5, e6, e7, e8, e9, e10, e11, e12, e13, e14, e15, e16, e17,
    e18, e19, e20, e21, e22, e23, e24, e25, e26, e27, e28, e29, e30, e31, e32, e33,
    e34⟩ := megasas_ctrl_info_extents
  refine ⟨e1, e2, e3, e4, e5, e6, e7, e8, e9, e10, e11, e12, e13, e14, e15, e16, e17,
    e18, e19, e20, e21, e22, e23, e24, e25, e26, e27, e28, e29, e30, e31, e32, e33,
    e34, ?_⟩
  obtain ⟨pkt, _, h⟩ := MegasasGetCtrlInfo_eq S A inst
  have hB : fill (List.replicate 2384 0)
      (S MEGASAS_IOC_FIRMWARE pkt (List.replicate 2384 0)).2 = resp := by
    rw [hS]; exact fill_full _ _ (by rw [hlen, List.length_replicate])
  rw [hB] at h
  obtain ⟨f1, f2⟩ := megasas_ctrl_info_fields resp
  refine ⟨_, _, h, ?_, ?_⟩
  · rw [f1]; rfl
  · rw [f2]; rfl

/-- C31 for the response of 2384 zero bytes. -/
theorem megasas_ctrl_info_layout_witness :
    ∃ i data, MegasasGetCtrlInfo (fun _ _ _ => (0, List.replicate 2384 0)) 4096
          ⟨0, [], ⟨0⟩, ⟨List.replicate 12 0⟩⟩ = some (i, data)
      ∧ (data.field "Size").toNat = getLE (slice (List.replicate 2384 0) 0x800 4) := by
  obtain ⟨_, _, _, _, _, _, _, _, _, _, _, _, _, _, _, _, _, _, _, _, _, _, _, _, _, _,
    _, _, _, _, _, _, _, _, i, data, h, _, hs⟩ :=
    megasas_ctrl_info_layout (fun _ _ _ => (0, List.replicate 2384 0)) 4096
      ⟨0, [], ⟨0⟩, ⟨List.replicate 12 0⟩⟩ 0 (List.replicate 2384 0) (fun _ _ => rfl)
      (List.length_replicate _ _)
  exact ⟨i, data, h, hs⟩

/-! ## macro.go: the flag accessors -/

/-- A one-bit field of a 32-bit integer is 1 exactly when that bit is set. -/
theorem BitField_flag (b k : Nat) (hb : b < 2 ^ 32) (hk : k < 32) :
    (BitField 32 b k 1 == 1) = b.testBit k := by
  have hk2 : ¬ 32 ≤ k := by omega
  have hm : mask 1 % 2 ^ 32 = 1 := mask_mod 32 1 (by decide) (by decide)
  simp only [BitField, shr, if_neg hk2, Nat.mod_eq_of_lt hb, hm, Nat.testBit,
    Nat.and_one_is_mod, Nat.one_and_eq_mod_two]
  rcases Nat.mod_two_eq_zero_or_one (b >>> k) with h | h <;> simp [h]

/-- C32: `JbodEnabled` is true exactly when bit 13 of
`Properties.OnOffProperties.Bits` is set, the bit the listing gives
`enableJBOD` (13 one-bit fields come before it), and `NCQ` is true exactly
when bit 5 of `Properties.Bits` is set, the bit the listing gives `NCQ`
(after `piType:3`, `piFormatted:1`, `piEligible:1`); so each result is the
same for two 32-bit integers that agree in that bit. -/
theorem flag_accessors (ctrl ctrl2 : GoValue) (info info2 : MR_PD_INFO)
    (hc : (((ctrl.field "Properties").field "OnOffProperties").field "Bits").toNat
      < 2 ^ 32)
    (hc2 : (((ctrl2.field "Properties").field "OnOffProperties").field "Bits").toNat
      < 2 ^ 32)
    (hi : info.Properties.Bits < 2 ^ 32) (hi2 : info2.Properties.Bits < 2 ^ 32) :
    megasas_ctrl_info.JbodEnabled ctrl
        = (((ctrl.field "Properties").field "OnOffProperties").field "Bits").toNat.testBit
            13
      ∧ bitOffset "enableJBOD" OnOffProperties.listing = some 13
      ∧ ((((ctrl.field "Properties").field "OnOffProperties").field "Bits").toNat.testBit
            13
          = (((ctrl2.field "Properties").field "OnOffProperties").field
              "Bits").toNat.testBit 13 →
          megasas_ctrl_info.JbodEnabled ctrl = megasas_ctrl_info.JbodEnabled ctrl2)
      ∧ info.NCQ = info.Properties.Bits.testBit 5
      ∧ bitOffset "NCQ" MR_PD_INFO.Properties.listing = some 5
      ∧ (info.Properties.Bits.testBit 5 = info2.Properties.Bits.testBit 5 →
          info.NCQ = info2.NCQ) := by
  have j1 := BitField_flag _ 13 hc (by decide)
  have j2 := BitField_flag _ 13 hc2 (by decide)
  have n1 := BitField_flag _ 5 hi (by decide)
  have n2 := BitField_flag _ 5 hi2 (by decide)
  refine ⟨j1, by decide, ?_, n1, by decide, ?_⟩
  · intro h
    rw [megasas_ctrl_info.JbodEnabled, megasas_ctrl_info.JbodEnabled, j1, j2, h]
  · intro h
    rw [MR_PD_INFO.NCQ, MR_PD_INFO.NCQ, n1, n2, h]

/-- C32 for `OnOffProperties.Bits = 0x2000` against `0xFFFFFFFF`, and
`Properties.Bits = 0x20` against `0xFFFFFFFF`: the flags are set, and the
other 31 bits make no difference. -/
theorem flag_accessors_witness :
    megasas_ctrl_info.JbodEnabled
        (.struct [("Properties", .struct [("OnOffProperties",
          .struct [("Bits", .uint 0x2000)])])]) = true
      ∧ megasas_ctrl_info.JbodEnabled
          (.struct [("Properties", .struct [("OnOffProperties",
            .struct [("Bits", .uint 0x2000)])])])
        = megasas_ctrl_info.JbodEnabled
          (.struct [("Properties", .struct [("OnOffProperties",
            .struct [("Bits", .uint 0xFFFFFFFF)])])])
      ∧ ({ Properties := ⟨0x20⟩ } : MR_PD_INFO).NCQ = true
      ∧ ({ Properties := ⟨0x20⟩ } : MR_PD_INFO).NCQ
        = ({ Properties := ⟨0xFFFFFFFF⟩ } : MR_PD_INFO).NCQ := by
  have h := flag_accessors
    (.struct [("Properties", .struct [("OnOffProperties",
      .struct [("Bits", .uint 0x2000)])])])
    (.struct [("Properties", .struct [("OnOffProperties",
      .struct [("Bits", .uint 0xFFFFFFFF)])])])
    { Properties := ⟨0x20⟩ } { Properties := ⟨0xFFFFFFFF⟩ }
    (by decide) (by decide) (by decide) (by decide)
  exact ⟨h.1.trans (by decide), h.2.2.1 (by decide), h.2.2.2.1.trans (by decide),
    h.2.2.2.2.2 (by decide)⟩

/-! ## megaraid_test.go: TestPDINFO against MegasasGetPdInfo -/

/-- The packet `TestPDINFO` builds, byte by byte. -/
theorem TestPDINFO_iocBuf (A host eid did : Nat) (buf : List Nat) (hbuf : buf ≠ []) :
    TestPDINFO.iocBuf A host eid did buf = some
      (putLE 2 host ++ [0, 0] ++ [40, 0, 0, 0] ++ [1, 0, 0, 0]
        ++ List.replicate 8 0
        ++ ([5, 0, 255, 0, 0, 0, 0, 1] ++ List.replicate 8 0 ++ [16, 0, 0, 0]
          ++ putLE 4 (buf.length % 2 ^ 32) ++ putLE 4 MR_DCMD_PD_GET_INFO
          ++ putLE 2 ((eid * 128 + did) % 2 ^ 16)
          ++ List.replicate 98 0)
        ++ (putLE 8 (A % 2 ^ 64) ++ putLE 8 (buf.length % 2 ^ 64)
          ++ List.replicate 240 0)) := by
  obtain ⟨h1, h2, h3, h4, h5, h6, h7, h8, h9, h10⟩ := Offsetof_values
  unfold TestPDINFO.iocBuf
  cases hb : buf with
  | nil => exact absurd hb hbuf
  | cons b bs =>
    simp only [h1, h2, h3, h4, h5, h6, h7, h8, h9, h10]
    simp [store, putLE, MFI_CMD_DCMD, MFI_FRAME_DIR_READ, MR_DCMD_PD_GET_INFO,
      MEGASAS_MAX_DEV_PER_CHANNEL, megasas_iocpacket.zero, MAX_IOCTL_SGE,
      megasas_iocpacket.PackedBytes, Iovec.PackedBytes, List.replicate]

/-- C33: for every host number, every device (channel `c`, id `d`) and every
buffer of 512 bytes at the same address, the packet `MegasasGetPdInfo`
passes through `MFI_READ` to the system call is, byte for byte, the packet
`TestPDINFO` builds by hand: host number, `sgl_off` 40, one SGE, command 5
(DCMD), status 0xFF, read direction, transfer length 512, opcode
`MR_DCMD_PD_GET_INFO`, mailbox word `c * 128 + d`, and one iovec. -/
theorem MegasasGetPdInfo_packet (S : Nat → List Nat → List Nat → Nat × List Nat)
    (A : Nat) (inst : Instance) (c d : Nat) (buf : List Nat)
    (hbuf : buf.length = 512) :
    ∃ pkt, MFI_READ.iocBuf A (MegasasGetPdInfo.prepare inst) [⟨c, d⟩] = some pkt
      ∧ TestPDINFO.iocBuf A inst.HostNo c d buf = some pkt
      ∧ pkt = putLE 2 inst.HostNo ++ [0, 0] ++ [40, 0, 0, 0] ++ [1, 0, 0, 0]
          ++ List.replicate 8 0
          ++ ([5, 0, 255, 0, 0, 0, 0, 1] ++ List.replicate 8 0 ++ [16, 0, 0, 0]
            ++ putLE 4 512 ++ putLE 4 MR_DCMD_PD_GET_INFO
            ++ putLE 2 ((c * 128 + d) % 2 ^ 16)
            ++ List.replicate 98 0)
          ++ (putLE 8 (A % 2 ^ 64) ++ putLE 8 512 ++ List.replicate 240 0)
      ∧ ∃ r, MegasasGetPdInfo S A inst ⟨c, d⟩
          = some (⟨inst.HostNo,
                fill (List.replicate 512 0)
                  (S MEGASAS_IOC_FIRMWARE pkt (List.replicate 512 0)).2,
                ⟨MR_DCMD_PD_GET_INFO⟩, inst.Dcmd⟩, r) := by
  obtain ⟨pkt, hp, hq⟩ := MegasasGetPdInfo_eq S A inst ⟨c, d⟩
  have hne : buf ≠ [] := by
    intro h; rw [h] at hbuf; exact absurd hbuf (by decide)
  have h1 := iocBuf_device A (MegasasGetPdInfo.prepare inst) ⟨c, d⟩ []
    (by rw [(prepare_eq inst).2.1]; exact replicate_ne_nil _ (by decide))
  have h2 := TestPDINFO_iocBuf A inst.HostNo c d buf hne
  rw [hp, (prepare_eq inst).2.1] at h1
  dsimp only at h1
  rw [List.length_replicate, Nat.mod_add_mod, show (512 : Nat) % 2 ^ 32 = 512 from rfl,
    show (512 : Nat) % 2 ^ 64 = 512 from rfl] at h1
  rw [hbuf, show (512 : Nat) % 2 ^ 32 = 512 from rfl,
    show (512 : Nat) % 2 ^ 64 = 512 from rfl] at h2
  have e : pkt = putLE 2 inst.HostNo ++ [0, 0] ++ [40, 0, 0, 0] ++ [1, 0, 0, 0]
          ++ List.replicate 8 0
          ++ ([5, 0, 255, 0, 0, 0, 0, 1] ++ List.replicate 8 0 ++ [16, 0, 0, 0]
            ++ putLE 4 512 ++ putLE 4 MR_DCMD_PD_GET_INFO
            ++ putLE 2 ((c * 128 + d) % 2 ^ 16)
            ++ List.replicate 98 0)
          ++ (putLE 8 (A % 2 ^ 64) ++ putLE 8 512 ++ List.replicate 240 0) :=
    Option.some.inj h1
  exact ⟨pkt, hp, by rw [h2, e], e, _, hq⟩

/-- C33 on host 0 for the device (0, 10) of the test. -/
theorem MegasasGetPdInfo_packet_witness :
    ∃ pkt, MFI_READ.iocBuf 4096
          (MegasasGetPdInfo.prepare ⟨0, [], ⟨0⟩, ⟨List.replicate 12 0⟩⟩) [⟨0, 10⟩]
        = some pkt
      ∧ TestPDINFO.iocBuf 4096 0 0 10 (List.replicate 512 0) = some pkt := by
  obtain ⟨pkt, h1, h2, _⟩ := MegasasGetPdInfo_packet (fun _ _ _ => (0, [])) 4096
    ⟨0, [], ⟨0⟩, ⟨List.replicate 12 0⟩⟩ 0 10 (List.replicate 512 0)
    (List.length_replicate _ _)
  exact ⟨pkt, h1, h2⟩

/-! ## parse_info.go: ParseVpdPage83Jbod is total -/

theorem sprintfNaa_Result (wwn : Nat) : ParseVpdPage83Jbod.Result (sprintfNaa wwn) :=
  Or.inl ⟨hexFixed 16 (wwn % 2 ^ 64), rfl, hexFixed_length _ _, hexFixed_mem _ _⟩

/-- From an offset within the data, with 5 bytes of data per iteration
allowed, the loop returns, the run-time checks all pass, and the result is
of the expected form. -/
theorem loop_total (data : List Nat) :
    ∀ (fuel offset : Nat), offset ≤ data.length → data.length < offset + 5 * fuel →
      ∃ s, ParseVpdPage83Jbod.loop data fuel offset = some s
        ∧ ParseVpdPage83Jbod.checked data fuel offset = .returns s
        ∧ ParseVpdPage83Jbod.Result s
  | 0, offset, h1, h2 => by omega
  | fuel + 1, offset, h1, h2 => by
    unfold ParseVpdPage83Jbod.loop ParseVpdPage83Jbod.checked
    by_cases c1 : offset < data.length
    · rw [if_pos c1, if_pos c1]
      by_cases c2 : offset + 4 > data.length
      · rw [if_pos c2, if_pos c2]
        exact ⟨_, rfl, rfl, Or.inr (Or.inr (Or.inl rfl))⟩
      · rw [if_neg c2, if_neg c2]
        have h3 : offset + 3 < data.length := by omega
        rw [List.getElem?_eq_getElem h3, List.getD_eq_getElem?_getD,
          List.getElem?_eq_getElem h3]
        simp only [Option.getD_some]
        by_cases c3 : data[offset + 3] = 0 ∨ offset + 4 + data[offset + 3] > data.length
        · rw [if_pos c3, if_pos c3]
          exact ⟨_, rfl, rfl, Or.inr (Or.inr (Or.inl rfl))⟩
        · rw [if_neg c3, if_neg c3]
          have c4 : ¬ offset + 4 + data[offset + 3] > data.length := fun h => c3 (Or.inr h)
          have c5 : data[offset + 3] ≠ 0 := fun h => c3 (Or.inl h)
          rw [if_neg c4]
          have ih := loop_total data fuel (offset + 4 + data[offset + 3]) (by omega)
            (by omega)
          by_cases c6 : (slice data (offset + 4) data[offset + 3]).length ≥ 8
          · rw [if_pos c6, if_pos c6]
            have h0 : 0 < (slice data (offset + 4) data[offset + 3]).length := by omega
            rw [List.getElem?_eq_getElem h0, List.getD_eq_getElem?_getD,
              List.getElem?_eq_getElem h0]
            simp only [Option.getD_some]
            by_cases c7 : shr 8 (slice data (offset + 4) data[offset + 3])[0] 4 &&& 0xF = 0x5
                ∨ shr 8 (slice data (offset + 4) data[offset + 3])[0] 4 &&& 0xF = 0x6
            · rw [if_pos c7, if_pos c7]
              have c8 : ¬ ((slice data (offset + 4) data[offset + 3]).drop
                  ((slice data (offset + 4) data[offset + 3]).length - 8)).length < 8 := by
                rw [List.length_drop]; omega
              rw [if_neg c8]
              exact ⟨_, rfl, rfl, sprintfNaa_Result _⟩
            · rw [if_neg c7, if_neg c7]
              exact ih
          · rw [if_neg c6, if_neg c6]
            exact ih
    · rw [if_neg c1, if_neg c1]
      exact ⟨_, rfl, rfl, Or.inr (Or.inr (Or.inr rfl))⟩

/-- Two bounds that both allow 5 bytes per iteration give the same result. -/
theorem loop_agree (data : List Nat) :
    ∀ (f1 f2 offset : Nat), offset ≤ data.length → data.length < offset + 5 * f1 →
      data.length < offset + 5 * f2 →
      ParseVpdPage83Jbod.loop data f1 offset = ParseVpdPage83Jbod.loop data f2 offset
  | 0, _, offset, h, h1, _ => by omega
  | _ + 1, 0, offset, h, _, h2 => by omega
  | f1 + 1, f2 + 1, offset, h, h1, h2 => by
    simp only [ParseVpdPage83Jbod.loop]
    split_ifs with c1 c2 c3 c4 c5
    all_goals first
      | rfl
      | exact loop_agree data f1 f2 _ (by omega) (by omega) (by omega)

/-- C34: `ParseVpdPage83Jbod` is total on every byte slice: the loop ends
(the offset grows by at least 5 in every iteration, so any bound `fuel` with
`len(data) < 4 + 5 * fuel` is enough, and `len(data) + 1` is), no index or
slice expression is out of range, and the result is "naa." followed by
exactly 16 lowercase hexadecimal digits or one of "invalid data", "invalid
length", "no valid WWN found". -/
theorem ParseVpdPage83Jbod_total (data : List Nat) :
    ∃ s, ParseVpdPage83Jbod data = some s
      ∧ ParseVpdPage83Jbod.run data = .returns s
      ∧ ParseVpdPage83Jbod.Result s
      ∧ ∀ fuel, 4 ≤ data.length → data.length < 4 + 5 * fuel →
          ParseVpdPage83Jbod.loop data fuel 4 = some s
            ∧ ParseVpdPage83Jbod.checked data fuel 4 = .returns s := by
  unfold ParseVpdPage83Jbod ParseVpdPage83Jbod.run
  by_cases h4 : data.length < 4
  · rw [if_pos h4, if_pos h4]
    exact ⟨_, rfl, rfl, Or.inr (Or.inl rfl), fun fuel h => by omega⟩
  · rw [if_neg h4, if_neg h4]
    obtain ⟨s, hs, hc, hr⟩ := loop_total data (data.length + 1) 4 (by omega) (by omega)
    refine ⟨s, hs, hc, hr, ?_⟩
    intro fuel _ hf
    obtain ⟨s2, hs2, hc2, _⟩ := loop_total data fuel 4 (by omega) hf
    have hmono : s2 = s := by
      have ha := loop_agree data fuel (data.length + 1) 4 (by omega) hf (by omega)
      rw [hs2, hs] at ha
      exact Option.some.inj ha
    rw [hs2, hc2, hmono]
    exact ⟨rfl, rfl⟩

/-- C34 on a page with one descriptor of 8 bytes whose NAA nibble is 5. -/
theorem ParseVpdPage83Jbod_total_witness :
    ∃ s, ParseVpdPage83Jbod
          [0, 0x83, 0, 12, 1, 3, 0, 8, 0x50, 1, 2, 3, 4, 5, 6, 7] = some s
      ∧ ParseVpdPage83Jbod.run
          [0, 0x83, 0, 12, 1, 3, 0, 8, 0x50, 1, 2, 3, 4, 5, 6, 7] = .returns s
      ∧ ParseVpdPage83Jbod.Result s := by
  obtain ⟨s, h1, h2, h3, _⟩ := ParseVpdPage83Jbod_total
    [0, 0x83, 0, 12, 1, 3, 0, 8, 0x50, 1, 2, 3, 4, 5, 6, 7]
  exact ⟨s, h1, h2, h3⟩

/-! ## parse_info.go: ArrayZip, exactly -/

theorem foldl_step_zeros (offset : Nat) :
    ∀ (pre : List Nat) (va : Nat), (∀ a ∈ pre, a = 0) →
      pre.foldl (ArrayZip.step offset) va = va
  | [], _, _ => rfl
  | a :: t, va, h => by
    have ha : a = 0 := h a (List.mem_cons_self _ _)
    rw [List.foldl_cons, ha]
    simp only [ArrayZip.step, if_true]
    exact foldl_step_zeros offset t va (fun x hx => h x (List.mem_cons_of_mem _ hx))

theorem or_ne_zero (k x : Nat) (hk : k ≠ 0) : k ||| x ≠ 0 := by
  obtain ⟨i, hi⟩ := Nat.ne_zero_implies_bit_true hk
  intro h0
  have : (k ||| x).testBit i = true := by rw [Nat.testBit_or, hi]; rfl
  rw [h0, Nat.zero_testBit] at this
  exact Bool.noConfusion this

theorem or_mod_pow (a b n : Nat) : (a ||| b) % 2 ^ n = a % 2 ^ n ||| b % 2 ^ n := by
  apply Nat.eq_of_testBit_eq
  intro i
  simp only [Nat.testBit_mod_two_pow, Nat.testBit_or]
  cases decide (i < n) <;> simp

theorem step_or (offset k acc a : Nat) (ho : offset < 64) (hk : k ≠ 0)
    (ha : a < 2 ^ 64) :
    ArrayZip.step offset (k ||| (acc <<< offset) % 2 ^ 64) a
      = k ||| ((acc ||| a) <<< offset) % 2 ^ 64 := by
  unfold ArrayZip.step
  by_cases h0 : a = 0
  · rw [if_pos h0, h0, Nat.or_zero]
  · rw [if_neg h0, if_neg (or_ne_zero k _ hk), shl, if_neg (by omega),
      Nat.mod_eq_of_lt ha]
    apply Nat.eq_of_testBit_eq
    intro i
    simp only [Nat.testBit_mod_two_pow, Nat.testBit_or, Nat.testBit_shiftLeft]
    cases decide (i < 64) <;> cases decide (i ≥ offset) <;> cases k.testBit i <;>
      cases acc.testBit (i - offset) <;> cases a.testBit (i - offset) <;> rfl

theorem foldl_step_rest (offset k : Nat) (ho : offset < 64) (hk : k ≠ 0) :
    ∀ (rest : List Nat) (acc : Nat), (∀ a ∈ rest, a < 2 ^ 64) →
      rest.foldl (ArrayZip.step offset) (k ||| (acc <<< offset) % 2 ^ 64)
        = k ||| ((rest.foldl (fun x y => x ||| y) acc) <<< offset) % 2 ^ 64
  | [], _, _ => rfl
  | a :: t, acc, h => by
    rw [List.foldl_cons, List.foldl_cons,
      step_or offset k acc a ho hk (h a (List.mem_cons_self _ _))]
    exact foldl_step_rest offset k ho hk t (acc ||| a)
      (fun x hx => h x (List.mem_cons_of_mem _ hx))

/-- The result of `ArrayZip` on a sequence whose first non-zero word is
`k`. -/
theorem ArrayZip_split (offset k : Nat) (pre rest : List Nat) (ho : offset < 64)
    (hpre : ∀ a ∈ pre, a = 0) (hk : k ≠ 0) (hk64 : k < 2 ^ 64)
    (hrest : ∀ a ∈ rest, a < 2 ^ 64) :
    ArrayZip (pre ++ k :: rest) offset
      = some (k ||| ((rest.foldl (fun x y => x ||| y) 0) <<< offset) % 2 ^ 64) := by
  have hlen : ¬ (pre ++ k :: rest).length < 1 := by simp
  rw [ArrayZip, if_neg hlen, List.foldl_append, foldl_step_zeros offset pre 0 hpre,
    List.foldl_cons]
  have h1 : ArrayZip.step offset 0 k = k ||| ((0 : Nat) <<< offset) % 2 ^ 64 := by
    rw [ArrayZip.step, if_neg hk, if_pos rfl, Nat.mod_eq_of_lt hk64, Nat.zero_shiftLeft,
      Nat.zero_mod, Nat.or_zero]
  rw [h1, foldl_step_rest offset k ho hk rest 0 hrest]

theorem first_nonzero :
    ∀ (arr : List Nat), ¬ (∀ a ∈ arr, a = 0) →
      ∃ pre k rest, arr = pre ++ k :: rest ∧ (∀ a ∈ pre, a = 0) ∧ k ≠ 0
  | [], h => absurd (fun a ha => absurd ha (List.not_mem_nil a)) h
  | a :: t, h => by
    by_cases ha : a = 0
    · have ht : ¬ (∀ x ∈ t, x = 0) := by
        intro hall
        apply h
        intro x hx
        rcases List.mem_cons.mp hx with hx | hx
        · rw [hx, ha]
        · exact hall x hx
      obtain ⟨pre, k, rest, e, hp, hk⟩ := first_nonzero t ht
      refine ⟨a :: pre, k, rest, by rw [e]; rfl, ?_, hk⟩
      intro x hx
      rcases List.mem_cons.mp hx with hx | hx
      · rw [hx, ha]
      · exact hp x hx
    · exact ⟨[], a, t, rfl, fun x hx => absurd hx (List.not_mem_nil x), ha⟩

/-- C35: for every non-empty sequence `arr` of 64-bit words and every
`offset < 64`, `ArrayZip(arr, offset)` is 0 exactly when every word is 0;
otherwise, with `k` the first non-zero word, it is
`k | ((OR of the words after k) << offset)` modulo `2^64`: the first
non-zero word is not shifted and every later word is shifted by `offset`
whatever its index.  For four 32-bit words `[a, b, c, d]` with `a ≠ 0` and
offset 32 that is `a | ((b | c | d) << 32)`. -/
theorem ArrayZip_exact (arr : List Nat) (offset : Nat) (hne : arr ≠ [])
    (ho : offset < 64) (hw : ∀ a ∈ arr, a < 2 ^ 64) :
    ∃ v, ArrayZip arr offset = some v
      ∧ (v = 0 ↔ ∀ a ∈ arr, a = 0)
      ∧ (∀ pre k rest, arr = pre ++ k :: rest → (∀ a ∈ pre, a = 0) → k ≠ 0 →
          v = k ||| ((rest.foldl (fun x y => x ||| y) 0) <<< offset) % 2 ^ 64
            ∧ v = (k ||| (rest.foldl (fun x y => x ||| y) 0) <<< offset) % 2 ^ 64)
      ∧ (∀ a b c d, arr = [a, b, c, d] → offset = 32 → a ≠ 0 →
          a < 2 ^ 32 → b < 2 ^ 32 → c < 2 ^ 32 → d < 2 ^ 32 →
          v = a ||| ((b ||| c ||| d) <<< 32)) := by
  have hlen : ¬ arr.length < 1 := by
    cases arr with
    | nil => exact absurd rfl hne
    | cons a t => simp
  have hsplit : ∀ pre k rest, arr = pre ++ k :: rest → (∀ a ∈ pre, a = 0) → k ≠ 0 →
      arr.foldl (ArrayZip.step offset) 0
        = k ||| ((rest.foldl (fun x y => x ||| y) 0) <<< offset) % 2 ^ 64 := by
    intro pre k rest e hp hk
    have hk64 : k < 2 ^ 64 := hw k (by rw [e]; simp)
    have hrest : ∀ a ∈ rest, a < 2 ^ 64 := fun a ha => hw a (by rw [e]; simp [ha])
    have h := ArrayZip_split offset k pre rest ho hp hk hk64 hrest
    rw [← e, ArrayZip, if_neg hlen] at h
    exact Option.some.inj h
  refine ⟨_, by rw [ArrayZip, if_neg hlen], ?_, ?_, ?_⟩
  · constructor
    · intro hv
      by_contra hall
      obtain ⟨pre, k, rest, e, hp, hk⟩ := first_nonzero arr hall
      rw [hsplit pre k rest e hp hk] at hv
      exact or_ne_zero k _ hk hv
    · intro hall
      exact foldl_step_zeros offset arr 0 hall
  · intro pre k rest e hp hk
    have hk64 : k < 2 ^ 64 := hw k (by rw [e]; simp)
    refine ⟨hsplit pre k rest e hp hk, ?_⟩
    rw [hsplit pre k rest e hp hk, or_mod_pow, Nat.mod_eq_of_lt hk64]
  · intro a b c d e ho32 ha ha32 hb hc hd
    have h := hsplit [] a [b, c, d] e (fun x hx => absurd hx (List.not_mem_nil x)) ha
    rw [h, ho32]
    have hor : b ||| c ||| d < 2 ^ 32 :=
      Nat.or_lt_two_pow (Nat.or_lt_two_pow hb hc) hd
    have hlt : (b ||| c ||| d) <<< 32 < 2 ^ 64 := by
      rw [Nat.shiftLeft_eq]; omega
    simp only [List.foldl_cons, List.foldl_nil, Nat.zero_or]
    rw [Nat.mod_eq_of_lt hlt]

/-- C35 on `[0, 1, 1]` with offset 8: the first non-zero word is `arr[1]`,
and the result is `1 | (1 << 8) = 257`. -/
theorem ArrayZip_exact_witness :
    ArrayZip [0, 1, 1] 8 = some 257 := by
  obtain ⟨v, hv, _, h, _⟩ := ArrayZip_exact [0, 1, 1] 8 (by decide) (by decide)
    (by decide)
  rw [hv, (h [0] 1 [1] rfl (by decide) (by decide)).1]
  rfl

/-! ## macro.go: GetFwState -/

theorem GetFwState_byte (b : Nat) (info : MR_PD_INFO) (h : info.FwState % 2 ^ 8 = b) :
    info.GetFwState
      = (if b = 0x00 then "UGood" else if b = 0x01 then "UBad"
         else if b = 0x02 then "HotSpare" else if b = 0x10 then "Offline"
         else if b = 0x11 then "Failed" else if b = 0x14 then "Rebuild"
         else if b = 0x18 then "Online" else if b = 0x20 then "Copyback"
         else if b = 0x40 then "Jbod" else "Unkown") := by
  simp only [MR_PD_INFO.GetFwState, h, MR_PD_STATE_UNCONFIGURED_GOOD,
    MR_PD_STATE_UNCONFIGURED_BAD, MR_PD_STATE_HOT_SPARE, MR_PD_STATE_OFFLINE,
    MR_PD_STATE_FAILED, MR_PD_STATE_REBUILD, MR_PD_STATE_ONLINE, MR_PD_STATE_COPYBACK,
    MR_PD_STATE_SYSTEM]

/-- C36: for every 16-bit `FwState`, `GetFwState` depends only on
`FwState mod 256`: it is "UGood" for 0x00, "UBad" for 0x01, "HotSpare" for
0x02, "Offline" for 0x10, "Failed" for 0x11, "Rebuild" for 0x14, "Online"
for 0x18, "Copyback" for 0x20, "Jbod" for 0x40 and "Unkown" for every other
low byte; so the state 0x0118 is reported as "Online". -/
theorem GetFwState_low_byte (info info2 : MR_PD_INFO) :
    (info2.FwState % 256 = info.FwState % 256 → info2.GetFwState = info.GetFwState)
      ∧ (info.FwState % 256 = 0x00 → info.GetFwState = "UGood")
      ∧ (info.FwState % 256 = 0x01 → info.GetFwState = "UBad")
      ∧ (info.FwState % 256 = 0x02 → info.GetFwState = "HotSpare")
      ∧ (info.FwState % 256 = 0x10 → info.GetFwState = "Offline")
      ∧ (info.FwState % 256 = 0x11 → info.GetFwState = "Failed")
      ∧ (info.FwState % 256 = 0x14 → info.GetFwState = "Rebuild")
      ∧ (info.FwState % 256 = 0x18 → info.GetFwState = "Online")
      ∧ (info.FwState % 256 = 0x20 → info.GetFwState = "Copyback")
      ∧ (info.FwState % 256 = 0x40 → info.GetFwState = "Jbod")
      ∧ (info.FwState % 256 ∉ [0x00, 0x01, 0x02, 0x10, 0x11, 0x14, 0x18, 0x20, 0x40] →
          info.GetFwState = "Unkown")
      ∧ (info.FwState = 0x0118 → info.GetFwState = "Online") := by
  have key := GetFwState_byte (info.FwState % 256) info rfl
  refine ⟨?_, ?_, ?_, ?_, ?_, ?_, ?_, ?_, ?_, ?_, ?_, ?_⟩
  · intro h2
    rw [key, GetFwState_byte (info.FwState % 256) info2 h2]
  all_goals intro h0
  · rw [key, h0]; rfl
  · rw [key, h0]; rfl
  · rw [key, h0]; rfl
  · rw [key, h0]; rfl
  · rw [key, h0]; rfl
  · rw [key, h0]; rfl
  · rw [key, h0]; rfl
  · rw [key, h0]; rfl
  · rw [key, h0]; rfl
  · simp only [List.mem_cons, List.mem_singleton, List.not_mem_nil, or_false, not_or] at h0
    obtain ⟨a1, a2, a3, a4, a5, a6, a7, a8, a9⟩ := h0
    rw [key, if_neg a1, if_neg a2, if_neg a3, if_neg a4, if_neg a5, if_neg a6, if_neg a7,
      if_neg a8, if_neg a9]
  · rw [key, h0]; rfl

/-- C36 at `FwState = 0x0118`: "Online". -/
theorem GetFwState_low_byte_witness :
    ({ FwState := 0x0118 } : MR_PD_INFO).GetFwState = "Online" :=
  (GetFwState_low_byte { FwState := 0x0118 } { FwState := 0x18 }).2.2.2.2.2.2.2.2.2.2.2
    rfl

/-! ## megaraid.go: MegasasLdListQuery and its queryType -/

/-- The index panic of `MegasasLdListQuery`: when the buffer after the
exchange has a count field above 256, the print loop reaches `TargetId[256]`
and the call does not return. -/
theorem MegasasLdListQuery_panics (S : Nat → List Nat → List Nat → Nat × List Nat)
    (A : Nat) (inst : Instance) (queryType errno : Nat) (resp : List Nat)
    (hS : ∀ pkt buf, S MEGASAS_IOC_FIRMWARE pkt buf = (errno, resp))
    (hlen : resp.length = 268) (hc : 256 < getLE (slice resp 4 4)) :
    MegasasLdListQuery S A inst queryType = none := by
  obtain ⟨pkt, _, h⟩ := MegasasLdListQuery_eq S A inst queryType
  have hB : fill (List.replicate 268 0)
      (S MEGASAS_IOC_FIRMWARE pkt (List.replicate 268 0)).2 = resp := by
    rw [hS]; exact fill_full _ _ (by rw [hlen, List.length_replicate])
  have h' := h resp hB.symm
  rw [if_neg (by omega)] at h'
  exact h'

/-- The response of 268 bytes whose count field is 257 (bytes 4 and 5 equal
to 1): `MegasasLdListQuery` panics. -/
theorem MegasasLdListQuery_panics_257 :
    getLE (slice ([0, 0, 0, 0, 1, 1, 0, 0] ++ List.replicate 260 0) 4 4) = 257
      ∧ MegasasLdListQuery
          (fun _ _ _ => (0, [0, 0, 0, 0, 1, 1, 0, 0] ++ List.replicate 260 0)) 4096
          ⟨0, [], ⟨0⟩, ⟨List.replicate 12 0⟩⟩ 1 = none := by
  have hc : getLE (slice ([0, 0, 0, 0, 1, 1, 0, 0] ++ List.replicate 260 0) 4 4)
      = 257 := by
    decide
  exact ⟨hc, MegasasLdListQuery_panics _ 4096 _ 1 0 _ (fun _ _ => rfl)
    (by rw [List.length_append, List.length_replicate]; rfl) (by rw [hc]; decide)⟩

set_option maxRecDepth 8000 in
/-- C37: the request `MegasasLdListQuery` builds does not depend on
`queryType`: for every two values, on the same instance, the call builds the
one packet of the instance it prepares, whose mailbox is
`MR_LD_QUERY_TYPE_EXPOSED_TO_HOST = 1` followed by eleven zero bytes, and
ends the same way: with `B` the buffer after the exchange of that packet, it
returns `nil` when the count field of `B` is at most 256 and panics in its
print loop otherwise. -/
theorem MegasasLdListQuery_queryType
    (S : Nat → List Nat → List Nat → Nat × List Nat) (A : Nat) (inst : Instance)
    (q1 q2 : Nat) (hlen : inst.Dcmd.MboxB.length = 12) :
    MegasasLdListQuery S A inst q1 = MegasasLdListQuery S A inst q2
      ∧ ∃ pkt, MFI_READ.iocBuf A (MegasasLdListQuery.prepare inst) [] = some pkt
          ∧ mboxOf (frameOf pkt) = MR_LD_QUERY_TYPE_EXPOSED_TO_HOST :: List.replicate 11 0
          ∧ MR_LD_QUERY_TYPE_EXPOSED_TO_HOST = 1
          ∧ ∀ B, B = fill (List.replicate 268 0)
                    (S MEGASAS_IOC_FIRMWARE pkt (List.replicate 268 0)).2 →
              MegasasLdListQuery S A inst q1
                = if getLE (slice B 4 4) ≤ 256
                  then some (⟨inst.HostNo, B, ⟨MR_DCMD_LD_LIST_QUERY⟩,
                        ⟨inst.Dcmd.MboxB.set 0 1⟩⟩, none)
                  else none := by
  obtain ⟨pkt, hp, h1⟩ := MegasasLdListQuery_eq S A inst q1
  obtain ⟨pkt2, hp2, h2⟩ := MegasasLdListQuery_eq S A inst q2
  have e : pkt2 = pkt := Option.some.inj (hp2.symm.trans hp)
  rw [e] at h2
  refine ⟨(h1 _ rfl).trans (h2 _ rfl).symm, pkt, hp, ?_, rfl, h1⟩
  have hr := iocBuf_raw A (MegasasLdListQuery.prepare inst)
    (by rw [(prepare_eq inst).2.2.2.1]; exact replicate_ne_nil _ (by decide))
  rw [hp, (prepare_eq inst).2.2.2.1] at hr
  dsimp only at hr
  rw [set_getD _ hlen] at hr
  rw [Option.some.inj hr, putLE_two inst.HostNo, frameOf_shape]
  simp [mboxOf, slice, putLE, List.replicate, MR_LD_QUERY_TYPE_EXPOSED_TO_HOST]

/-- C37 for the query types 0 and 4 on host 0. -/
theorem MegasasLdListQuery_queryType_witness :
    MegasasLdListQuery (fun _ _ _ => (0, [])) 4096
        ⟨0, [], ⟨0⟩, ⟨List.replicate 12 0⟩⟩ 0
      = MegasasLdListQuery (fun _ _ _ => (0, [])) 4096
        ⟨0, [], ⟨0⟩, ⟨List.replicate 12 0⟩⟩ 4 :=
  (MegasasLdListQuery_queryType (fun _ _ _ => (0, [])) 4096
    ⟨0, [], ⟨0⟩, ⟨List.replicate 12 0⟩⟩ 0 4 rfl).1

/-! ## megaraid.go: PdSasAddr -/

theorem hexVal_snoc (cs : List Char) (c : Char) :
    hexVal (cs ++ [c]) = hexVal cs * 16 + hexDigitVal c := by
  simp [hexVal, List.foldl_append]

theorem formatBits_append :
    ∀ (fuel u : Nat) (a : List Char), formatBits fuel u a = formatBits fuel u [] ++ a
  | 0, _, _ => rfl
  | fuel + 1, u, a => by
    unfold formatBits
    by_cases h : u ≥ 16
    · rw [if_pos h, if_pos h, formatBits_append fuel _ (_ :: a),
        formatBits_append fuel _ [_]]
      simp
    · rw [if_neg h, if_neg h]; rfl

theorem formatBits_step (fuel u : Nat) (h : u ≥ 16) :
    formatBits (fuel + 1) u [] = formatBits fuel (u / 16) [] ++ [hexDigit (u % 16)] := by
  rw [formatBits, if_pos h, formatBits_append, Nat.shiftRight_eq_div_pow,
    show (15 : Nat) = 2 ^ 4 - 1 from rfl, Nat.and_pow_two_sub_one_eq_mod]

theorem formatBits_small (fuel u : Nat) (h : u < 16) :
    formatBits fuel u [] = [hexDigit u] := by
  cases fuel with
  | zero => rw [formatBits, Nat.mod_eq_of_lt h]
  | succ f => rw [formatBits, if_neg (by omega)]

/-- The digits `strconv.FormatUint(u, 16)` prints denote `u`. -/
theorem hexVal_formatBits :
    ∀ (fuel u : Nat), u < 16 ^ (fuel + 1) → hexVal (formatBits fuel u []) = u
  | 0, u, h => by
    have hu : u < 16 := by simpa using h
    rw [formatBits_small 0 u hu]
    simp [hexVal, hexDigitVal_hexDigit u hu]
  | fuel + 1, u, h => by
    by_cases h16 : u ≥ 16
    · have hd : u / 16 < 16 ^ (fuel + 1) := by
        rw [Nat.div_lt_iff_lt_mul (by decide)]
        rw [Nat.pow_succ] at h
        exact h
      rw [formatBits_step fuel u h16, hexVal_snoc, hexVal_formatBits fuel (u / 16) hd,
        hexDigitVal_hexDigit _ (Nat.mod_lt _ (by decide))]
      omega
    · have hu : u < 16 := by omega
      rw [formatBits_small _ u hu]
      simp [hexVal, hexDigitVal_hexDigit u hu]

theorem formatBits_mem :
    ∀ (fuel u : Nat), ∀ c ∈ formatBits fuel u [], c ∈ "0123456789abcdef".data
  | 0, u, c, hc => by
    rw [formatBits, List.mem_singleton] at hc
    rw [hc]; exact hexDigit_mem _ (Nat.mod_lt _ (by decide))
  | fuel + 1, u, c, hc => by
    by_cases h16 : u ≥ 16
    · rw [formatBits_step fuel u h16, List.mem_append, List.mem_singleton] at hc
      rcases hc with hc | hc
      · exact formatBits_mem fuel _ c hc
      · rw [hc]; exact hexDigit_mem _ (Nat.mod_lt _ (by decide))
    · have hu : u < 16 := by omega
      rw [formatBits_small _ u hu, List.mem_singleton] at hc
      rw [hc]; exact hexDigit_mem _ hu

theorem hexDigit_ne_zero : ∀ d, d < 16 → d ≠ 0 → hexDigit d ≠ '0' := by
  decide

/-- No leading zero: the first digit printed for a non-zero value is not
'0'. -/
theorem formatBits_head :
    ∀ (fuel u : Nat), u < 16 ^ (fuel + 1) → u ≠ 0 →
      ∃ c t, formatBits fuel u [] = c :: t ∧ c ≠ '0'
  | 0, u, h, h0 => by
    have hu : u < 16 := by simpa using h
    exact ⟨_, [], formatBits_small 0 u hu, hexDigit_ne_zero u hu h0⟩
  | fuel + 1, u, h, h0 => by
    by_cases h16 : u ≥ 16
    · have hd : u / 16 < 16 ^ (fuel + 1) := by
        rw [Nat.div_lt_iff_lt_mul (by decide)]
        rw [Nat.pow_succ] at h
        exact h
      have hne : u / 16 ≠ 0 := by
        have : 1 ≤ u / 16 := (Nat.le_div_iff_mul_le (by decide)).mpr (by omega)
        omega
      obtain ⟨c, t, e, hc⟩ := formatBits_head fuel (u / 16) hd hne
      exact ⟨c, t ++ [hexDigit (u % 16)], by rw [formatBits_step fuel u h16, e]; rfl, hc⟩
    · have hu : u < 16 := by omega
      exact ⟨_, [], formatBits_small _ u hu, hexDigit_ne_zero u hu h0⟩

theorem FormatUint16_val (v : Nat) (h : v < 2 ^ 64) :
    hexVal (FormatUint16 v).data = v := by
  rw [FormatUint16, Nat.mod_eq_of_lt h]
  exact hexVal_formatBits 16 v (Nat.lt_trans h (by decide))

theorem FormatUint16_inj (v w : Nat) (hv : v < 2 ^ 64) (hw : w < 2 ^ 64)
    (h : FormatUint16 v = FormatUint16 w) : v = w := by
  rw [← FormatUint16_val v hv, ← FormatUint16_val w hw, h]

theorem prefix_inj (p a b : String) (h : p ++ a = p ++ b) : a = b := by
  have h2 := congrArg String.data h
  rw [String.data_append, String.data_append] at h2
  exact String.ext (List.append_cancel_left h2)

/-- What `PdSasAddr` and `GetSasAddrs` print for the words `lo`, `hi`. -/
theorem PdSasAddr_words (lo hi : Nat) (a : MR_PD_ADDRESS) (hlo : lo < 2 ^ 32)
    (hhi : hi < 2 ^ 32) (ha : a.SasAddr = [lo, hi, 0, 0]) :
    PdSasAddr [lo, hi] 2 = some (.ok ("0x" ++ FormatUint16 (hi * 2 ^ 32 + lo)))
      ∧ a.GetSasAddrs
        = some ("0x" ++ FormatUint16 (if lo = 0 then hi else hi * 2 ^ 32 + lo)) := by
  have hlo64 : lo < 2 ^ 64 := Nat.lt_trans hlo (by decide)
  have hhi64 : hi < 2 ^ 64 := Nat.lt_trans hhi (by decide)
  constructor
  · simp only [PdSasAddr, ne_eq, not_true_eq_false, if_false]
    simp only [List.getElem?_cons_succ, List.getElem?_cons_zero]
    rw [shl_high hi hhi, Nat.mod_eq_of_lt hlo64, or_high_low lo hi hlo]
  · simp only [MR_PD_ADDRESS.GetSasAddrs, MR_PD_ADDRESS.GetSasAddr, ha]
    by_cases h0 : lo = 0
    · rw [if_pos h0, h0]
      by_cases h1 : hi = 0
      · rw [h1]; rfl
      · have hs := ArrayZip_split 32 hi [0] [0, 0] (by decide)
          (by intro x hx; simpa using hx) h1 hhi64 (by decide)
        rw [show [0] ++ hi :: [0, 0] = [0, hi, 0, 0] from rfl] at hs
        rw [hs]
        simp
    · rw [if_neg h0]
      have hs := ArrayZip_split 32 lo [] [hi, 0, 0] (by decide)
        (by intro x hx; exact absurd hx (List.not_mem_nil x)) h0 hlo64
        (by
          intro x hx
          simp only [List.mem_cons, List.mem_singleton, List.not_mem_nil, or_false] at hx
          rcases hx with hx | hx | hx
          · rw [hx]; exact hhi64
          · rw [hx]; decide
          · rw [hx]; decide)
      rw [show [] ++ lo :: [hi, 0, 0] = [lo, hi, 0, 0] from rfl] at hs
      rw [hs]
      have hh : hi <<< 32 = hi * 2 ^ 32 := Nat.shiftLeft_eq _ _
      have hlt : hi * 2 ^ 32 < 2 ^ 64 := by omega
      simp only [List.foldl_cons, List.foldl_nil, Nat.zero_or, Nat.or_zero, Option.map_some']
      rw [hh, Nat.mod_eq_of_lt hlt, Nat.lor_comm, or_high_low lo hi hlo]

/-- C38: `PdSasAddr` returns an error exactly when `n ≠ 2`; for `n = 2` and
32-bit words `lo`, `hi` it returns "0x" followed by the lowercase
hexadecimal digits, without leading zeros, of `hi * 2^32 + lo`; and that is
what `GetSasAddrs` returns for the words `[lo, hi, 0, 0]` exactly when
`lo ≠ 0` or `hi = 0`: for `lo = 0` and `hi ≠ 0`, `PdSasAddr` prints
`hi * 2^32` and `GetSasAddrs` prints `hi`. -/
theorem PdSasAddr_spec (array : List Nat) (n lo hi : Nat) (a : MR_PD_ADDRESS)
    (hlo : lo < 2 ^ 32) (hhi : hi < 2 ^ 32) (ha : a.SasAddr = [lo, hi, 0, 0]) :
    ((∃ e, PdSasAddr array n = some (.error e)) ↔ n ≠ 2)
      ∧ PdSasAddr [lo, hi] 2 = some (.ok ("0x" ++ FormatUint16 (hi * 2 ^ 32 + lo)))
      ∧ hexVal (FormatUint16 (hi * 2 ^ 32 + lo)).data = hi * 2 ^ 32 + lo
      ∧ (∀ c ∈ (FormatUint16 (hi * 2 ^ 32 + lo)).data, c ∈ "0123456789abcdef".data)
      ∧ (hi * 2 ^ 32 + lo ≠ 0 →
          ∃ c t, (FormatUint16 (hi * 2 ^ 32 + lo)).data = c :: t ∧ c ≠ '0')
      ∧ FormatUint16 0 = "0"
      ∧ (∃ s, a.GetSasAddrs = some s
          ∧ (PdSasAddr [lo, hi] 2 = some (.ok s) ↔ lo ≠ 0 ∨ hi = 0))
      ∧ (lo = 0 → hi ≠ 0 →
          PdSasAddr [lo, hi] 2 = some (.ok ("0x" ++ FormatUint16 (hi * 2 ^ 32)))
            ∧ a.GetSasAddrs = some ("0x" ++ FormatUint16 hi)) := by
  have hv : hi * 2 ^ 32 + lo < 2 ^ 64 := by omega
  have hhi64 : hi < 2 ^ 64 := Nat.lt_trans hhi (by decide)
  obtain ⟨hp, hg⟩ := PdSasAddr_words lo hi a hlo hhi ha
  refine ⟨?_, hp, FormatUint16_val _ hv, ?_, ?_, by decide, ?_, ?_⟩
  · constructor
    · rintro ⟨e, he⟩ h2
      rw [PdSasAddr, if_neg (by simpa using h2)] at he
      split at he
      · exact Except.noConfusion (Option.some.inj he)
      · exact Option.noConfusion he
    · intro h2
      exact ⟨_, by rw [PdSasAddr, if_pos h2]⟩
  · rw [FormatUint16, Nat.mod_eq_of_lt hv]
    exact formatBits_mem 16 _
  · intro h0
    rw [FormatUint16, Nat.mod_eq_of_lt hv]
    exact formatBits_head 16 _ (Nat.lt_trans hv (by decide)) h0
  · refine ⟨_, hg, ?_⟩
    rw [hp]
    constructor
    · intro h
      have h2 := prefix_inj _ _ _ (Except.ok.inj (Option.some.inj h))
      by_contra hc
      have hl : lo = 0 := by omega
      have hh : hi ≠ 0 := by omega
      rw [if_pos hl] at h2
      have := FormatUint16_inj _ _ hv hhi64 h2
      omega
    · intro h
      by_cases hl : lo = 0
      · have hh : hi = 0 := by omega
        rw [if_pos hl, hl, hh, Nat.zero_mul]
      · rw [if_neg hl]
  · intro hl hh
    rw [hp, hg, if_pos hl, hl, Nat.add_zero]
    exact ⟨rfl, rfl⟩

/-- C38 for `lo = 0`, `hi = 0x5000C500`: `PdSasAddr` prints
"0x5000c50000000000" where `GetSasAddrs` prints "0x5000c500". -/
theorem PdSasAddr_spec_witness :
    PdSasAddr [0, 0x5000C500] 2 = some (.ok "0x5000c50000000000")
      ∧ MR_PD_ADDRESS.GetSasAddrs ⟨0, 0, 0, 0, 0, 0, [0, 0x5000C500, 0, 0]⟩
        = some "0x5000c500" := by
  have h := (PdSasAddr_spec [] 2 0 0x5000C500 ⟨0, 0, 0, 0, 0, 0, [0, 0x5000C500, 0, 0]⟩
    (by decide) (by decide) rfl).2.2.2.2.2.2.2 rfl (by decide)
  have e1 : "0x" ++ FormatUint16 (0x5000C500 * 2 ^ 32) = "0x5000c50000000000" := by
    decide
  have e2 : "0x" ++ FormatUint16 0x5000C500 = "0x5000c500" := by decide
  rw [e1, e2] at h
  exact h

end Megaraid
